import Mathlib

/-! # chacerapp API server: resource names, pagination cursors and list handlers

A shallow embedding of the Go packages `name`, `store` (pagination) and
`server` (list handlers, request validation), followed by theorems about them.

Conventions of the embedding

* A Go `string` is a sequence of bytes: `GoString := List Nat`, every byte a
  number below 256.  String literals of the source are written `bytesOf "..."`
  (all literals of the source are ASCII).
* A Go function that returns `(T, error)` returns an `Outcome T`:
  `ok v` (nil error), `error e` (non-nil error), `panic` (a run-time panic such
  as an index out of range) or `timeout` (the loop fuel of the model ran out).
-/

namespace Chacer

/-! ## Go values -/

/-- A Go string: a sequence of bytes. -/
abbrev GoString := List Nat

/-- The bytes of an ASCII literal of the source. -/
def bytesOf (s : String) : GoString := s.toList.map Char.toNat

/-- The gRPC status codes used by the server. -/
inductive Code where
  | InvalidArgument
  | NotFound
  | AlreadyExists
  | FailedPrecondition
  | Internal
  deriving DecidableEq

/-- One `errdetails.BadRequest_FieldViolation`. -/
structure FieldViolation where
  field : GoString
  description : GoString
  deriving DecidableEq

/-- A Go `error` value: a gRPC status error (code, message, field violations of
its `BadRequest` detail) or any other error, identified by a description. -/
inductive GoError where
  | status (code : Code) (message : GoString) (details : List FieldViolation)
  | other (description : GoString)
  deriving DecidableEq

/-- The result of running a Go function. -/
inductive Outcome (α : Type) where
  | ok (value : α)
  | error (err : GoError)
  | panic
  | timeout
  deriving DecidableEq

/-! ## Package `name` -/

def CollectionAccounts : GoString := bytesOf "accounts"

def CollectionLocations : GoString := bytesOf "locations"

def CollectionColors : GoString := bytesOf "colors"

def CollectionDevices : GoString := bytesOf "devices"

def CollectionRooms : GoString := bytesOf "rooms"

/-- The byte `'-'`. -/
def hyphen : Nat := 45

/-- The byte `'/'`. -/
def slash : Nat := 47

/-- Go `strings.Join(parts, sep)`. -/
def stringsJoin (parts : List GoString) (sep : GoString) : GoString :=
  sep.intercalate parts

/-- Go `strings.Split(s, "/")`: the segments of `s` between the `/` bytes
(one segment, the empty one, for the empty string). -/
def stringsSplitSlash (s : GoString) : List GoString :=
  List.splitOn slash s

/-- Source: `invalidNameError`. -/
def invalidNameError (collectionIDs : List GoString) : GoError :=
  GoError.status Code.InvalidArgument
    (bytesOf "a valid name will be in the format of \x60"
      ++ stringsJoin collectionIDs (bytesOf "/*/") ++ bytesOf "/*\x60") []

/-- Source: `BuildRelativeName`. -/
def BuildRelativeName (parts : List GoString) : GoString :=
  stringsJoin parts (bytesOf "/")

/-- Source: `BuildAccount`. -/
def BuildAccount (account : GoString) : GoString :=
  BuildRelativeName [CollectionAccounts, account]

/-- Source: `BuildRoom`. -/
def BuildRoom (account location room : GoString) : GoString :=
  BuildRelativeName
    [CollectionAccounts, account, CollectionLocations, location, CollectionRooms, room]

/-- Source: `BuildLocation`. -/
def BuildLocation (account location : GoString) : GoString :=
  BuildRelativeName [CollectionAccounts, account, CollectionLocations, location]

/-- True when `lo ≤ b ≤ hi`. -/
def byteIn (lo hi b : Nat) : Bool := decide (lo ≤ b) && decide (b ≤ hi)

/-- The number of bytes consumed by one step of Go's `for i := range s` over a
string, `s` being the bytes from the current index on: the width of the UTF-8
encoded rune that starts `s`, and 1 for a byte that starts no valid encoding. -/
def runeWidth : GoString → Nat
  | [] => 0
  | b0 :: rest =>
    if b0 < 0x80 then 1
    else
      let accept : Option (Nat × Nat × Nat) :=
        if byteIn 0xC2 0xDF b0 then some (2, 0x80, 0xBF)
        else if b0 = 0xE0 then some (3, 0xA0, 0xBF)
        else if byteIn 0xE1 0xEC b0 then some (3, 0x80, 0xBF)
        else if b0 = 0xED then some (3, 0x80, 0x9F)
        else if byteIn 0xEE 0xEF b0 then some (3, 0x80, 0xBF)
        else if b0 = 0xF0 then some (4, 0x90, 0xBF)
        else if byteIn 0xF1 0xF3 b0 then some (4, 0x80, 0xBF)
        else if b0 = 0xF4 then some (4, 0x80, 0x8F)
        else none
      match accept with
      | none => 1
      | some (size, lo, hi) =>
        match rest with
        | [] => 1
        | b1 :: rest1 =>
          if !byteIn lo hi b1 then 1
          else if size ≤ 2 then 2
          else
            match rest1 with
            | [] => 1
            | b2 :: rest2 =>
              if !byteIn 0x80 0xBF b2 then 1
              else if size ≤ 3 then 3
              else
                match rest2 with
                | [] => 1
                | b3 :: _ => if !byteIn 0x80 0xBF b3 then 1 else 4

/-- The loop `for i := range id { ... }` of `ValidResourceID`, started at byte
index `i`.  The first argument is the fuel of the model; every iteration moves
`i` forward by at least one byte, so `id.length` is enough. -/
def validResourceIDLoop (id : GoString) : Nat → Nat → Outcome Bool
  | 0, i => if i < id.length then Outcome.timeout else Outcome.ok true
  | fuel + 1, i =>
    match id[i]? with
    | none => Outcome.ok true
    | some c =>
      let next := i + runeWidth (id.drop i)
      if 48 ≤ c ∧ c ≤ 57 then validResourceIDLoop id fuel next
      else if 97 ≤ c ∧ c ≤ 122 then validResourceIDLoop id fuel next
      else if c ≠ hyphen then Outcome.ok false
      else
        -- `id[i-1]`, evaluated only when `id[i] == '-'`
        match i with
        | 0 => Outcome.panic
        | j + 1 =>
          match id[j]? with
          | none => Outcome.panic
          | some p =>
            if p = hyphen then Outcome.ok false
            else validResourceIDLoop id fuel next

/-- Source: `ValidResourceID`. -/
def ValidResourceID (id : GoString) : Outcome Bool :=
  if id.length < 4 ∨ id.length > 63 then Outcome.ok false
  else
    match id[0]?, id[id.length - 1]? with
    | some first, some last =>
      if first = hyphen ∨ last = hyphen then Outcome.ok false
      else validResourceIDLoop id id.length 0
    | _, _ => Outcome.panic

/-- The loop `for i := range requiredCollections { ... }` of
`ParseRelativeName`: `remaining` iterations are left, the next one has index
`i`, and `resourceIDs` is the slice filled so far. -/
def parseRelativeNameLoop (requiredCollections parts : List GoString) :
    Nat → Nat → List GoString → Outcome (List GoString)
  | 0, _, resourceIDs => Outcome.ok resourceIDs
  | remaining + 1, i, resourceIDs =>
    match requiredCollections[i]?, parts[i * 2]? with
    | some required, some literal =>
      if required ≠ literal then Outcome.error (invalidNameError requiredCollections)
      else if i ≠ requiredCollections.length then
        match parts[i * 2 + 1]? with
        | none => Outcome.panic
        | some resourceID =>
          if resourceID ≠ bytesOf "-" then
            match ValidResourceID resourceID with
            | Outcome.ok true =>
              parseRelativeNameLoop requiredCollections parts remaining (i + 1)
                (resourceIDs.set i resourceID)
            | Outcome.ok false => Outcome.error (invalidNameError requiredCollections)
            | Outcome.error e => Outcome.error e
            | Outcome.panic => Outcome.panic
            | Outcome.timeout => Outcome.timeout
          else
            parseRelativeNameLoop requiredCollections parts remaining (i + 1)
              (resourceIDs.set i resourceID)
      else parseRelativeNameLoop requiredCollections parts remaining (i + 1) resourceIDs
    | _, _ => Outcome.panic

/-- Source: `ParseRelativeName`. -/
def ParseRelativeName (name : GoString) (collectionIDs : List GoString) :
    Outcome (List GoString) :=
  let numCollections := collectionIDs.length
  let requiredCollections := collectionIDs
  let parts := stringsSplitSlash name
  if parts.length ≠ numCollections * 2 then
    Outcome.error (invalidNameError requiredCollections)
  else
    parseRelativeNameLoop requiredCollections parts numCollections 0
      (List.replicate numCollections [])

/-- Source: `ParseAccount`. -/
def ParseAccount (name : GoString) : Outcome GoString :=
  match ParseRelativeName name [CollectionAccounts] with
  | Outcome.ok parts =>
    match parts[0]? with
    | some p0 => Outcome.ok p0
    | none => Outcome.panic
  | Outcome.error e => Outcome.error e
  | Outcome.panic => Outcome.panic
  | Outcome.timeout => Outcome.timeout

/-- Source: `ParseLocation`. -/
def ParseLocation (name : GoString) : Outcome (GoString × GoString) :=
  match ParseRelativeName name [CollectionAccounts, CollectionLocations] with
  | Outcome.ok parts =>
    match parts[0]?, parts[1]? with
    | some p0, some p1 => Outcome.ok (p0, p1)
    | _, _ => Outcome.panic
  | Outcome.error e => Outcome.error e
  | Outcome.panic => Outcome.panic
  | Outcome.timeout => Outcome.timeout

/-- Source: `ParseRoom`. -/
def ParseRoom (name : GoString) : Outcome (GoString × GoString × GoString) :=
  match ParseRelativeName name [CollectionAccounts, CollectionLocations, CollectionRooms] with
  | Outcome.ok parts =>
    match parts[0]?, parts[1]?, parts[2]? with
    | some p0, some p1, some p2 => Outcome.ok (p0, p1, p2)
    | _, _, _ => Outcome.panic
  | Outcome.error e => Outcome.error e
  | Outcome.panic => Outcome.panic
  | Outcome.timeout => Outcome.timeout

/-! ## Go library functions used by package `store` -/

/-- Source: `PageInfo`. -/
structure PageInfo where
  RequestKey : GoString
  EndCursor : GoString
  Filter : GoString
  Order : GoString
  deriving DecidableEq

/-- The library functions the paginator calls whose code is outside the
repository, taken as parameters: `json.Marshal` and `json.Unmarshal` on a
`PageInfo` (an error carries its description), the AES-GCM `Seal` and `Open` of
`crypto/cipher` (key, nonce, text), and the standard base64 encoding. -/
structure Library where
  jsonMarshal : PageInfo → Except GoString GoString
  jsonUnmarshal : GoString → Except GoString PageInfo
  gcmSeal : GoString → GoString → GoString → GoString
  gcmOpen : GoString → GoString → GoString → Option GoString
  base64Encode : GoString → GoString
  base64Decode : GoString → Option GoString

/-- The value of a run of decimal digits, `none` when a byte is not a digit. -/
def digitsValue : GoString → Nat → Option Nat
  | [], acc => some acc
  | d :: rest, acc =>
    if 48 ≤ d ∧ d ≤ 57 then digitsValue rest (acc * 10 + (d - 48)) else none

/-- Go `strconv.Atoi` on a 64-bit platform: an optional sign followed by one or
more decimal digits, the value within the range of `int`. -/
def Atoi (s : GoString) : Except GoError Int :=
  let signed : Bool × GoString :=
    match s with
    | 45 :: rest => (true, rest)
    | 43 :: rest => (false, rest)
    | _ => (false, s)
  if signed.2 = [] then Except.error (GoError.other (bytesOf "strconv.Atoi: invalid syntax"))
  else
    match digitsValue signed.2 0 with
    | none => Except.error (GoError.other (bytesOf "strconv.Atoi: invalid syntax"))
    | some n =>
      let v : Int := if signed.1 then -(n : Int) else (n : Int)
      if v < -(2 : Int) ^ 63 ∨ (2 : Int) ^ 63 - 1 < v then
        Except.error (GoError.other (bytesOf "strconv.Atoi: value out of range"))
      else Except.ok v

/-- The decimal digits of `n`, most significant first, prepended to `acc`. -/
def formatNatLoop : Nat → Nat → GoString → GoString
  | 0, _, acc => acc
  | fuel + 1, n, acc =>
    if n < 10 then (48 + n) :: acc
    else formatNatLoop fuel (n / 10) ((48 + n % 10) :: acc)

/-- The decimal rendering of a natural number. -/
def formatNat (n : Nat) : GoString := formatNatLoop (n + 1) n []

/-- Go `strconv.Itoa`. -/
def Itoa (i : Int) : GoString :=
  if i < 0 then hyphen :: formatNat i.natAbs else formatNat i.natAbs

/-- The value of a Go `int` (64 bits, two's complement) after an arithmetic
operation whose mathematical result is `x`. -/
def wrapInt64 (x : Int) : Int := (x + (2 : Int) ^ 63) % (2 : Int) ^ 64 - (2 : Int) ^ 63

/-- Go `aes.NewCipher` followed by `cipher.NewGCM`: fails unless the key has 16,
24 or 32 bytes. -/
def aesNewCipher (key : GoString) : Except GoError Unit :=
  if key.length = 16 ∨ key.length = 24 ∨ key.length = 32 then Except.ok ()
  else Except.error (GoError.other (bytesOf "crypto/aes: invalid key size"))

/-- The value of `gcm.NonceSize()`. -/
def gcmNonceSize : Nat := 12

/-- Go `io.ReadFull(rand.Reader, buf)` for a buffer of `n` bytes, `entropy` being
the bytes the random source delivers. -/
def readFull (entropy : GoString) (n : Nat) : Except GoError GoString :=
  if entropy.length < n then Except.error (GoError.other (bytesOf "unexpected EOF"))
  else Except.ok (entropy.take n)

/-- True when `s` is valid UTF-8: no step of a rune-wise scan meets a byte that
starts no valid encoding. -/
def utf8ValidLoop : Nat → GoString → Bool
  | _, [] => true
  | 0, _ :: _ => false
  | fuel + 1, b :: rest =>
    if b < 0x80 then utf8ValidLoop fuel rest
    else if runeWidth (b :: rest) ≤ 1 then false
    else utf8ValidLoop fuel (rest.drop (runeWidth (b :: rest) - 1))

/-- Go `utf8.ValidString`. -/
def utf8Valid (s : GoString) : Bool := utf8ValidLoop s.length s

/-! ## Package `store`: pagination -/

/-- The error `status.Error(codes.InvalidArgument, "invalid page_token provided")`. -/
def invalidPageTokenError : GoError :=
  GoError.status Code.InvalidArgument (bytesOf "invalid page_token provided") []

/-- Source: `paginator.GenerateNextPageToken`; `secret` is the paginator's
secret, `entropy` the bytes delivered by `rand.Reader`, `pageSize` an `int32`. -/
def GenerateNextPageToken (L : Library) (secret entropy : GoString) (pager : PageInfo)
    (pageSize : Int) : Outcome GoString :=
  let cursorText := if pager.EndCursor = [] then bytesOf "0" else pager.EndCursor
  match Atoi cursorText with
  | Except.error e => Outcome.error e
  | Except.ok endCursor =>
    let newPageToken : PageInfo :=
      { RequestKey := pager.RequestKey
        EndCursor := Itoa (wrapInt64 (endCursor + pageSize))
        Filter := pager.Filter
        Order := pager.Order }
    match L.jsonMarshal newPageToken with
    | Except.error d => Outcome.error (GoError.other d)
    | Except.ok token =>
      match aesNewCipher secret with
      | Except.error e => Outcome.error e
      | Except.ok _ =>
        match readFull entropy gcmNonceSize with
        | Except.error e => Outcome.error e
        | Except.ok nonce =>
          Outcome.ok (L.base64Encode (nonce ++ L.gcmSeal secret nonce token))

/-- Source: `paginator.ParsePageToken`. -/
def ParsePageToken (L : Library) (secret token : GoString) : Outcome PageInfo :=
  if token = [] then Outcome.ok { RequestKey := [], EndCursor := [], Filter := [], Order := [] }
  else
    match aesNewCipher secret with
    | Except.error e => Outcome.error e
    | Except.ok _ =>
      match L.base64Decode token with
      | none => Outcome.error invalidPageTokenError
      | some decodedToken =>
        if decodedToken.length < gcmNonceSize then Outcome.error invalidPageTokenError
        else
          match L.gcmOpen secret (decodedToken.take gcmNonceSize)
              (decodedToken.drop gcmNonceSize) with
          | none => Outcome.error invalidPageTokenError
          | some decypted =>
            match L.jsonUnmarshal decypted with
            | Except.error d => Outcome.error (GoError.other d)
            | Except.ok pageInfo => Outcome.ok pageInfo

/-- Source: `defaultPageSize`. -/
def defaultPageSize : Int := 25

/-- Source: `paginateQuery`. -/
def paginateQuery (query : GoString) (info : PageInfo) (pageSize : Int) : GoString :=
  let size := if pageSize = 0 then defaultPageSize else pageSize
  let limited := query ++ bytesOf " LIMIT " ++ Itoa size
  if info.EndCursor ≠ [] then limited ++ bytesOf " OFFSET " ++ info.EndCursor else limited

/-- Source: `listOptions`. -/
structure listOptions where
  pageSize : Int
  pageInfo : PageInfo

/-- Source: `WithPageSize`. -/
def WithPageSize (size : Int) (opts : listOptions) : listOptions :=
  { opts with pageSize := size }

/-- Source: `WithPageInfo`; the request key is not copied. -/
def WithPageInfo (info : PageInfo) (opts : listOptions) : listOptions :=
  { opts with
    pageInfo :=
      { RequestKey := [], EndCursor := info.EndCursor, Filter := info.Filter,
        Order := info.Order } }

/-- Source: `getListOptions`. -/
def getListOptions (opts : List (listOptions → listOptions)) : listOptions :=
  opts.foldl (fun options opt => opt options)
    { pageSize := 0,
      pageInfo := { RequestKey := [], EndCursor := [], Filter := [], Order := [] } }

/-- The database as the list operations see it: `db.Query(text, values...)`
followed by the scan of every row, giving the decoded rows or an error. -/
abbrev Database (Row : Type) := GoString → List GoString → Outcome (List Row)

def selectAccountBaseQuery : GoString :=
  bytesOf "\nSELECT id, name, display_name, status, quotas, created_time, updated_time FROM account"

def locationSelectBaseQuery : GoString :=
  bytesOf "\nSELECT name, display_name, description, created_time, updated_time FROM location"

def selectRoomBaseQuery : GoString :=
  bytesOf "\nSELECT id, name, account, location, display_name, description, created_time, updated_time FROM room"

/-- The byte of the single quote character. -/
def singleQuote : Nat := 39

/-- Source: `store.ListAccounts`. -/
def storeListAccounts {Row : Type} (db : Database Row)
    (opts : List (listOptions → listOptions)) : Outcome (List Row) :=
  let options := getListOptions opts
  db (paginateQuery (selectAccountBaseQuery ++ bytesOf " ORDER BY name") options.pageInfo
    options.pageSize) []

/-- Source: `store.ListLocations`. -/
def storeListLocations {Row : Type} (db : Database Row) (parent : GoString)
    (opts : List (listOptions → listOptions)) : Outcome (List Row) :=
  let options := getListOptions opts
  match ParseAccount parent with
  | Outcome.error e => Outcome.error e
  | Outcome.panic => Outcome.panic
  | Outcome.timeout => Outcome.timeout
  | Outcome.ok accountName =>
    let baseQuery :=
      if accountName ≠ bytesOf "-" then
        locationSelectBaseQuery
          ++ (bytesOf " WHERE account = " ++ [singleQuote] ++ accountName ++ [singleQuote, 32])
      else locationSelectBaseQuery
    db (paginateQuery (baseQuery ++ bytesOf " ORDER BY account, name") options.pageInfo
      options.pageSize) []

/-- Source: `store.ListRooms`. -/
def storeListRooms {Row : Type} (db : Database Row) (parent : GoString)
    (opts : List (listOptions → listOptions)) : Outcome (List Row) :=
  let options := getListOptions opts
  match ParseLocation parent with
  | Outcome.error e => Outcome.error e
  | Outcome.panic => Outcome.panic
  | Outcome.timeout => Outcome.timeout
  | Outcome.ok (accountName, locationName) =>
    let counter : Int := 1
    let step1 : List GoString × List GoString × Int :=
      if accountName ≠ bytesOf "-" then
        ([bytesOf "account = $" ++ Itoa counter], [accountName], counter + 1)
      else ([], [], counter)
    let step2 : List GoString × List GoString :=
      if locationName ≠ bytesOf "-" then
        (step1.1 ++ [bytesOf "location = $" ++ Itoa step1.2.2], step1.2.1 ++ [locationName])
      else (step1.1, step1.2.1)
    let query :=
      if step2.1.length > 0 then
        selectRoomBaseQuery ++ (bytesOf " WHERE " ++ stringsJoin step2.1 (bytesOf " AND "))
      else selectRoomBaseQuery
    db (paginateQuery (query ++ bytesOf " ORDER BY account, location, name") options.pageInfo
      options.pageSize) step2.2

/-! ## Package `server` -/

/-- Source: `maxGlobalPageSize`. -/
def maxGlobalPageSize : Int := 500

/-- One `field.Error` made by `field.Invalid`: the field path and the detail
(the server never reads the offending value back). -/
structure FieldError where
  Field : GoString
  Detail : GoString
  deriving DecidableEq

/-- The library call `status.New(code, message).WithDetails(&errdetails.BadRequest{...})`
(package `status`, outside the sources at hand), followed by `Err()` on its
status: the detail is marshalled into the status, which fails when a string
field of a violation is not valid UTF-8; the error returned then is the
plain error of the marshaller, not a status, and only its being plain is used.
The code passed here is never `OK`, and no other failure of the marshaller is
modelled. -/
def withDetails (code : Code) (message : GoString) (fieldViolations : List FieldViolation) :
    Except GoError GoError :=
  if fieldViolations.all (fun v => utf8Valid v.field && utf8Valid v.description) then
    Except.ok (GoError.status code message fieldViolations)
  else Except.error (GoError.other (bytesOf "proto: field contains invalid UTF-8"))

/-- Source: `convertErrorList`; `none` is the nil error. -/
def convertErrorList (errs : List FieldError) : Option GoError :=
  if errs.length = 0 then none
  else
    let fieldViolations : List FieldViolation :=
      errs.map (fun e => { field := e.Field, description := e.Detail })
    match withDetails Code.InvalidArgument (bytesOf "invalid argument") fieldViolations with
    | Except.error err => some err
    | Except.ok s => some s

/-- A list request as `validatePageableRequest` sees it: page size and page
token, and the parent, filter and order when the request type has the getter
(the request types are declared outside the sources at hand). -/
structure PageableRequest where
  PageSize : Int
  PageToken : GoString
  Parent : Option GoString
  Filter : Option GoString
  Order : Option GoString
  deriving DecidableEq

/-- Source: `server.validatePageableRequest`. -/
def validatePageableRequest (L : Library) (secret : GoString) (req : PageableRequest) :
    Outcome PageInfo :=
  let errs0 : List FieldError :=
    if req.PageSize > maxGlobalPageSize ∨ req.PageSize < 0 then
      [{ Field := bytesOf "page_size",
         Detail := bytesOf "page_size must be between 0 and 500 inclusive" }]
    else []
  let parent := req.Parent.getD []
  let filter := req.Filter.getD []
  let order := req.Order.getD []
  if req.PageToken = [] then
    Outcome.ok { EndCursor := bytesOf "0", Filter := filter, Order := order, RequestKey := parent }
  else
    let parsed : Outcome (PageInfo × List FieldError) :=
      match ParsePageToken L secret req.PageToken with
      | Outcome.ok token => Outcome.ok (token, errs0)
      | Outcome.error (GoError.status _ message _) =>
        Outcome.ok
          ({ RequestKey := [], EndCursor := [], Filter := [], Order := [] },
            errs0 ++ [{ Field := bytesOf "page_token", Detail := message }])
      | Outcome.error (GoError.other d) => Outcome.error (GoError.other d)
      | Outcome.panic => Outcome.panic
      | Outcome.timeout => Outcome.timeout
    match parsed with
    | Outcome.error e => Outcome.error e
    | Outcome.panic => Outcome.panic
    | Outcome.timeout => Outcome.timeout
    | Outcome.ok (token, errs1) =>
      let errs2 :=
        if token.RequestKey ≠ parent then
          errs1 ++ [{ Field := bytesOf "parent",
                      Detail := bytesOf "parent must not be changed during pagination query" }]
        else errs1
      let errs3 :=
        if token.Filter ≠ filter then
          errs2 ++ [{ Field := bytesOf "filter",
                      Detail := bytesOf "filter must not be changed during pagination query" }]
        else errs2
      let errs4 :=
        if token.Order ≠ order then
          errs3 ++ [{ Field := bytesOf "order",
                      Detail := bytesOf "order must not be changed during pagination query" }]
        else errs3
      if errs4.length > 0 then
        match convertErrorList errs4 with
        | some e => Outcome.error e
        | none => Outcome.ok { RequestKey := [], EndCursor := [], Filter := [], Order := [] }
      else Outcome.ok token

/-- A list response: the rows (`Accounts`, `Locations` or `Rooms`) and the
next page token. -/
structure ListResponse (Row : Type) where
  Items : List Row
  NextPageToken : GoString

/-- The tail shared by the three list handlers: given the rows, generate the
next page token when their number equals the page size. -/
def listResponse {Row : Type} (L : Library) (secret entropy : GoString) (pageInfo : PageInfo)
    (pageSize : Int) (rows : List Row) : Outcome (ListResponse Row) :=
  if (rows.length : Int) = pageSize then
    match GenerateNextPageToken L secret entropy pageInfo pageSize with
    | Outcome.ok nextPageToken => Outcome.ok { Items := rows, NextPageToken := nextPageToken }
    | Outcome.error e => Outcome.error e
    | Outcome.panic => Outcome.panic
    | Outcome.timeout => Outcome.timeout
  else Outcome.ok { Items := rows, NextPageToken := [] }

/-- Source: `server.ListAccounts`. -/
def ListAccounts {Row : Type} (L : Library) (secret entropy : GoString) (db : Database Row)
    (req : PageableRequest) : Outcome (ListResponse Row) :=
  match validatePageableRequest L secret req with
  | Outcome.error e => Outcome.error e
  | Outcome.panic => Outcome.panic
  | Outcome.timeout => Outcome.timeout
  | Outcome.ok pageInfo =>
    match storeListAccounts db [WithPageSize req.PageSize, WithPageInfo pageInfo] with
    | Outcome.error e => Outcome.error e
    | Outcome.panic => Outcome.panic
    | Outcome.timeout => Outcome.timeout
    | Outcome.ok accounts => listResponse L secret entropy pageInfo req.PageSize accounts

/-- Source: `server.ListLocations`; the request type has a `Parent` field. -/
def ListLocations {Row : Type} (L : Library) (secret entropy : GoString) (db : Database Row)
    (req : PageableRequest) : Outcome (ListResponse Row) :=
  match validatePageableRequest L secret req with
  | Outcome.error e => Outcome.error e
  | Outcome.panic => Outcome.panic
  | Outcome.timeout => Outcome.timeout
  | Outcome.ok pageInfo =>
    match storeListLocations db (req.Parent.getD [])
        [WithPageInfo pageInfo, WithPageSize req.PageSize] with
    | Outcome.error e => Outcome.error e
    | Outcome.panic => Outcome.panic
    | Outcome.timeout => Outcome.timeout
    | Outcome.ok colors => listResponse L secret entropy pageInfo req.PageSize colors

/-- Source: `server.ListRooms`; the request type has a `Parent` field. -/
def ListRooms {Row : Type} (L : Library) (secret entropy : GoString) (db : Database Row)
    (req : PageableRequest) : Outcome (ListResponse Row) :=
  match validatePageableRequest L secret req with
  | Outcome.error e => Outcome.error e
  | Outcome.panic => Outcome.panic
  | Outcome.timeout => Outcome.timeout
  | Outcome.ok pageInfo =>
    match storeListRooms db (req.Parent.getD [])
        [WithPageInfo pageInfo, WithPageSize req.PageSize] with
    | Outcome.error e => Outcome.error e
    | Outcome.panic => Outcome.panic
    | Outcome.timeout => Outcome.timeout
    | Outcome.ok colors => listResponse L secret entropy pageInfo req.PageSize colors

/-! ## A small library instance for concrete evaluation -/

/-- Sixteen copies of a one-byte checksum of key, nonce and text. -/
def demoTag (key nonce text : GoString) : GoString :=
  List.replicate 16 ((key.sum + nonce.sum + text.sum) % 256)

/-- A stand-in for the library functions, simple enough to evaluate: the JSON
document is the three leading field lengths followed by the four fields, sealing
appends `demoTag`, and the base64 text is every byte plus one.  It satisfies the
round-trip laws assumed of the real library and serves only to run the model
on concrete inputs. -/
def demoLibrary : Library where
  jsonMarshal := fun p =>
    Except.ok
      ([p.RequestKey.length, p.EndCursor.length, p.Filter.length]
        ++ (p.RequestKey ++ (p.EndCursor ++ (p.Filter ++ p.Order))))
  jsonUnmarshal := fun data =>
    match data with
    | a :: b :: c :: rest =>
      if a + b + c ≤ rest.length then
        Except.ok
          { RequestKey := rest.take a
            EndCursor := (rest.drop a).take b
            Filter := (rest.drop (a + b)).take c
            Order := rest.drop (a + b + c) }
      else Except.error (bytesOf "unexpected end of JSON input")
    | _ => Except.error (bytesOf "unexpected end of JSON input")
  gcmSeal := fun key nonce text => text ++ demoTag key nonce text
  gcmOpen := fun key nonce sealed =>
    if sealed.length < 16 then none
    else if sealed.drop (sealed.length - 16)
        = demoTag key nonce (sealed.take (sealed.length - 16)) then
      some (sealed.take (sealed.length - 16))
    else none
  base64Encode := fun data => data.map (fun b => b + 1)
  base64Decode := fun text =>
    if text.all (fun b => decide (1 ≤ b)) then some (text.map (fun b => b - 1)) else none

/-- The 32-byte secret of `main.go` and of the test suite. -/
def demoSecret : GoString := bytesOf "my-super-secure-test-secret-3234"

/-- Twelve bytes of entropy for the nonce. -/
def demoEntropy : GoString := [1, 2, 3, 4, 5, 6, 7, 8, 9, 10, 11, 12]

/-- A database whose every query returns the same two rows. -/
def demoDatabase : Database Nat := fun _ _ => Outcome.ok [1, 2]

/-- A first-page list request for two rows under the account `acme`. -/
def demoListRequest : PageableRequest :=
  { PageSize := 2, PageToken := [], Parent := some (bytesOf "accounts/acme"),
    Filter := none, Order := none }

/-- The response of `ListAccounts` to `demoListRequest` over `demoDatabase`. -/
def demoAccountsPage : ListResponse Nat :=
  { Items := [1, 2],
    NextPageToken :=
      [2, 3, 4, 5, 6, 7, 8, 9, 10, 11, 12, 13, 14, 2, 1, 98, 100, 100, 112, 118, 111, 117, 116,
        48, 98, 100, 110, 102, 51, 67, 67, 67, 67, 67, 67, 67, 67, 67, 67, 67, 67, 67, 67, 67,
        67] }

/-! ## Specification predicates for package `name` -/

/-- A byte allowed in a resource ID: `a-z`, `0-9` or `-`. -/
def isIDByte (b : Nat) : Prop := (97 ≤ b ∧ b ≤ 122) ∨ (48 ≤ b ∧ b ≤ 57) ∨ b = hyphen

instance (b : Nat) : Decidable (isIDByte b) := by
  unfold isIDByte
  infer_instance

/-- The resource-ID grammar in the words of the specification. -/
def ResourceIDGrammar (id : GoString) : Prop :=
  4 ≤ id.length ∧ id.length ≤ 63 ∧ (∀ b ∈ id, isIDByte b) ∧
    id.head? ≠ some hyphen ∧ id.getLast? ≠ some hyphen ∧
    ∀ i, ¬ (id[i]? = some hyphen ∧ id[i + 1]? = some hyphen)

/-- What the loop of `ValidResourceID` checks from index `i` on. -/
def GoodFrom (id : GoString) (i : Nat) : Prop :=
  ∀ j c, i ≤ j → id[j]? = some c →
    isIDByte c ∧ (c = hyphen → ∃ k, j = k + 1 ∧ id[k]? ≠ some hyphen)

/-- Segment pair `i` of `parts` is well formed for the collections `req`: the
literal at offset `2i` is `req[i]` and the resource ID at offset `2i+1` is the
wildcard `-` or passes `ValidResourceID`. -/
def SegmentOK (req parts : List GoString) (i : Nat) : Prop :=
  parts[2 * i]? = req[i]? ∧
    ∃ r, parts[2 * i + 1]? = some r ∧ (r = bytesOf "-" ∨ ValidResourceID r = Outcome.ok true)

/-- The resource IDs a successful `ParseRelativeName` returns: the segments at
the odd offsets, in order. -/
def oddSegments (parts : List GoString) (n : Nat) : List GoString :=
  (List.range n).map (fun i => (parts[2 * i + 1]?).getD [])

/-- The condition under which `ParseRelativeName` succeeds. -/
def WellFormedName (name : GoString) (cs : List GoString) : Prop :=
  (stringsSplitSlash name).length = 2 * cs.length ∧
    ∀ i, i < cs.length → SegmentOK cs (stringsSplitSlash name) i

/-- A resource-ID segment accepted by `ParseRelativeName`: the wildcard `-` or a
string that passes `ValidResourceID`. -/
def AcceptedID (r : GoString) : Prop :=
  r = bytesOf "-" ∨ ValidResourceID r = Outcome.ok true

/-! ## Assumptions on the library functions -/

/-- Assumed of `encoding/json`: a `PageInfo` whose four fields are valid UTF-8
marshals without error to a document that unmarshals to the same value. -/
def JsonRoundTrip (L : Library) : Prop :=
  ∀ p : PageInfo, utf8Valid p.RequestKey = true → utf8Valid p.EndCursor = true →
    utf8Valid p.Filter = true → utf8Valid p.Order = true →
    ∃ data, L.jsonMarshal p = Except.ok data ∧ L.jsonUnmarshal data = Except.ok p

/-- Assumed of AES-GCM: with a key of 16, 24 or 32 bytes and a nonce of
`gcmNonceSize` bytes, opening a sealed text gives the text back. -/
def AeadRoundTrip (L : Library) : Prop :=
  ∀ key nonce text, (key.length = 16 ∨ key.length = 24 ∨ key.length = 32) →
    nonce.length = gcmNonceSize → L.gcmOpen key nonce (L.gcmSeal key nonce text) = some text

/-- Assumed of `encoding/base64`: the encoding of a non-empty input is not
empty. -/
def Base64NonEmpty (L : Library) : Prop :=
  ∀ data, data ≠ [] → L.base64Encode data ≠ []

/-- Assumed of `encoding/base64`: decoding an encoded input gives it back. -/
def Base64RoundTrip (L : Library) : Prop :=
  ∀ data, L.base64Decode (L.base64Encode data) = some data

/-! ## Protobuf messages

The message types are generated code outside the sources at hand; the
structures list the fields the store and the server read or write.  A message
pointer that may be nil is an `Option`. -/

/-- A `timestamp.Timestamp`, also used for the `time.Time` of a table column. -/
structure Timestamp where
  seconds : Int
  nanos : Int
  deriving DecidableEq

/-- The enum `serverpb.AccountPhase`. -/
inductive AccountPhase where
  | ACCOUNT_PHASE_UNSPECIFIED
  | ACCOUNT_PHASE_ACTIVE
  | ACCOUNT_PHASE_SUSPENDED
  deriving DecidableEq

/-- The message `serverpb.AccountStatus`. -/
structure AccountStatus where
  Name : GoString
  Phase : AccountPhase
  Reason : GoString
  Message : GoString
  deriving DecidableEq

/-- The message `serverpb.AccountQuotas`. -/
structure AccountQuotas where
  Name : GoString
  Devices : Int
  Locations : Int
  deriving DecidableEq

/-- The message `serverpb.Account` (labels and annotations, which no code path
reads, left out). -/
structure Account where
  Name : GoString
  Uid : GoString
  SelfLink : GoString
  CreateTime : Option Timestamp
  UpdateTime : Option Timestamp
  DisplayName : GoString
  Status : Option AccountStatus
  Quotas : Option AccountQuotas
  deriving DecidableEq

/-- The message `serverpb.Location`. -/
structure Location where
  Name : GoString
  DisplayName : GoString
  Description : GoString
  SelfLink : GoString
  CreatedTime : Option Timestamp
  UpdatedTime : Option Timestamp
  deriving DecidableEq

/-- The message `serverpb.Room`. -/
structure Room where
  Uid : GoString
  SelfLink : GoString
  Name : GoString
  CreateTime : Option Timestamp
  UpdateTime : Option Timestamp
  DisplayName : GoString
  Description : GoString
  deriving DecidableEq

/-- Library functions used by the store and the server whose code is outside
the repository, taken as parameters: the `jsonpb` marshaller and unmarshaller on
the two messages kept in text columns (an error carries its description),
`unicode.ToLower` on the runes above ASCII, and the field-mask merge of
`fieldmask-utils` on a location and on a room: `MaskFromPaths(paths, CamelCase)`
followed by `StructToStruct(mask, src, dst)`, with the arguments `paths`, `src`
and the clone `dst`, giving the merged message. -/
structure Runtime where
  statusMarshal : AccountStatus → Except GoString GoString
  statusUnmarshal : GoString → Except GoString AccountStatus
  quotasMarshal : AccountQuotas → Except GoString GoString
  quotasUnmarshal : GoString → Except GoString AccountQuotas
  unicodeToLower : Nat → Nat
  mergeLocation : List GoString → Location → Location → Except GoString Location
  mergeRoom : List GoString → Room → Room → Except GoString Room

/-- An outcome that is not `ok`, carried over to another result type. -/
def Outcome.failure {α β : Type} : Outcome α → Outcome β
  | Outcome.ok _ => Outcome.panic
  | Outcome.error e => Outcome.error e
  | Outcome.panic => Outcome.panic
  | Outcome.timeout => Outcome.timeout

/-- The range check of `ptypes` on a timestamp: years 1 to 9999, nanoseconds
below one second. -/
def timestampValid (t : Timestamp) : Bool :=
  decide (-62135596800 ≤ t.seconds) && decide (t.seconds < 253402300800)
    && decide (0 ≤ t.nanos) && decide (t.nanos < 1000000000)

/-- Go `ptypes.Timestamp(ts)`: the time of a timestamp message. -/
def ptypesTimestamp (ts : Option Timestamp) : Except GoError Timestamp :=
  match ts with
  | none => Except.error (GoError.other (bytesOf "timestamp: nil Timestamp"))
  | some t =>
    if timestampValid t then Except.ok t
    else Except.error (GoError.other (bytesOf "timestamp: out of range"))

/-- Go `ptypes.TimestampProto(t)`: the timestamp message of a time. -/
def ptypesTimestampProto (t : Timestamp) : Except GoError Timestamp :=
  if timestampValid t then Except.ok t
  else Except.error (GoError.other (bytesOf "timestamp: out of range"))

/-! ## The database

The tables hold the columns named by the SQL text of the store.  Every call on
the database handle or on a transaction (`BeginTx`, a query, an `Exec`,
`Commit`, `Rollback`) consumes one index of a fault plan, which says whether
that call fails with a persistence error; every statement sent is logged. -/

/-- An argument of a SQL statement. -/
inductive SqlValue where
  | text (s : GoString)
  | time (t : Timestamp)
  deriving DecidableEq

/-- A SQL statement sent to the database: its text and its arguments. -/
structure Statement where
  text : GoString
  args : List SqlValue
  deriving DecidableEq

/-- A row of table `account`. -/
structure AccountRow where
  id : GoString
  name : GoString
  display_name : GoString
  status : GoString
  quotas : GoString
  created_time : Timestamp
  updated_time : Option Timestamp
  deriving DecidableEq

/-- A row of table `location`. -/
structure LocationRow where
  name : GoString
  account : GoString
  display_name : GoString
  description : GoString
  created_time : Timestamp
  updated_time : Option Timestamp
  deriving DecidableEq

/-- A row of table `room`. -/
structure RoomRow where
  id : GoString
  name : GoString
  account : GoString
  location : GoString
  display_name : GoString
  description : GoString
  created_time : Timestamp
  updated_time : Option Timestamp
  deriving DecidableEq

/-- The three tables, and the counter from which the database draws the `id`
of a new row. -/
structure Tables where
  accounts : List AccountRow
  locations : List LocationRow
  rooms : List RoomRow
  nextID : Nat
  deriving DecidableEq

/-- The database as the store sees it: the tables, the statements sent so far
and the number of calls made so far. -/
structure World where
  tables : Tables
  log : List Statement
  calls : Nat
  deriving DecidableEq

/-- For every call index, the persistence error with which that call fails, if
it does. -/
abbrev FaultPlan := Nat → Option GoError

/-- A call that sends no statement (`BeginTx`, `Commit`, `Rollback`). -/
def controlCall (F : FaultPlan) (w : World) : Option GoError × World :=
  (F w.calls, { w with calls := w.calls + 1 })

/-- A call that sends the statement `stmt`. -/
def statementCall (F : FaultPlan) (stmt : Statement) (w : World) : Option GoError × World :=
  (F w.calls, { w with calls := w.calls + 1, log := w.log ++ [stmt] })

/-- Source: `doTransaction`.  `init` holds the variables the callback captures,
the callback returns their final values next to its error.  A transaction that
is rolled back, or whose commit fails, leaves the tables as they were. -/
def doTransaction {σ : Type} (F : FaultPlan) (init : σ)
    (callback : World → (σ × Outcome Unit) × World) (w : World) :
    (σ × Outcome Unit) × World :=
  match controlCall F w with
  | (some e, w0) => ((init, Outcome.error e), w0)
  | (none, w0) =>
    match callback w0 with
    | ((s, Outcome.ok _), w1) =>
      match controlCall F w1 with
      | (some e, w2) => ((s, Outcome.error e), { w2 with tables := w.tables })
      | (none, w2) => ((s, Outcome.ok ()), w2)
    | ((s, r), w1) =>
      ((s, r), { (controlCall F w1).2 with tables := w.tables })

def serviceName : GoString := bytesOf "//apis.chacerapp.com/"

def accountInsertQuery : GoString :=
  bytesOf "\nINSERT INTO account (name, display_name, status, quotas, created_time, updated_time)\nVALUES ($1, $2, $3, $4, $5, NULL)"

def accountDeleteQuery : GoString := bytesOf "\nDELETE FROM account WHERE name = $1"

def updateAccountQuery : GoString :=
  bytesOf "\nUPDATE account SET display_name = $1, status = $2, quotas = $3, updated_time = $4 WHERE name = $5"

def locationInsertQuery : GoString :=
  bytesOf "\nINSERT INTO location (name, account, display_name, description, created_time, updated_time)\nVALUES ($1, $2, $3, $4, $5, NULL)"

def locationDeleteQuery : GoString := bytesOf "\nDELETE FROM location WHERE name = $1"

def locationUpdateQuery : GoString :=
  bytesOf "\nUPDATE location SET display_name = $1, description = $2, updated_time = $3 WHERE name = $4"

def roomInsertQuery : GoString :=
  bytesOf "\nINSERT INTO room (name, account, location, display_name, description, created_time, updated_time)\nVALUES ($1, $2, $3, $4, $5, $6, NULL)"

def roomDeleteQuery : GoString := bytesOf "\nDELETE FROM room WHERE id = $1"

def updateRoomQuery : GoString :=
  bytesOf "\nUPDATE room SET display_name = $1, description = $2, updated_time = $3 WHERE id = $4"

/-- The query of `doGetAccount`: the first row of `account` whose `name` is the
argument. -/
def queryAccountRow (F : FaultPlan) (name : GoString) (w : World) :
    Except GoError (Option AccountRow) × World :=
  match statementCall F
      { text := selectAccountBaseQuery ++ bytesOf " WHERE name = $1",
        args := [SqlValue.text name] } w with
  | (some e, w1) => (Except.error e, w1)
  | (none, w1) => (Except.ok (w1.tables.accounts.find? (fun r => decide (r.name = name))), w1)

/-- `accountInsertQuery`: a new row with the five arguments, a fresh `id` and a
NULL `updated_time`. -/
def execInsertAccount (F : FaultPlan) (name displayName status quotas : GoString)
    (created : Timestamp) (w : World) : Option GoError × World :=
  match statementCall F
      { text := accountInsertQuery,
        args := [SqlValue.text name, SqlValue.text displayName, SqlValue.text status,
          SqlValue.text quotas, SqlValue.time created] } w with
  | (some e, w1) => (some e, w1)
  | (none, w1) =>
    (none,
      { w1 with
        tables :=
          { w1.tables with
            accounts := w1.tables.accounts ++
              [{ id := formatNat w1.tables.nextID, name := name, display_name := displayName,
                 status := status, quotas := quotas, created_time := created,
                 updated_time := none }]
            nextID := w1.tables.nextID + 1 } })

/-- `accountDeleteQuery`: removes the rows of `account` whose `name` is the
argument. -/
def execDeleteAccount (F : FaultPlan) (name : GoString) (w : World) : Option GoError × World :=
  match statementCall F { text := accountDeleteQuery, args := [SqlValue.text name] } w with
  | (some e, w1) => (some e, w1)
  | (none, w1) =>
    (none,
      { w1 with
        tables :=
          { w1.tables with
            accounts := w1.tables.accounts.filter (fun r => !decide (r.name = name)) } })

/-- `updateAccountQuery`: sets four columns of the rows of `account` whose `name`
is the last argument. -/
def execUpdateAccount (F : FaultPlan) (displayName status quotas : GoString)
    (updated : Timestamp) (name : GoString) (w : World) : Option GoError × World :=
  match statementCall F
      { text := updateAccountQuery,
        args := [SqlValue.text displayName, SqlValue.text status, SqlValue.text quotas,
          SqlValue.time updated, SqlValue.text name] } w with
  | (some e, w1) => (some e, w1)
  | (none, w1) =>
    (none,
      { w1 with
        tables :=
          { w1.tables with
            accounts := w1.tables.accounts.map (fun r =>
              if r.name = name then
                { r with display_name := displayName, status := status, quotas := quotas,
                         updated_time := some updated }
              else r) } })

/-- The query of `doGetLocation`: the first row of `location` whose `name` is
the argument. -/
def queryLocationRow (F : FaultPlan) (name : GoString) (w : World) :
    Except GoError (Option LocationRow) × World :=
  match statementCall F
      { text := locationSelectBaseQuery ++ bytesOf " WHERE name = $1",
        args := [SqlValue.text name] } w with
  | (some e, w1) => (Except.error e, w1)
  | (none, w1) => (Except.ok (w1.tables.locations.find? (fun r => decide (r.name = name))), w1)

/-- `locationInsertQuery`. -/
def execInsertLocation (F : FaultPlan) (name account displayName description : GoString)
    (created : Timestamp) (w : World) : Option GoError × World :=
  match statementCall F
      { text := locationInsertQuery,
        args := [SqlValue.text name, SqlValue.text account, SqlValue.text displayName,
          SqlValue.text description, SqlValue.time created] } w with
  | (some e, w1) => (some e, w1)
  | (none, w1) =>
    (none,
      { w1 with
        tables :=
          { w1.tables with
            locations := w1.tables.locations ++
              [{ name := name, account := account, display_name := displayName,
                 description := description, created_time := created,
                 updated_time := none }] } })

/-- `locationDeleteQuery`. -/
def execDeleteLocation (F : FaultPlan) (name : GoString) (w : World) : Option GoError × World :=
  match statementCall F { text := locationDeleteQuery, args := [SqlValue.text name] } w with
  | (some e, w1) => (some e, w1)
  | (none, w1) =>
    (none,
      { w1 with
        tables :=
          { w1.tables with
            locations := w1.tables.locations.filter (fun r => !decide (r.name = name)) } })

/-- `locationUpdateQuery`. -/
def execUpdateLocation (F : FaultPlan) (displayName description : GoString)
    (updated : Timestamp) (name : GoString) (w : World) : Option GoError × World :=
  match statementCall F
      { text := locationUpdateQuery,
        args := [SqlValue.text displayName, SqlValue.text description, SqlValue.time updated,
          SqlValue.text name] } w with
  | (some e, w1) => (some e, w1)
  | (none, w1) =>
    (none,
      { w1 with
        tables :=
          { w1.tables with
            locations := w1.tables.locations.map (fun r =>
              if r.name = name then
                { r with display_name := displayName, description := description,
                         updated_time := some updated }
              else r) } })

/-- The query of `doGetRoom`: the first row of `room` with the given `account`,
`location` and `name`. -/
def queryRoomRow (F : FaultPlan) (account location name : GoString) (w : World) :
    Except GoError (Option RoomRow) × World :=
  match statementCall F
      { text := selectRoomBaseQuery
          ++ bytesOf " WHERE account = $1 AND location = $2 AND name = $3",
        args := [SqlValue.text account, SqlValue.text location, SqlValue.text name] } w with
  | (some e, w1) => (Except.error e, w1)
  | (none, w1) =>
    (Except.ok (w1.tables.rooms.find? (fun r =>
      decide (r.account = account) && decide (r.location = location) && decide (r.name = name))),
      w1)

/-- `roomInsertQuery`. -/
def execInsertRoom (F : FaultPlan) (name account location displayName description : GoString)
    (created : Timestamp) (w : World) : Option GoError × World :=
  match statementCall F
      { text := roomInsertQuery,
        args := [SqlValue.text name, SqlValue.text account, SqlValue.text location,
          SqlValue.text displayName, SqlValue.text description, SqlValue.time created] } w with
  | (some e, w1) => (some e, w1)
  | (none, w1) =>
    (none,
      { w1 with
        tables :=
          { w1.tables with
            rooms := w1.tables.rooms ++
              [{ id := formatNat w1.tables.nextID, name := name, account := account,
                 location := location, display_name := displayName,
                 description := description, created_time := created,
                 updated_time := none }]
            nextID := w1.tables.nextID + 1 } })

/-- `roomDeleteQuery`. -/
def execDeleteRoom (F : FaultPlan) (id : GoString) (w : World) : Option GoError × World :=
  match statementCall F { text := roomDeleteQuery, args := [SqlValue.text id] } w with
  | (some e, w1) => (some e, w1)
  | (none, w1) =>
    (none,
      { w1 with
        tables :=
          { w1.tables with rooms := w1.tables.rooms.filter (fun r => !decide (r.id = id)) } })

/-- `updateRoomQuery`. -/
def execUpdateRoom (F : FaultPlan) (displayName description : GoString)
    (updated : Timestamp) (id : GoString) (w : World) : Option GoError × World :=
  match statementCall F
      { text := updateRoomQuery,
        args := [SqlValue.text displayName, SqlValue.text description, SqlValue.time updated,
          SqlValue.text id] } w with
  | (some e, w1) => (some e, w1)
  | (none, w1) =>
    (none,
      { w1 with
        tables :=
          { w1.tables with
            rooms := w1.tables.rooms.map (fun r =>
              if r.id = id then
                { r with display_name := displayName, description := description,
                         updated_time := some updated }
              else r) } })

/-! ## Package `store`: accounts, locations, rooms -/

/-- Source: `scanAccount`, on a row that was read. -/
def scanAccount (J : Runtime) (row : AccountRow) : Except GoError Account :=
  match ptypesTimestampProto row.created_time with
  | Except.error e => Except.error e
  | Except.ok created =>
    let updatedResult : Except GoError (Option Timestamp) :=
      match row.updated_time with
      | none => Except.ok none
      | some t =>
        match ptypesTimestampProto t with
        | Except.error e => Except.error e
        | Except.ok u => Except.ok (some u)
    match updatedResult with
    | Except.error e => Except.error e
    | Except.ok updated =>
      match J.statusUnmarshal row.status with
      | Except.error d => Except.error (GoError.other d)
      | Except.ok statusProtobuf =>
        match J.quotasUnmarshal row.quotas with
        | Except.error d => Except.error (GoError.other d)
        | Except.ok quotasProtobuf =>
          let fqName := BuildAccount row.name
          Except.ok
            { Name := fqName
              Uid := row.id
              SelfLink := serviceName ++ fqName
              CreateTime := some created
              UpdateTime := updated
              DisplayName := row.display_name
              Status := some statusProtobuf
              Quotas := some quotasProtobuf }

/-- Source: `doGetAccount`. -/
def doGetAccount (F : FaultPlan) (J : Runtime) (accountName : GoString) (w : World) :
    Outcome (Option Account) × World :=
  match ParseAccount accountName with
  | Outcome.ok parsed =>
    match queryAccountRow F parsed w with
    | (Except.error e, w1) => (Outcome.error e, w1)
    | (Except.ok none, w1) => (Outcome.ok none, w1)
    | (Except.ok (some row), w1) =>
      match scanAccount J row with
      | Except.error e => (Outcome.error e, w1)
      | Except.ok account => (Outcome.ok (some account), w1)
  | r => (r.failure, w)

/-- Source: `store.GetAccount`. -/
def storeGetAccount (F : FaultPlan) (J : Runtime) (name : GoString) (w : World) :
    Outcome (Option Account) × World :=
  doGetAccount F J name w

/-- The callback of the transaction of `store.CreateAccount`; the captured
variable is `newAccount`. -/
def createAccountTx (F : FaultPlan) (J : Runtime) (now : Timestamp) (account : Account)
    (accountName : GoString) (w : World) : (Option Account × Outcome Unit) × World :=
  match doGetAccount F J account.Name w with
  | (Outcome.ok (some _), w1) => ((none, Outcome.ok ()), w1)
  | (Outcome.ok none, w1) =>
    let newStatus : AccountStatus :=
      { Name := [], Phase := AccountPhase.ACCOUNT_PHASE_ACTIVE, Reason := [], Message := [] }
    let newQuotas : AccountQuotas :=
      { Name := account.Name ++ bytesOf "/quotas", Devices := 0, Locations := 0 }
    let newAccount : Account :=
      { Name := account.Name
        Uid := []
        SelfLink := serviceName ++ account.Name
        CreateTime := some now
        UpdateTime := none
        DisplayName := account.DisplayName
        Status := some newStatus
        Quotas := some newQuotas }
    match J.statusMarshal newStatus with
    | Except.error d => ((some newAccount, Outcome.error (GoError.other d)), w1)
    | Except.ok status =>
      match J.quotasMarshal newQuotas with
      | Except.error d => ((some newAccount, Outcome.error (GoError.other d)), w1)
      | Except.ok quotas =>
        match ptypesTimestamp newAccount.CreateTime with
        | Except.error e => ((some newAccount, Outcome.error e), w1)
        | Except.ok created =>
          match execInsertAccount F accountName newAccount.DisplayName status quotas created w1
            with
          | (some e, w2) => ((some newAccount, Outcome.error e), w2)
          | (none, w2) => ((some newAccount, Outcome.ok ()), w2)
  | (r, w1) => ((none, r.failure), w1)

/-- Source: `store.CreateAccount`; `now` is the value of `ptypes.TimestampNow()`. -/
def storeCreateAccount (F : FaultPlan) (J : Runtime) (now : Timestamp) (account : Account)
    (w : World) : Outcome (Option Account) × World :=
  match ParseAccount account.Name with
  | Outcome.ok accountName =>
    match doTransaction F none (createAccountTx F J now account accountName) w with
    | ((newAccount, Outcome.ok _), w1) => (Outcome.ok newAccount, w1)
    | ((_, r), w1) => (r.failure, w1)
  | r => (r.failure, w)

/-- The callback of the transaction of `store.doUpdateAccount`; the captured
variable is `existing`. -/
def updateAccountTx (F : FaultPlan) (J : Runtime) (now : Timestamp) (account : GoString)
    (accountName : GoString) (updater : Account → Outcome Account) (w : World) :
    (Option Account × Outcome Unit) × World :=
  match doGetAccount F J account w with
  | (Outcome.ok none, w1) => ((none, Outcome.ok ()), w1)
  | (Outcome.ok (some found), w1) =>
    let stamped : Account := { found with UpdateTime := some now }
    match updater stamped with
    | Outcome.ok existing =>
      let statusText : Except GoString GoString :=
        match existing.Status with
        | none => Except.error (bytesOf "Marshal called with nil")
        | some s => J.statusMarshal s
      match statusText with
      | Except.error d => ((some existing, Outcome.error (GoError.other d)), w1)
      | Except.ok status =>
        let quotasText : Except GoString GoString :=
          match existing.Quotas with
          | none => Except.error (bytesOf "Marshal called with nil")
          | some q => J.quotasMarshal q
        match quotasText with
        | Except.error d => ((some existing, Outcome.error (GoError.other d)), w1)
        | Except.ok quotas =>
          match ptypesTimestamp existing.UpdateTime with
          | Except.error e => ((some existing, Outcome.error e), w1)
          | Except.ok updated =>
            match execUpdateAccount F existing.DisplayName status quotas updated accountName w1
              with
            | (some e, w2) => ((some existing, Outcome.error e), w2)
            | (none, w2) => ((some existing, Outcome.ok ()), w2)
    | r => ((some stamped, r.failure), w1)
  | (r, w1) => ((none, r.failure), w1)

/-- Source: `store.doUpdateAccount`.  The error of the transaction is assigned
to `err` and the function then returns `existing, nil`; a panic inside the
callback is passed on. -/
def doUpdateAccount (F : FaultPlan) (J : Runtime) (now : Timestamp) (account : GoString)
    (updater : Account → Outcome Account) (w : World) : Outcome (Option Account) × World :=
  match ParseAccount account with
  | Outcome.ok accountName =>
    match doTransaction F none (updateAccountTx F J now account accountName updater) w with
    | ((_, Outcome.panic), w1) => (Outcome.panic, w1)
    | ((_, Outcome.timeout), w1) => (Outcome.timeout, w1)
    | ((existing, _), w1) => (Outcome.ok existing, w1)
  | r => (r.failure, w)

/-- Source: `store.UpdateAccount`. -/
def storeUpdateAccount (F : FaultPlan) (J : Runtime) (now : Timestamp) (account : Account)
    (w : World) : Outcome (Option Account) × World :=
  doUpdateAccount F J now account.Name
    (fun existing => Outcome.ok { existing with DisplayName := account.DisplayName }) w

/-- Source: `store.UpdateAccountStatus`; writing through a nil `existing.Status`
panics. -/
def storeUpdateAccountStatus (F : FaultPlan) (J : Runtime) (now : Timestamp) (name : GoString)
    (status : AccountStatus) (w : World) : Outcome (Option AccountStatus) × World :=
  match doUpdateAccount F J now name
      (fun existing =>
        match existing.Status with
        | none => Outcome.panic
        | some s =>
          Outcome.ok
            { existing with
              Status := some { s with Phase := status.Phase, Reason := status.Reason,
                                      Message := status.Message } }) w with
  | (Outcome.ok none, w1) => (Outcome.ok none, w1)
  | (Outcome.ok (some updated), w1) => (Outcome.ok updated.Status, w1)
  | (r, w1) => (r.failure, w1)

/-- Source: `store.UpdateAccountQuotas`. -/
def storeUpdateAccountQuotas (F : FaultPlan) (J : Runtime) (now : Timestamp) (name : GoString)
    (quotas : AccountQuotas) (w : World) : Outcome (Option AccountQuotas) × World :=
  match doUpdateAccount F J now name
      (fun existing =>
        match existing.Quotas with
        | none => Outcome.panic
        | some q =>
          Outcome.ok
            { existing with
              Quotas := some { q with Devices := quotas.Devices,
                                      Locations := quotas.Locations } }) w with
  | (Outcome.ok none, w1) => (Outcome.ok none, w1)
  | (Outcome.ok (some updated), w1) => (Outcome.ok updated.Quotas, w1)
  | (r, w1) => (r.failure, w1)

/-- The callback of the transaction of `store.DeleteAccount`; the captured
variable is `account`. -/
def deleteAccountTx (F : FaultPlan) (J : Runtime) (name : GoString) (w : World) :
    (Option Account × Outcome Unit) × World :=
  match doGetAccount F J name w with
  | (Outcome.ok none, w1) => ((none, Outcome.ok ()), w1)
  | (Outcome.ok (some account), w1) =>
    match execDeleteAccount F name w1 with
    | (some e, w2) => ((some account, Outcome.error e), w2)
    | (none, w2) => ((some account, Outcome.ok ()), w2)
  | (r, w1) => ((none, r.failure), w1)

/-- Source: `store.DeleteAccount`. -/
def storeDeleteAccount (F : FaultPlan) (J : Runtime) (name : GoString) (w : World) :
    Outcome (Option Account) × World :=
  match doTransaction F none (deleteAccountTx F J name) w with
  | ((account, Outcome.ok _), w1) => (Outcome.ok account, w1)
  | ((_, r), w1) => (r.failure, w1)

/-- Source: `scanLocation`, on a row that was read. -/
def scanLocation (row : LocationRow) : Except GoError Location :=
  match ptypesTimestampProto row.created_time with
  | Except.error e => Except.error e
  | Except.ok created =>
    let updatedResult : Except GoError (Option Timestamp) :=
      match row.updated_time with
      | none => Except.ok none
      | some t =>
        match ptypesTimestampProto t with
        | Except.error e => Except.error e
        | Except.ok u => Except.ok (some u)
    match updatedResult with
    | Except.error e => Except.error e
    | Except.ok updated =>
      Except.ok
        { Name := row.name
          DisplayName := row.display_name
          Description := row.description
          SelfLink := serviceName ++ row.name
          CreatedTime := some created
          UpdatedTime := updated }

/-- Source: `doGetLocation`. -/
def doGetLocation (F : FaultPlan) (name : GoString) (w : World) :
    Outcome (Option Location) × World :=
  match queryLocationRow F name w with
  | (Except.error e, w1) => (Outcome.error e, w1)
  | (Except.ok none, w1) => (Outcome.ok none, w1)
  | (Except.ok (some row), w1) =>
    match scanLocation row with
    | Except.error e => (Outcome.error e, w1)
    | Except.ok location => (Outcome.ok (some location), w1)

/-- Source: `store.GetLocation`. -/
def storeGetLocation (F : FaultPlan) (name : GoString) (w : World) :
    Outcome (Option Location) × World :=
  doGetLocation F name w

/-- The callback of the transaction of `store.CreateLocation`; the captured
variable is `newLocation`. -/
def createLocationTx (F : FaultPlan) (now : Timestamp) (location : Location)
    (accountName : GoString) (w : World) : (Option Location × Outcome Unit) × World :=
  match doGetLocation F location.Name w with
  | (Outcome.ok (some _), w1) => ((none, Outcome.ok ()), w1)
  | (Outcome.ok none, w1) =>
    let newLocation : Location :=
      { Name := location.Name
        DisplayName := location.DisplayName
        Description := location.Description
        CreatedTime := some now
        UpdatedTime := none
        SelfLink := serviceName ++ location.Name }
    match ptypesTimestamp newLocation.CreatedTime with
    | Except.error e => ((some newLocation, Outcome.error e), w1)
    | Except.ok created =>
      match execInsertLocation F newLocation.Name accountName newLocation.DisplayName
          newLocation.Description created w1 with
      | (some e, w2) => ((some newLocation, Outcome.error e), w2)
      | (none, w2) => ((some newLocation, Outcome.ok ()), w2)
  | (r, w1) => ((none, r.failure), w1)

/-- Source: `store.CreateLocation`. -/
def storeCreateLocation (F : FaultPlan) (now : Timestamp) (location : Location) (w : World) :
    Outcome (Option Location) × World :=
  match ParseLocation location.Name with
  | Outcome.ok (accountName, _) =>
    match doTransaction F none (createLocationTx F now location accountName) w with
    | ((newLocation, Outcome.ok _), w1) => (Outcome.ok newLocation, w1)
    | ((_, r), w1) => (r.failure, w1)
  | r => (r.failure, w)

/-- The callback of the transaction of `store.DeleteLocation`. -/
def deleteLocationTx (F : FaultPlan) (name : GoString) (w : World) :
    (Option Location × Outcome Unit) × World :=
  match doGetLocation F name w with
  | (Outcome.ok none, w1) => ((none, Outcome.ok ()), w1)
  | (Outcome.ok (some location), w1) =>
    match execDeleteLocation F name w1 with
    | (some e, w2) => ((some location, Outcome.error e), w2)
    | (none, w2) => ((some location, Outcome.ok ()), w2)
  | (r, w1) => ((none, r.failure), w1)

/-- Source: `store.DeleteLocation`. -/
def storeDeleteLocation (F : FaultPlan) (name : GoString) (w : World) :
    Outcome (Option Location) × World :=
  match doTransaction F none (deleteLocationTx F name) w with
  | ((location, Outcome.ok _), w1) => (Outcome.ok location, w1)
  | ((_, r), w1) => (r.failure, w1)

/-- Source: `scanRoom`, on a row that was read. -/
def scanRoom (row : RoomRow) : Except GoError Room :=
  match ptypesTimestampProto row.created_time with
  | Except.error e => Except.error e
  | Except.ok created =>
    let updatedResult : Except GoError (Option Timestamp) :=
      match row.updated_time with
      | none => Except.ok none
      | some t =>
        match ptypesTimestampProto t with
        | Except.error e => Except.error e
        | Except.ok u => Except.ok (some u)
    match updatedResult with
    | Except.error e => Except.error e
    | Except.ok updated =>
      let fqn := BuildRoom row.account row.location row.name
      Except.ok
        { Uid := row.id
          SelfLink := serviceName ++ fqn
          Name := fqn
          CreateTime := some created
          UpdateTime := updated
          DisplayName := row.display_name
          Description := row.description }

/-- Source: `doGetRoom`. -/
def doGetRoom (F : FaultPlan) (fullyQualifiedName : GoString) (w : World) :
    Outcome (Option Room) × World :=
  match ParseRoom fullyQualifiedName with
  | Outcome.ok (accountName, locationName, roomName) =>
    match queryRoomRow F accountName locationName roomName w with
    | (Except.error e, w1) => (Outcome.error e, w1)
    | (Except.ok none, w1) => (Outcome.ok none, w1)
    | (Except.ok (some row), w1) =>
      match scanRoom row with
      | Except.error e => (Outcome.error e, w1)
      | Except.ok room => (Outcome.ok (some room), w1)
  | r => (r.failure, w)

/-- Source: `store.GetRoom`. -/
def storeGetRoom (F : FaultPlan) (name : GoString) (w : World) :
    Outcome (Option Room) × World :=
  doGetRoom F name w

/-- The callback of the transaction of `store.CreateRoom`; the captured variable
is `newRoom`. -/
def createRoomTx (F : FaultPlan) (now : Timestamp) (room : Room)
    (accountName locationName roomName : GoString) (w : World) :
    (Option Room × Outcome Unit) × World :=
  match doGetRoom F room.Name w with
  | (Outcome.ok (some _), w1) => ((none, Outcome.ok ()), w1)
  | (Outcome.ok none, w1) =>
    let newRoom : Room :=
      { Name := room.Name
        CreateTime := some now
        UpdateTime := none
        SelfLink := serviceName ++ room.Name
        DisplayName := room.DisplayName
        Description := room.Description
        Uid := [] }
    match ptypesTimestamp newRoom.CreateTime with
    | Except.error e => ((some newRoom, Outcome.error e), w1)
    | Except.ok created =>
      match execInsertRoom F roomName accountName locationName newRoom.DisplayName
          newRoom.Description created w1 with
      | (some e, w2) => ((some newRoom, Outcome.error e), w2)
      | (none, w2) => ((some newRoom, Outcome.ok ()), w2)
  | (r, w1) => ((none, r.failure), w1)

/-- Source: `store.CreateRoom`. -/
def storeCreateRoom (F : FaultPlan) (now : Timestamp) (room : Room) (w : World) :
    Outcome (Option Room) × World :=
  match ParseRoom room.Name with
  | Outcome.ok (accountName, locationName, roomName) =>
    match doTransaction F none (createRoomTx F now room accountName locationName roomName) w
      with
    | ((newRoom, Outcome.ok _), w1) => (Outcome.ok newRoom, w1)
    | ((_, r), w1) => (r.failure, w1)
  | r => (r.failure, w)

/-- The callback of the transaction of `store.DeleteRoom`. -/
def deleteRoomTx (F : FaultPlan) (name : GoString) (w : World) :
    (Option Room × Outcome Unit) × World :=
  match doGetRoom F name w with
  | (Outcome.ok none, w1) => ((none, Outcome.ok ()), w1)
  | (Outcome.ok (some room), w1) =>
    match execDeleteRoom F room.Uid w1 with
    | (some e, w2) => ((some room, Outcome.error e), w2)
    | (none, w2) => ((some room, Outcome.ok ()), w2)
  | (r, w1) => ((none, r.failure), w1)

/-- Source: `store.DeleteRoom`. -/
def storeDeleteRoom (F : FaultPlan) (name : GoString) (w : World) :
    Outcome (Option Room) × World :=
  match doTransaction F none (deleteRoomTx F name) w with
  | ((room, Outcome.ok _), w1) => (Outcome.ok room, w1)
  | ((_, r), w1) => (r.failure, w1)

/-- Source: `applyUpdateMask`, on locations; a nil field mask gives no paths. -/
def applyUpdateMaskLocation (J : Runtime) (dst src : Location)
    (fieldMask : Option (List GoString)) : Except GoError Location :=
  let paths : List GoString :=
    match fieldMask with
    | none => []
    | some p => p
  match J.mergeLocation paths src dst with
  | Except.error d => Except.error (GoError.other d)
  | Except.ok merged => Except.ok merged

/-- Source: `applyUpdateMask`, on rooms. -/
def applyUpdateMaskRoom (J : Runtime) (dst src : Room) (fieldMask : Option (List GoString)) :
    Except GoError Room :=
  let paths : List GoString :=
    match fieldMask with
    | none => []
    | some p => p
  match J.mergeRoom paths src dst with
  | Except.error d => Except.error (GoError.other d)
  | Except.ok merged => Except.ok merged

/-- The callback of the transaction of `store.UpdateLocation`; the captured
variable is `existing`. -/
def updateLocationTx (F : FaultPlan) (J : Runtime) (now : Timestamp) (location : Location)
    (fieldMask : Option (List GoString)) (w : World) :
    (Option Location × Outcome Unit) × World :=
  match doGetLocation F location.Name w with
  | (Outcome.ok none, w1) => ((none, Outcome.ok ()), w1)
  | (Outcome.ok (some found), w1) =>
    match applyUpdateMaskLocation J found location fieldMask with
    | Except.error e => ((some found, Outcome.error e), w1)
    | Except.ok mergedLocation =>
      let existing : Location :=
        { found with
          UpdatedTime := some now
          DisplayName := mergedLocation.DisplayName
          Description := mergedLocation.Description }
      match ptypesTimestamp existing.UpdatedTime with
      | Except.error e => ((some existing, Outcome.error e), w1)
      | Except.ok updated =>
        match execUpdateLocation F existing.DisplayName existing.Description updated
            existing.Name w1 with
        | (some e, w2) => ((some existing, Outcome.error e), w2)
        | (none, w2) => ((some existing, Outcome.ok ()), w2)
  | (r, w1) => ((none, r.failure), w1)

/-- Source: `store.UpdateLocation`.  The error of the transaction is assigned to
`err` and the function then returns `existing, nil`. -/
def storeUpdateLocation (F : FaultPlan) (J : Runtime) (now : Timestamp) (location : Location)
    (fieldMask : Option (List GoString)) (w : World) : Outcome (Option Location) × World :=
  match doTransaction F none (updateLocationTx F J now location fieldMask) w with
  | ((_, Outcome.panic), w1) => (Outcome.panic, w1)
  | ((_, Outcome.timeout), w1) => (Outcome.timeout, w1)
  | ((existing, _), w1) => (Outcome.ok existing, w1)

/-- The callback of the transaction of `store.UpdateRoom`; the captured variable
is `existing`. -/
def updateRoomTx (F : FaultPlan) (J : Runtime) (now : Timestamp) (room : Room)
    (fieldMask : Option (List GoString)) (w : World) : (Option Room × Outcome Unit) × World :=
  match doGetRoom F room.Name w with
  | (Outcome.ok none, w1) => ((none, Outcome.ok ()), w1)
  | (Outcome.ok (some found), w1) =>
    match applyUpdateMaskRoom J found room fieldMask with
    | Except.error e => ((some found, Outcome.error e), w1)
    | Except.ok mergedRoom =>
      let existing : Room :=
        { found with
          UpdateTime := some now
          DisplayName := mergedRoom.DisplayName
          Description := mergedRoom.Description }
      match ptypesTimestamp existing.UpdateTime with
      | Except.error e => ((some existing, Outcome.error e), w1)
      | Except.ok updated =>
        match execUpdateRoom F existing.DisplayName existing.Description updated existing.Uid w1
          with
        | (some e, w2) => ((some existing, Outcome.error e), w2)
        | (none, w2) => ((some existing, Outcome.ok ()), w2)
  | (r, w1) => ((none, r.failure), w1)

/-- Source: `store.UpdateRoom`.  The error of the transaction is assigned to
`err` and the function then returns `existing, nil`. -/
def storeUpdateRoom (F : FaultPlan) (J : Runtime) (now : Timestamp) (room : Room)
    (fieldMask : Option (List GoString)) (w : World) : Outcome (Option Room) × World :=
  match doTransaction F none (updateRoomTx F J now room fieldMask) w with
  | ((_, Outcome.panic), w1) => (Outcome.panic, w1)
  | ((_, Outcome.timeout), w1) => (Outcome.timeout, w1)
  | ((existing, _), w1) => (Outcome.ok existing, w1)

/-! ## Package `server`: accounts, locations, rooms -/

/-- Source: `errNotFound`. -/
def errNotFound : GoError := GoError.status Code.NotFound (bytesOf "not found") []

/-- Source: `errAlreadyExists`. -/
def errAlreadyExists : GoError := GoError.status Code.AlreadyExists (bytesOf "already exists") []

/-- Source: `errFailedPrecondition`. -/
def errFailedPrecondition (msg : GoString) : GoError :=
  GoError.status Code.FailedPrecondition msg []

/-- The name of a status code as gRPC prints it. -/
def codeName : Code → GoString
  | Code.InvalidArgument => bytesOf "InvalidArgument"
  | Code.NotFound => bytesOf "NotFound"
  | Code.AlreadyExists => bytesOf "AlreadyExists"
  | Code.FailedPrecondition => bytesOf "FailedPrecondition"
  | Code.Internal => bytesOf "Internal"

/-- Go `err.Error()`. -/
def errorText : GoError → GoString
  | GoError.status code message _ =>
    bytesOf "rpc error: code = " ++ codeName code ++ bytesOf " desc = " ++ message
  | GoError.other description => description

/-- The rune and the width that one step of a range loop over the bytes `s`
decodes: the code point of a valid encoding, `0xFFFD` with width 1 otherwise. -/
def decodeRune (s : GoString) : Nat × Nat :=
  match s with
  | [] => (0xFFFD, 0)
  | b0 :: rest =>
    if b0 < 0x80 then (b0, 1)
    else
      match runeWidth s, rest with
      | 2, b1 :: _ => ((b0 % 32) * 64 + b1 % 64, 2)
      | 3, b1 :: b2 :: _ => ((b0 % 16) * 4096 + (b1 % 64) * 64 + b2 % 64, 3)
      | 4, b1 :: b2 :: b3 :: _ =>
        ((b0 % 8) * 262144 + (b1 % 64) * 4096 + (b2 % 64) * 64 + b3 % 64, 4)
      | _, _ => (0xFFFD, 1)

/-- The runes a range loop over `s` visits; the first argument is fuel, one
unit per rune. -/
def decodeRunes : Nat → GoString → List Nat
  | _, [] => []
  | 0, _ :: _ => []
  | fuel + 1, b :: rest =>
    (decodeRune (b :: rest)).1 :: decodeRunes fuel ((b :: rest).drop (decodeRune (b :: rest)).2)

/-- Go `unicode.ToLower`: ASCII letters by the ASCII rule, other runes by the
table of the library. -/
def lowerRune (J : Runtime) (r : Nat) : Nat :=
  if r < 0x80 then (if 65 ≤ r ∧ r ≤ 90 then r + 32 else r) else J.unicodeToLower r

/-- One iteration of the loop of `slugify` on the rune `char`; the state is
`(slugified, addedHyphen)`. -/
def slugifyStep (state : GoString × Bool) (char : Nat) : GoString × Bool :=
  let s1 : GoString × Bool :=
    if char ≥ 97 ∧ char ≤ 122 then (state.1 ++ [char], false) else state
  let s2 : GoString × Bool :=
    if char ≥ 48 ∧ char ≤ 57 then (s1.1 ++ [char], false) else s1
  let s3 : GoString × Bool :=
    if char = 45 ∧ s2.2 = false then (s2.1 ++ [char], true) else s2
  if char = 32 ∧ s3.2 = false then (s3.1 ++ bytesOf "-", true) else s3

/-- Source: `slugify`: a range loop over the runes of `strings.ToLower(str)`. -/
def slugify (J : Runtime) (str : GoString) : GoString :=
  (((decodeRunes str.length str).map (lowerRune J)).foldl slugifyStep ([], false)).1

/-- Source: `validateLabels`. -/
def validateLabels (_path : GoString) : List FieldError := []

/-- Source: `validateAnnotations`. -/
def validateAnnotations (_path : GoString) : List FieldError := []

/-- Source: `validateDisplayName`. -/
def validateDisplayName (path : GoString) (displayName : GoString) : List FieldError :=
  if displayName.length > 255 then
    [{ Field := path ++ bytesOf ".displayName",
       Detail := bytesOf "display name must not be longer than 255 characters" }]
  else []

/-- Source: `validateDescription`. -/
def validateDescription (path : GoString) (description : GoString) : List FieldError :=
  if description.length > 255 then
    [{ Field := path ++ bytesOf ".description",
       Detail := bytesOf "description must not be longer than 255 characters" }]
  else []

/-- Source: `validateAccount`. -/
def validateAccount (account : Option Account) (creating : Bool) : Outcome (List FieldError) :=
  let accountPath := bytesOf "account"
  match account with
  | none => Outcome.ok [{ Field := accountPath, Detail := bytesOf "account is required" }]
  | some a =>
    let errs := validateLabels accountPath ++ validateAnnotations accountPath
      ++ validateDisplayName accountPath a.DisplayName
    if !creating then
      if a.Name = [] then
        Outcome.ok (errs ++ [{ Field := accountPath ++ bytesOf ".name",
                               Detail := bytesOf "name is required" }])
      else
        match ParseAccount a.Name with
        | Outcome.ok _ => Outcome.ok errs
        | Outcome.error e =>
          Outcome.ok (errs ++ [{ Field := accountPath ++ bytesOf ".name", Detail := errorText e }])
        | r => r.failure
    else Outcome.ok errs

/-- The message `serverpb.CreateAccountRequest`. -/
structure CreateAccountRequest where
  AccountId : GoString
  Account : Option Account

/-- Source: `validateCreateAccount`; `none` is the nil error. -/
def validateCreateAccount (req : CreateAccountRequest) : Outcome (Option GoError) :=
  let idErrs : Outcome (List FieldError) :=
    if req.AccountId = [] then
      Outcome.ok [{ Field := bytesOf "account_id", Detail := bytesOf "account_id is required" }]
    else
      match ValidResourceID req.AccountId with
      | Outcome.ok true => Outcome.ok []
      | Outcome.ok false =>
        Outcome.ok [{ Field := bytesOf "account_id", Detail := bytesOf "invalid account ID" }]
      | r => r.failure
  match idErrs with
  | Outcome.ok errs =>
    match validateAccount req.Account true with
    | Outcome.ok more => Outcome.ok (convertErrorList (errs ++ more))
    | r => r.failure
  | r => r.failure

/-- The message `serverpb.UpdateAccountRequest`. -/
structure UpdateAccountRequest where
  Account : Option Account
  UpdateMask : Option (List GoString)

/-- Source: `validateUpdateAccount`. -/
def validateUpdateAccount (req : UpdateAccountRequest) : Outcome (Option GoError) :=
  match validateAccount req.Account false with
  | Outcome.ok errs => Outcome.ok (convertErrorList errs)
  | r => r.failure

/-- Source: `server.CreateAccount`. -/
def CreateAccount (F : FaultPlan) (J : Runtime) (now : Timestamp) (req : CreateAccountRequest)
    (w : World) : Outcome Account × World :=
  match validateCreateAccount req with
  | Outcome.ok (some e) => (Outcome.error e, w)
  | Outcome.ok none =>
    match req.Account with
    | none => (Outcome.panic, w)
    | some payload =>
      let account : Account := { payload with Name := BuildAccount req.AccountId }
      match storeCreateAccount F J now account w with
      | (Outcome.ok none, w1) => (Outcome.error errAlreadyExists, w1)
      | (Outcome.ok (some created), w1) => (Outcome.ok created, w1)
      | (r, w1) => (r.failure, w1)
  | r => (r.failure, w)

/-- Source: `server.GetAccount`. -/
def GetAccount (F : FaultPlan) (J : Runtime) (name : GoString) (w : World) :
    Outcome Account × World :=
  match ParseAccount name with
  | Outcome.ok _ =>
    match storeGetAccount F J name w with
    | (Outcome.ok none, w1) => (Outcome.error errNotFound, w1)
    | (Outcome.ok (some account), w1) => (Outcome.ok account, w1)
    | (r, w1) => (r.failure, w1)
  | r => (r.failure, w)

/-- Source: `server.UpdateAccount`. -/
def UpdateAccount (F : FaultPlan) (J : Runtime) (now : Timestamp) (req : UpdateAccountRequest)
    (w : World) : Outcome Account × World :=
  match validateUpdateAccount req with
  | Outcome.ok (some e) => (Outcome.error e, w)
  | Outcome.ok none =>
    match req.Account with
    | none => (Outcome.panic, w)
    | some account =>
      match storeUpdateAccount F J now account w with
      | (Outcome.ok none, w1) => (Outcome.error errNotFound, w1)
      | (Outcome.ok (some updated), w1) => (Outcome.ok updated, w1)
      | (r, w1) => (r.failure, w1)
  | r => (r.failure, w)

/-- Source: `server.ActivateAccount`; the empty response is `()`. -/
def ActivateAccount (F : FaultPlan) (J : Runtime) (now : Timestamp) (name : GoString)
    (w : World) : Outcome Unit × World :=
  match ParseAccount name with
  | Outcome.ok _ =>
    match storeGetAccount F J name w with
    | (Outcome.ok none, w1) => (Outcome.error errNotFound, w1)
    | (Outcome.ok (some account), w1) =>
      match account.Status with
      | none => (Outcome.panic, w1)
      | some current =>
        if current.Phase = AccountPhase.ACCOUNT_PHASE_ACTIVE then
          (Outcome.error (errFailedPrecondition (bytesOf "account is already active")), w1)
        else
          match storeUpdateAccountStatus F J now name
              { Name := [], Phase := AccountPhase.ACCOUNT_PHASE_ACTIVE, Reason := [],
                Message := [] } w1 with
          | (Outcome.ok none, w2) => (Outcome.error errNotFound, w2)
          | (Outcome.ok (some _), w2) => (Outcome.ok (), w2)
          | (r, w2) => (r.failure, w2)
    | (r, w1) => (r.failure, w1)
  | r => (r.failure, w)

/-- The message `serverpb.SuspendAccountRequest`. -/
structure SuspendAccountRequest where
  Name : GoString
  Reason : GoString
  Message : GoString

/-- Source: `validAccountSuspendedReasons`. -/
def validAccountSuspendedReasons : List GoString := [bytesOf "Billing", bytesOf "Fraud"]

/-- Source: `validateSuspendAccount`; the detail of `field.NotSupported` lists
the supported values. -/
def validateSuspendAccount (req : SuspendAccountRequest) : Outcome (Option GoError) :=
  let nameErrs : Outcome (List FieldError) :=
    match ParseAccount req.Name with
    | Outcome.ok _ => Outcome.ok []
    | Outcome.error (GoError.status _ message _) =>
      Outcome.ok [{ Field := bytesOf "name", Detail := message }]
    | r => r.failure
  match nameErrs with
  | Outcome.ok errs =>
    let validReason := validAccountSuspendedReasons.any (fun r => decide (req.Reason = r))
    let errs1 :=
      if !validReason then
        errs ++ [{ Field := bytesOf "reason",
                   Detail := bytesOf "supported values: \"Billing\", \"Fraud\"" }]
      else errs
    let errs2 :=
      if req.Message.length > 1024 then
        errs1 ++ [{ Field := bytesOf "message",
                    Detail := bytesOf "message must be between 0 and 1024 characters" }]
      else errs1
    Outcome.ok (convertErrorList errs2)
  | r => r.failure

/-- Source: `server.SuspendAccount`. -/
def SuspendAccount (F : FaultPlan) (J : Runtime) (now : Timestamp)
    (req : SuspendAccountRequest) (w : World) : Outcome Unit × World :=
  match validateSuspendAccount req with
  | Outcome.ok (some e) => (Outcome.error e, w)
  | Outcome.ok none =>
    match storeGetAccount F J req.Name w with
    | (Outcome.ok none, w1) => (Outcome.error errNotFound, w1)
    | (Outcome.ok (some account), w1) =>
      match account.Status with
      | none => (Outcome.panic, w1)
      | some current =>
        if current.Phase = AccountPhase.ACCOUNT_PHASE_SUSPENDED then
          (Outcome.error (errFailedPrecondition (bytesOf "account is already suspended")), w1)
        else
          match storeUpdateAccountStatus F J now req.Name
              { Name := [], Phase := AccountPhase.ACCOUNT_PHASE_SUSPENDED,
                Reason := req.Reason, Message := req.Message } w1 with
          | (Outcome.ok none, w2) => (Outcome.error errNotFound, w2)
          | (Outcome.ok (some _), w2) => (Outcome.ok (), w2)
          | (r, w2) => (r.failure, w2)
    | (r, w1) => (r.failure, w1)
  | r => (r.failure, w)

/-- Source: `server.DeleteAccount`. -/
def DeleteAccount (F : FaultPlan) (J : Runtime) (name : GoString) (w : World) :
    Outcome Account × World :=
  match ParseAccount name with
  | Outcome.ok _ =>
    match storeDeleteAccount F J name w with
    | (Outcome.ok none, w1) => (Outcome.error errNotFound, w1)
    | (Outcome.ok (some existing), w1) => (Outcome.ok existing, w1)
    | (r, w1) => (r.failure, w1)
  | r => (r.failure, w)

/-- Source: `server.UpdateAccountStatus`; a request without `AccountStatus`
makes the handler dereference nil. -/
def UpdateAccountStatus (F : FaultPlan) (J : Runtime) (now : Timestamp)
    (accountStatus : Option AccountStatus) (w : World) : Outcome AccountStatus × World :=
  match accountStatus with
  | none => (Outcome.panic, w)
  | some status =>
    match ParseAccount status.Name with
    | Outcome.ok _ =>
      match storeUpdateAccountStatus F J now status.Name status w with
      | (Outcome.ok none, w1) => (Outcome.error errNotFound, w1)
      | (Outcome.ok (some updatedStatus), w1) => (Outcome.ok updatedStatus, w1)
      | (r, w1) => (r.failure, w1)
    | r => (r.failure, w)

/-- Source: `server.UpdateAccountQuotas`. -/
def UpdateAccountQuotas (F : FaultPlan) (J : Runtime) (now : Timestamp)
    (accountQuotas : Option AccountQuotas) (w : World) : Outcome AccountQuotas × World :=
  match accountQuotas with
  | none => (Outcome.panic, w)
  | some quotas =>
    match ParseAccount quotas.Name with
    | Outcome.ok _ =>
      match storeUpdateAccountQuotas F J now quotas.Name quotas w with
      | (Outcome.ok none, w1) => (Outcome.error errNotFound, w1)
      | (Outcome.ok (some updatedQuotas), w1) => (Outcome.ok updatedQuotas, w1)
      | (r, w1) => (r.failure, w1)
    | r => (r.failure, w)

/-- Source: `validateCreateLocation`. -/
def validateCreateLocation (location : Option Location) : Option GoError :=
  let path := bytesOf "location"
  match location with
  | none => convertErrorList [{ Field := path, Detail := bytesOf "location is required" }]
  | some l =>
    convertErrorList
      (if l.Description.length > 255 then
        [{ Field := path ++ bytesOf ".description",
           Detail := bytesOf "description must not be longer than 255 characters" }]
      else [])

/-- The message `serverpb.CreateLocationRequest`. -/
structure CreateLocationRequest where
  Parent : GoString
  Location : Option Location

/-- Source: `server.CreateLocation`. -/
def CreateLocation (F : FaultPlan) (J : Runtime) (now : Timestamp)
    (req : CreateLocationRequest) (w : World) : Outcome Location × World :=
  match validateCreateLocation req.Location with
  | some e => (Outcome.error e, w)
  | none =>
    match storeGetAccount F J req.Parent w with
    | (Outcome.ok none, w1) => (Outcome.error errNotFound, w1)
    | (Outcome.ok (some _), w1) =>
      match req.Location with
      | none => (Outcome.panic, w1)
      | some payload =>
        let location : Location :=
          { payload with
            Name := BuildRelativeName
              [req.Parent, CollectionLocations, slugify J payload.DisplayName] }
        match storeCreateLocation F now location w1 with
        | (Outcome.ok none, w2) => (Outcome.error errAlreadyExists, w2)
        | (Outcome.ok (some created), w2) => (Outcome.ok created, w2)
        | (r, w2) => (r.failure, w2)
    | (r, w1) => (r.failure, w1)

/-- The message `serverpb.UpdateLocationRequest`. -/
structure UpdateLocationRequest where
  Location : Option Location
  UpdateMask : Option (List GoString)

/-- Source: `server.UpdateLocation`. -/
def UpdateLocation (F : FaultPlan) (J : Runtime) (now : Timestamp)
    (req : UpdateLocationRequest) (w : World) : Outcome Location × World :=
  match validateCreateLocation req.Location with
  | some e => (Outcome.error e, w)
  | none =>
    match req.Location with
    | none => (Outcome.panic, w)
    | some location =>
      match storeUpdateLocation F J now location req.UpdateMask w with
      | (Outcome.ok none, w1) => (Outcome.error errNotFound, w1)
      | (Outcome.ok (some updated), w1) => (Outcome.ok updated, w1)
      | (r, w1) => (r.failure, w1)

/-- Source: `server.DeleteLocation`; the empty response is `()`. -/
def DeleteLocation (F : FaultPlan) (name : GoString) (w : World) : Outcome Unit × World :=
  match ParseLocation name with
  | Outcome.ok _ =>
    match storeDeleteLocation F name w with
    | (Outcome.ok none, w1) => (Outcome.error errNotFound, w1)
    | (Outcome.ok (some _), w1) => (Outcome.ok (), w1)
    | (r, w1) => (r.failure, w1)
  | r => (r.failure, w)

/-- Source: `validateRoom`. -/
def validateRoom (room : Option Room) (create : Bool) : Outcome (Option GoError) :=
  let path := bytesOf "room"
  match room with
  | none => Outcome.ok (convertErrorList [{ Field := path, Detail := bytesOf "room is required" }])
  | some r =>
    let errs := validateLabels path ++ validateAnnotations path
      ++ validateDisplayName path r.DisplayName ++ validateDescription path r.Description
    if !create then
      if r.Name = [] then
        Outcome.ok (convertErrorList
          (errs ++ [{ Field := path ++ bytesOf ".name", Detail := bytesOf "name is required" }]))
      else
        match ParseRoom r.Name with
        | Outcome.ok _ => Outcome.ok (convertErrorList errs)
        | Outcome.error e =>
          Outcome.ok (convertErrorList
            (errs ++ [{ Field := path ++ bytesOf ".name", Detail := errorText e }]))
        | o => o.failure
    else Outcome.ok (convertErrorList errs)

/-- The message `serverpb.CreateRoomRequest`. -/
structure CreateRoomRequest where
  Parent : GoString
  RoomId : GoString
  Room : Option Room

/-- Source: `server.CreateRoom`. -/
def CreateRoom (F : FaultPlan) (now : Timestamp) (req : CreateRoomRequest) (w : World) :
    Outcome Room × World :=
  match validateRoom req.Room true with
  | Outcome.ok (some e) => (Outcome.error e, w)
  | Outcome.ok none =>
    match storeGetLocation F req.Parent w with
    | (Outcome.ok none, w1) => (Outcome.error errNotFound, w1)
    | (Outcome.ok (some _), w1) =>
      match req.Room with
      | none => (Outcome.panic, w1)
      | some payload =>
        let room : Room :=
          { payload with Name := BuildRelativeName [req.Parent, CollectionRooms, req.RoomId] }
        match storeCreateRoom F now room w1 with
        | (Outcome.ok none, w2) => (Outcome.error errAlreadyExists, w2)
        | (Outcome.ok (some created), w2) => (Outcome.ok created, w2)
        | (r, w2) => (r.failure, w2)
    | (r, w1) => (r.failure, w1)
  | r => (r.failure, w)

/-- The message `serverpb.UpdateRoomRequest`. -/
structure UpdateRoomRequest where
  Room : Option Room
  UpdateMask : Option (List GoString)

/-- Source: `server.UpdateRoom`. -/
def UpdateRoom (F : FaultPlan) (J : Runtime) (now : Timestamp) (req : UpdateRoomRequest)
    (w : World) : Outcome Room × World :=
  match validateRoom req.Room false with
  | Outcome.ok (some e) => (Outcome.error e, w)
  | Outcome.ok none =>
    match req.Room with
    | none => (Outcome.panic, w)
    | some room =>
      match storeUpdateRoom F J now room req.UpdateMask w with
      | (Outcome.ok none, w1) => (Outcome.error errNotFound, w1)
      | (Outcome.ok (some updated), w1) => (Outcome.ok updated, w1)
      | (r, w1) => (r.failure, w1)
  | r => (r.failure, w)

/-- Source: `server.DeleteRoom`; the empty response is `()`. -/
def DeleteRoom (F : FaultPlan) (name : GoString) (w : World) : Outcome Unit × World :=
  match ParseRoom name with
  | Outcome.ok _ =>
    match storeDeleteRoom F name w with
    | (Outcome.ok none, w1) => (Outcome.error errNotFound, w1)
    | (Outcome.ok (some _), w1) => (Outcome.ok (), w1)
    | (r, w1) => (r.failure, w1)
  | r => (r.failure, w)

/-! ## Concrete instances for evaluation -/

/-- The fault plan under which no database call fails. -/
def noFaults : FaultPlan := fun _ => none

/-- The fault plan under which exactly the call with index `k` fails. -/
def faultAt (k : Nat) : FaultPlan :=
  fun i => if i = k then some (GoError.other (bytesOf "driver: bad connection")) else none

/-- The code of an account phase in the text of `demoRuntime`. -/
def demoPhaseCode : AccountPhase → Nat
  | AccountPhase.ACCOUNT_PHASE_UNSPECIFIED => 0
  | AccountPhase.ACCOUNT_PHASE_ACTIVE => 1
  | AccountPhase.ACCOUNT_PHASE_SUSPENDED => 2

/-- A stand-in for the library functions of `Runtime`, simple enough to
evaluate: a status is written as its phase code, two field lengths and the
three fields; quotas as the two counters and the name; no rune above ASCII is
changed by lowering; the field-mask merge copies the display name and the
description when the path list is empty or names them.  It serves only to run
the model on concrete inputs. -/
def demoRuntime : Runtime where
  statusMarshal := fun s =>
    Except.ok ([demoPhaseCode s.Phase, s.Name.length, s.Reason.length]
      ++ (s.Name ++ (s.Reason ++ s.Message)))
  statusUnmarshal := fun text =>
    match text with
    | p :: a :: b :: rest =>
      if a + b ≤ rest.length then
        Except.ok
          { Phase :=
              if p = 1 then AccountPhase.ACCOUNT_PHASE_ACTIVE
              else if p = 2 then AccountPhase.ACCOUNT_PHASE_SUSPENDED
              else AccountPhase.ACCOUNT_PHASE_UNSPECIFIED
            Name := rest.take a
            Reason := (rest.drop a).take b
            Message := rest.drop (a + b) }
      else Except.error (bytesOf "unexpected end of JSON input")
    | _ => Except.error (bytesOf "unexpected end of JSON input")
  quotasMarshal := fun q => Except.ok ([q.Devices.toNat, q.Locations.toNat] ++ q.Name)
  quotasUnmarshal := fun text =>
    match text with
    | d :: l :: name => Except.ok { Name := name, Devices := d, Locations := l }
    | _ => Except.error (bytesOf "unexpected end of JSON input")
  unicodeToLower := fun r => r
  mergeLocation := fun paths src dst =>
    Except.ok
      { dst with
        DisplayName :=
          if paths = [] ∨ bytesOf "display_name" ∈ paths then src.DisplayName
          else dst.DisplayName
        Description :=
          if paths = [] ∨ bytesOf "description" ∈ paths then src.Description
          else dst.Description }
  mergeRoom := fun paths src dst =>
    Except.ok
      { dst with
        DisplayName :=
          if paths = [] ∨ bytesOf "display_name" ∈ paths then src.DisplayName
          else dst.DisplayName
        Description :=
          if paths = [] ∨ bytesOf "description" ∈ paths then src.Description
          else dst.Description }

/-- A clock reading. -/
def demoNow : Timestamp := { seconds := 1600000000, nanos := 0 }

/-- A later clock reading. -/
def demoLater : Timestamp := { seconds := 1600000060, nanos := 0 }

/-- The database before any row is stored. -/
def emptyWorld : World :=
  { tables := { accounts := [], locations := [], rooms := [], nextID := 1 },
    log := [], calls := 0 }

/-- The payload of a request to create the account `acme-corp`. -/
def demoAccountPayload : Account :=
  { Name := [], Uid := [], SelfLink := [], CreateTime := none, UpdateTime := none,
    DisplayName := bytesOf "Acme", Status := none, Quotas := none }

/-- The request to create the account `acme-corp`. -/
def demoCreateAccountRequest : CreateAccountRequest :=
  { AccountId := bytesOf "acme-corp", Account := some demoAccountPayload }

/-- The database after `CreateAccount` stored the account `acme-corp`. -/
def worldWithAccount : World :=
  (CreateAccount noFaults demoRuntime demoNow demoCreateAccountRequest emptyWorld).2

/-- The request to create the location `Head Office` under `acme-corp`. -/
def demoCreateLocationRequest : CreateLocationRequest :=
  { Parent := bytesOf "accounts/acme-corp",
    Location := some
      { Name := [], DisplayName := bytesOf "Head Office", Description := bytesOf "HQ",
        SelfLink := [], CreatedTime := none, UpdatedTime := none } }

/-- The database after `CreateLocation` stored the location `head-office`. -/
def worldWithLocation : World :=
  (CreateLocation noFaults demoRuntime demoNow demoCreateLocationRequest worldWithAccount).2

/-- The request to create the room `room-101` under `head-office`. -/
def demoCreateRoomRequest : CreateRoomRequest :=
  { Parent := bytesOf "accounts/acme-corp/locations/head-office",
    RoomId := bytesOf "room-101",
    Room := some
      { Uid := [], SelfLink := [], Name := [], CreateTime := none, UpdateTime := none,
        DisplayName := bytesOf "Room 101", Description := [] } }

/-- The database after `CreateRoom` stored the room `room-101`. -/
def worldWithRoom : World :=
  (CreateRoom noFaults demoNow demoCreateRoomRequest worldWithLocation).2

/-- The request to suspend the account `acme-corp` for billing. -/
def demoSuspendRequest : SuspendAccountRequest :=
  { Name := bytesOf "accounts/acme-corp", Reason := bytesOf "Billing",
    Message := bytesOf "unpaid" }

/-- The database after `SuspendAccount` suspended the account `acme-corp`. -/
def worldSuspended : World :=
  (SuspendAccount noFaults demoRuntime demoLater demoSuspendRequest worldWithAccount).2

/-- The payload of a request to rename the location `head-office`. -/
def demoLocationUpdate : Location :=
  { Name := bytesOf "accounts/acme-corp/locations/head-office",
    DisplayName := bytesOf "New", Description := [], SelfLink := [], CreatedTime := none,
    UpdatedTime := none }

/-- The request to rename the account `acme-corp`. -/
def demoUpdateAccountRequest : UpdateAccountRequest :=
  { Account := some { demoAccountPayload with
      Name := bytesOf "accounts/acme-corp", DisplayName := bytesOf "New" },
    UpdateMask := none }

/-- The payload of a request to rename the room `room-101`. -/
def demoRoomUpdate : Room :=
  { Uid := [], SelfLink := [],
    Name := bytesOf "accounts/acme-corp/locations/head-office/rooms/room-101",
    CreateTime := none, UpdateTime := none, DisplayName := bytesOf "New", Description := [] }

/-! ## Specification predicates for the store -/

/-- No call on the database fails. -/
def NoFaults (F : FaultPlan) : Prop := ∀ k, F k = none

/-- The statement `doGetAccount` sends for the parsed account ID. -/
def accountSelect (parsed : GoString) : Statement :=
  { text := selectAccountBaseQuery ++ bytesOf " WHERE name = $1",
    args := [SqlValue.text parsed] }

/-- The statement `doGetLocation` sends for a location name. -/
def locationSelect (name : GoString) : Statement :=
  { text := locationSelectBaseQuery ++ bytesOf " WHERE name = $1",
    args := [SqlValue.text name] }

/-- The statement `doGetRoom` sends for the parsed IDs of a room name. -/
def roomSelect (account location name : GoString) : Statement :=
  { text := selectRoomBaseQuery ++ bytesOf " WHERE account = $1 AND location = $2 AND name = $3",
    args := [SqlValue.text account, SqlValue.text location, SqlValue.text name] }

/-- The account the tables hold under the fully-qualified `name`: what a
lookup by `doGetAccount` finds when the database call does not fail. -/
def storedAccount (J : Runtime) (t : Tables) (name : GoString) : Outcome (Option Account) :=
  match ParseAccount name with
  | Outcome.ok parsed =>
    match t.accounts.find? (fun r => decide (r.name = parsed)) with
    | none => Outcome.ok none
    | some row =>
      match scanAccount J row with
      | Except.error e => Outcome.error e
      | Except.ok account => Outcome.ok (some account)
  | r => r.failure

/-- The location the tables hold under `name`. -/
def storedLocation (t : Tables) (name : GoString) : Outcome (Option Location) :=
  match t.locations.find? (fun r => decide (r.name = name)) with
  | none => Outcome.ok none
  | some row =>
    match scanLocation row with
    | Except.error e => Outcome.error e
    | Except.ok location => Outcome.ok (some location)

/-- The room the tables hold under the fully-qualified `name`. -/
def storedRoom (t : Tables) (name : GoString) : Outcome (Option Room) :=
  match ParseRoom name with
  | Outcome.ok (accountName, locationName, roomName) =>
    match t.rooms.find? (fun r =>
        decide (r.account = accountName) && decide (r.location = locationName)
          && decide (r.name = roomName)) with
    | none => Outcome.ok none
    | some row =>
      match scanRoom row with
      | Except.error e => Outcome.error e
      | Except.ok room => Outcome.ok (some room)
  | r => r.failure

/-- The world after one more call that sent the statement `stmt`. -/
def afterStatement (w : World) (stmt : Statement) : World :=
  { w with calls := w.calls + 1, log := w.log ++ [stmt] }

/-- The world after one more call that sent no statement. -/
def afterControl (w : World) : World := { w with calls := w.calls + 1 }

/-- Assumed of `jsonpb`: marshalling an account status or account quotas
message succeeds. -/
def MarshalSucceeds (J : Runtime) : Prop :=
  (∀ s : AccountStatus, ∃ text, J.statusMarshal s = Except.ok text) ∧
    ∀ q : AccountQuotas, ∃ text, J.quotasMarshal q = Except.ok text

/-- The account `store.CreateAccount` builds for the payload `account` at the
time `now`. -/
def newAccountFor (account : Account) (now : Timestamp) : Account :=
  { Name := account.Name
    Uid := []
    SelfLink := serviceName ++ account.Name
    CreateTime := some now
    UpdateTime := none
    DisplayName := account.DisplayName
    Status := some
      { Name := [], Phase := AccountPhase.ACCOUNT_PHASE_ACTIVE, Reason := [], Message := [] }
    Quotas := some { Name := account.Name ++ bytesOf "/quotas", Devices := 0, Locations := 0 } }

/-! ## Specification predicates for request validation -/

/-- The outcome is an `InvalidArgument` status error whose details hold a
violation for the field `f`. -/
def HasViolation {α : Type} (o : Outcome α) (f : GoString) : Prop :=
  ∃ msg details, o = Outcome.error (GoError.status Code.InvalidArgument msg details) ∧
    ∃ v ∈ details, v.field = f

/-- Every field path and every detail of the violation list is valid UTF-8,
which is what attaching the list to a status needs. -/
def ValidViolations (errs : List FieldError) : Prop :=
  ∀ e ∈ errs, utf8Valid e.Field = true ∧ utf8Valid e.Detail = true

/-- The violations `validatePageableRequest` collects for a request whose page
token decoded to `p`, in the order of the source. -/
def pageViolations (req : PageableRequest) (p : PageInfo) : List FieldError :=
  (if req.PageSize > maxGlobalPageSize ∨ req.PageSize < 0 then
      [{ Field := bytesOf "page_size",
         Detail := bytesOf "page_size must be between 0 and 500 inclusive" }]
    else [])
  ++ (if p.RequestKey ≠ req.Parent.getD [] then
      [{ Field := bytesOf "parent",
         Detail := bytesOf "parent must not be changed during pagination query" }]
    else [])
  ++ (if p.Filter ≠ req.Filter.getD [] then
      [{ Field := bytesOf "filter",
         Detail := bytesOf "filter must not be changed during pagination query" }]
    else [])
  ++ (if p.Order ≠ req.Order.getD [] then
      [{ Field := bytesOf "order",
         Detail := bytesOf "order must not be changed during pagination query" }]
    else [])

/-- A request for the second page of accounts under `accounts/acme` that asks
for 501 rows; its token is the one of `demoAccountsPage`. -/
def demoOversizedRequest : PageableRequest :=
  { PageSize := 501, PageToken := demoAccountsPage.NextPageToken,
    Parent := some (bytesOf "accounts/acme"), Filter := none, Order := none }

/-- A database that answers every query with an error quoting the query text. -/
def echoDatabase : Database Nat := fun query _ => Outcome.error (GoError.other query)


/-! ## Package `server`: the remaining read handlers -/

/-- Source: `server.GetAccountStatus`; `account.GetStatus()` may be nil. -/
def GetAccountStatus (F : FaultPlan) (J : Runtime) (name : GoString) (w : World) :
    Outcome (Option AccountStatus) × World :=
  match ParseAccount name with
  | Outcome.ok _ =>
    match storeGetAccount F J name w with
    | (Outcome.ok none, w1) => (Outcome.error errNotFound, w1)
    | (Outcome.ok (some account), w1) => (Outcome.ok account.Status, w1)
    | (r, w1) => (r.failure, w1)
  | r => (r.failure, w)

/-- Source: `server.GetAccountQuotas`; `account.GetQuotas()` may be nil. -/
def GetAccountQuotas (F : FaultPlan) (J : Runtime) (name : GoString) (w : World) :
    Outcome (Option AccountQuotas) × World :=
  match ParseAccount name with
  | Outcome.ok _ =>
    match storeGetAccount F J name w with
    | (Outcome.ok none, w1) => (Outcome.error errNotFound, w1)
    | (Outcome.ok (some account), w1) => (Outcome.ok account.Quotas, w1)
    | (r, w1) => (r.failure, w1)
  | r => (r.failure, w)

/-- Source: `server.GetLocation`. -/
def GetLocation (F : FaultPlan) (name : GoString) (w : World) : Outcome Location × World :=
  match ParseLocation name with
  | Outcome.ok _ =>
    match storeGetLocation F name w with
    | (Outcome.ok none, w1) => (Outcome.error errNotFound, w1)
    | (Outcome.ok (some location), w1) => (Outcome.ok location, w1)
    | (r, w1) => (r.failure, w1)
  | r => (r.failure, w)

/-- Source: `server.GetRoom`. -/
def GetRoom (F : FaultPlan) (name : GoString) (w : World) : Outcome Room × World :=
  match ParseRoom name with
  | Outcome.ok _ =>
    match storeGetRoom F name w with
    | (Outcome.ok none, w1) => (Outcome.error errNotFound, w1)
    | (Outcome.ok (some room), w1) => (Outcome.ok room, w1)
    | (r, w1) => (r.failure, w1)
  | r => (r.failure, w)

/-! ## Specification predicates for the later claims -/

/-- The error is a gRPC status with code `InvalidArgument`. -/
def IsInvalidArgument (e : GoError) : Prop :=
  ∃ msg details, e = GoError.status Code.InvalidArgument msg details

/-- The fields for which `validateSuspendAccount` is expected to report a
violation, in the order of its checks. -/
def suspendViolationFields (req : SuspendAccountRequest) : List GoString :=
  (match ParseAccount req.Name with
    | Outcome.ok _ => []
    | _ => [bytesOf "name"])
  ++ (if req.Reason = bytesOf "Billing" ∨ req.Reason = bytesOf "Fraud" then []
      else [bytesOf "reason"])
  ++ (if req.Message.length ≤ 1024 then [] else [bytesOf "message"])

/-- The violation `validatePageableRequest` records for a page size outside
`[0, 500]`. -/
def pageSizeViolations (req : PageableRequest) : List FieldError :=
  if req.PageSize > maxGlobalPageSize ∨ req.PageSize < 0 then
    [{ Field := bytesOf "page_size",
       Detail := bytesOf "page_size must be between 0 and 500 inclusive" }]
  else []

/-- The violations expected for a request whose page token failed to decode
with a status error of message `message`: the `page_token` violation, then one
violation for each of parent, filter and order that is not empty. -/
def staleTokenViolations (req : PageableRequest) (message : GoString) : List FieldError :=
  [{ Field := bytesOf "page_token", Detail := message }]
  ++ (if req.Parent.getD [] ≠ [] then
      [{ Field := bytesOf "parent",
         Detail := bytesOf "parent must not be changed during pagination query" }]
    else [])
  ++ (if req.Filter.getD [] ≠ [] then
      [{ Field := bytesOf "filter",
         Detail := bytesOf "filter must not be changed during pagination query" }]
    else [])
  ++ (if req.Order.getD [] ≠ [] then
      [{ Field := bytesOf "order",
         Detail := bytesOf "order must not be changed during pagination query" }]
    else [])

/-- The field violation of the error detail made from a `field.Error`. -/
def toFieldViolation (e : FieldError) : FieldViolation :=
  { field := e.Field, description := e.Detail }

/-- A request for 501 rows under `accounts/acme` whose page token is not a
token of the paginator. -/
def demoGarbageTokenRequest : PageableRequest :=
  { PageSize := 501, PageToken := bytesOf "garbage", Parent := some (bytesOf "accounts/acme"),
    Filter := none, Order := none }

/-! ## More concrete instances -/

/-- A display name of 256 bytes whose slug is `head-office`. -/
def demoLongDisplayName : GoString := bytesOf "Head Office" ++ List.replicate 245 33

/-- A request to create, under `acme-corp`, a location whose display name has
256 bytes. -/
def demoLongLocationRequest : CreateLocationRequest :=
  { Parent := bytesOf "accounts/acme-corp",
    Location := some
      { Name := [], DisplayName := demoLongDisplayName, Description := bytesOf "HQ",
        SelfLink := [], CreatedTime := none, UpdatedTime := none } }

/-- A request to give the location `head-office` a display name of 256 bytes. -/
def demoLongLocationUpdate : UpdateLocationRequest :=
  { Location := some { demoLocationUpdate with DisplayName := demoLongDisplayName },
    UpdateMask := none }

/-- The query `store.ListAccounts` sends for the first page when the page size
is the default. -/
def demoFirstPageQuery : GoString :=
  selectAccountBaseQuery ++ bytesOf " ORDER BY name" ++ bytesOf " LIMIT 25 OFFSET 0"

/-- A database that answers `demoFirstPageQuery` with 25 rows and every other
query with none. -/
def demoDatabase25 : Database Nat :=
  fun query _ => if query = demoFirstPageQuery then Outcome.ok (List.range 25) else Outcome.ok []

/-- A database without rows. -/
def demoEmptyDatabase : Database Nat := fun _ _ => Outcome.ok []

/-- A first-page request for accounts that leaves the page size to the
default. -/
def demoDefaultSizeRequest : PageableRequest :=
  { PageSize := 0, PageToken := [], Parent := none, Filter := none, Order := none }

/-- A request to create the room `room-101` under a parent that is not a
location name. -/
def demoStrayRoomRequest : CreateRoomRequest :=
  { demoCreateRoomRequest with Parent := bytesOf "nonsense" }

/-- A request to rename a location whose name is not a location name. -/
def demoStrayLocationUpdate : UpdateLocationRequest :=
  { Location := some { demoLocationUpdate with Name := bytesOf "nonsense" },
    UpdateMask := none }

/-- A violation list whose one detail is the byte `0xFF`, which is not valid
UTF-8. -/
def demoUndecodableViolations : List FieldError :=
  [{ Field := bytesOf "name", Detail := [0xFF] }]

/-- The database after `DeleteLocation` removed the location `head-office`
from `worldWithRoom`: the row of its room `room-101` is still stored. -/
def worldWithOrphanRoom : World :=
  (DeleteLocation noFaults (bytesOf "accounts/acme-corp/locations/head-office") worldWithRoom).2

/-! ## Specification predicates for following page tokens -/

/-- The page token of request `j` of a listing that starts with an empty page
token and sends, in every further request, the next-page token of the previous
response; `handler` is the list handler on its database and `req` gives the
page size, parent, filter and order, the same in every request. -/
def nthPageToken {Row : Type} (handler : PageableRequest → Outcome (ListResponse Row))
    (req : PageableRequest) : Nat → Outcome GoString
  | 0 => Outcome.ok []
  | j + 1 =>
    match nthPageToken handler req j with
    | Outcome.ok token =>
      match handler { req with PageToken := token } with
      | Outcome.ok resp => Outcome.ok resp.NextPageToken
      | Outcome.error e => Outcome.error e
      | Outcome.panic => Outcome.panic
      | Outcome.timeout => Outcome.timeout
    | r => r

/-- The page info expected for request `j`: the parent, filter and order of the
request and the cursor `j` times the page size. -/
def pageInfoAt (req : PageableRequest) (j : Nat) : PageInfo :=
  { RequestKey := req.Parent.getD [], EndCursor := Itoa ((j : Int) * req.PageSize),
    Filter := req.Filter.getD [], Order := req.Order.getD [] }

/-- The query text expected for request `j` with page size `k`: the ordered
query `base` with `LIMIT k` and `OFFSET j * k`. -/
def pageQuery (base : GoString) (k : Int) (j : Nat) : GoString :=
  base ++ bytesOf " LIMIT " ++ Itoa k ++ bytesOf " OFFSET " ++ Itoa ((j : Int) * k)

/-- The response a list handler makes of the outcome of its query. -/
def answerWith {Row : Type} (L : Library) (secret entropy : GoString) (p : PageInfo) (k : Int)
    (result : Outcome (List Row)) : Outcome (ListResponse Row) :=
  match result with
  | Outcome.ok rows => listResponse L secret entropy p k rows
  | Outcome.error e => Outcome.error e
  | Outcome.panic => Outcome.panic
  | Outcome.timeout => Outcome.timeout

/-! ## Specification predicates for the identity of stored entities -/

/-- Assumed of `jsonpb`: the text the marshaller wrote for an account status or
for account quotas can be read back by the unmarshaller. -/
def UnmarshalAfterMarshal (J : Runtime) : Prop :=
  (∀ (s : AccountStatus) (text : GoString), J.statusMarshal s = Except.ok text →
      ∃ s', J.statusUnmarshal text = Except.ok s') ∧
    ∀ (q : AccountQuotas) (text : GoString), J.quotasMarshal q = Except.ok text →
      ∃ q', J.quotasUnmarshal text = Except.ok q'

/-- Row `r'` of `account` keeps the identity of row `r`: the same key, and when
`r` decodes to an account so does `r'`, to one of the same name and creation
time. -/
def accountRowKept (J : Runtime) (r r' : AccountRow) : Prop :=
  r'.name = r.name ∧
    ∀ a, scanAccount J r = Except.ok a →
      ∃ a', scanAccount J r' = Except.ok a' ∧ a'.Name = a.Name ∧ a'.CreateTime = a.CreateTime

/-- Row `r'` of `location` keeps the identity of row `r`. -/
def locationRowKept (r r' : LocationRow) : Prop :=
  r'.name = r.name ∧
    ∀ a, scanLocation r = Except.ok a →
      ∃ a', scanLocation r' = Except.ok a' ∧ a'.Name = a.Name ∧ a'.CreatedTime = a.CreatedTime

/-- Row `r'` of `room` keeps the identity of row `r`. -/
def roomRowKept (r r' : RoomRow) : Prop :=
  r'.account = r.account ∧ r'.location = r.location ∧ r'.name = r.name ∧
    ∀ a, scanRoom r = Except.ok a →
      ∃ a', scanRoom r' = Except.ok a' ∧ a'.Name = a.Name ∧ a'.CreateTime = a.CreateTime

/-- The tables `t'` hold the rows of `t`, in the same order, each with its
identity kept. -/
def IdentityKept (J : Runtime) (t t' : Tables) : Prop :=
  List.Forall₂ (accountRowKept J) t.accounts t'.accounts ∧
    List.Forall₂ locationRowKept t.locations t'.locations ∧
    List.Forall₂ roomRowKept t.rooms t'.rooms

/-- A get of the account `name` on the database `w`, no call failing, returns
an account with the name and the creation time of `e`. -/
def AccountKept (J : Runtime) (name : GoString) (e : Account) (w : World) : Prop :=
  ∃ e', (∀ F : FaultPlan, NoFaults F → (storeGetAccount F J name w).1 = Outcome.ok (some e')) ∧
    e'.Name = e.Name ∧ e'.CreateTime = e.CreateTime

/-- A get of the location `name` on the database `w`, no call failing, returns
a location with the name and the creation time of `e`. -/
def LocationKept (name : GoString) (e : Location) (w : World) : Prop :=
  ∃ e', (∀ F : FaultPlan, NoFaults F → (storeGetLocation F name w).1 = Outcome.ok (some e')) ∧
    e'.Name = e.Name ∧ e'.CreatedTime = e.CreatedTime

/-- A get of the room `name` on the database `w`, no call failing, returns a
room with the name and the creation time of `e`. -/
def RoomKept (name : GoString) (e : Room) (w : World) : Prop :=
  ∃ e', (∀ F : FaultPlan, NoFaults F → (storeGetRoom F name w).1 = Outcome.ok (some e')) ∧
    e'.Name = e.Name ∧ e'.CreateTime = e.CreateTime
/-! # Theorems -/

/-! ## Resource-ID grammar -/

theorem runeWidth_ascii (b : Nat) (rest : GoString) (h : b < 128) :
    runeWidth (b :: rest) = 1 := by
  simp [runeWidth, h]

theorem drop_of_getElem? (id : GoString) (i c : Nat) (h : id[i]? = some c) :
    id.drop i = c :: id.drop (i + 1) := by
  obtain ⟨hi, hc⟩ := List.getElem?_eq_some.mp h
  rw [← hc]
  exact List.drop_eq_getElem_cons hi

theorem goodFrom_step (id : GoString) (i c : Nat) (h : id[i]? = some c) :
    GoodFrom id i ↔
      (isIDByte c ∧ (c = hyphen → ∃ k, i = k + 1 ∧ id[k]? ≠ some hyphen)) ∧
        GoodFrom id (i + 1) := by
  constructor
  · intro hg
    exact ⟨hg i c (le_refl i) h, fun j d hj hd => hg j d (by omega) hd⟩
  · rintro ⟨h0, hg⟩ j d hj hd
    rcases Nat.eq_or_lt_of_le hj with rfl | hlt
    · rw [h] at hd
      cases hd
      exact h0
    · exact hg j d hlt hd

theorem validResourceIDLoop_spec (id : GoString) :
    ∀ fuel i, id.length ≤ fuel + i → (i = 0 → id[0]? ≠ some hyphen) →
      (validResourceIDLoop id fuel i = Outcome.ok true ∧ GoodFrom id i) ∨
        (validResourceIDLoop id fuel i = Outcome.ok false ∧ ¬ GoodFrom id i) := by
  intro fuel
  induction fuel with
  | zero =>
    intro i hlen _
    left
    refine ⟨by simp [validResourceIDLoop]; omega, ?_⟩
    intro j c hj hc
    have := (List.getElem?_eq_some.mp hc).1
    omega
  | succ fuel ih =>
    intro i hlen h0
    cases hget : id[i]? with
    | none =>
      left
      refine ⟨by simp [validResourceIDLoop, hget], ?_⟩
      intro j c hj hc
      have := (List.getElem?_eq_some.mp hc).1
      have := List.getElem?_eq_none_iff.mp hget
      omega
    | some c =>
      have hstep := goodFrom_step id i c hget
      have hdrop := drop_of_getElem? id i c hget
      have hnext : c < 128 → i + runeWidth (id.drop i) = i + 1 := by
        intro hc
        rw [hdrop, runeWidth_ascii c _ hc]
      have ih1 := ih (i + 1) (by omega) (by omega)
      by_cases hd : 48 ≤ c ∧ c ≤ 57
      · have hw := hnext (by omega)
        have hid : isIDByte c := Or.inr (Or.inl hd)
        have hne : c ≠ hyphen := by unfold hyphen; omega
        have hloop : validResourceIDLoop id (fuel + 1) i = validResourceIDLoop id fuel (i + 1) := by
          simp [validResourceIDLoop, hget, hd, hw]
        rw [hloop, hstep]
        rcases ih1 with ⟨h1, h2⟩ | ⟨h1, h2⟩
        · exact Or.inl ⟨h1, ⟨hid, fun h => absurd h hne⟩, h2⟩
        · exact Or.inr ⟨h1, fun h => h2 h.2⟩
      · by_cases hl : 97 ≤ c ∧ c ≤ 122
        · have hw := hnext (by omega)
          have hid : isIDByte c := Or.inl hl
          have hne : c ≠ hyphen := by unfold hyphen; omega
          have hloop : validResourceIDLoop id (fuel + 1) i = validResourceIDLoop id fuel (i + 1) := by
            simp [validResourceIDLoop, hget, hd, hl, hw]
          rw [hloop, hstep]
          rcases ih1 with ⟨h1, h2⟩ | ⟨h1, h2⟩
          · exact Or.inl ⟨h1, ⟨hid, fun h => absurd h hne⟩, h2⟩
          · exact Or.inr ⟨h1, fun h => h2 h.2⟩
        · by_cases hh : c = hyphen
          · subst hh
            have hw := hnext (by unfold hyphen; omega)
            have hid : isIDByte hyphen := Or.inr (Or.inr rfl)
            cases i with
            | zero => exact absurd hget (h0 rfl)
            | succ j =>
              have hj : j < id.length := by
                have := (List.getElem?_eq_some.mp hget).1
                omega
              cases hp : id[j]? with
              | none =>
                have := List.getElem?_eq_none_iff.mp hp
                omega
              | some p =>
                by_cases hph : p = hyphen
                · right
                  refine ⟨by simp [validResourceIDLoop, hget, hd, hl, hp, hph], ?_⟩
                  rw [hstep]
                  rintro ⟨⟨_, hk⟩, _⟩
                  obtain ⟨k, hk1, hk2⟩ := hk rfl
                  have : k = j := by omega
                  subst this
                  exact hk2 (by rw [hp, hph])
                · have hloop : validResourceIDLoop id (fuel + 1) (j + 1)
                      = validResourceIDLoop id fuel (j + 1 + 1) := by
                    simp [validResourceIDLoop, hget, hd, hl, hp, hph, hw]
                  rw [hloop, hstep]
                  have hprev : ∃ k, j + 1 = k + 1 ∧ id[k]? ≠ some hyphen :=
                    ⟨j, rfl, by rw [hp]; simpa using hph⟩
                  rcases ih1 with ⟨h1, h2⟩ | ⟨h1, h2⟩
                  · exact Or.inl ⟨h1, ⟨hid, fun _ => hprev⟩, h2⟩
                  · exact Or.inr ⟨h1, fun h => h2 h.2⟩
          · right
            refine ⟨by simp [validResourceIDLoop, hget, hd, hl, hh], ?_⟩
            rw [hstep]
            rintro ⟨⟨hid, _⟩, _⟩
            rcases hid with h | h | h
            · exact hl h
            · exact hd h
            · exact hh h

theorem goodFrom_zero_iff (id : GoString) (h0 : id[0]? ≠ some hyphen) :
    GoodFrom id 0 ↔
      (∀ b ∈ id, isIDByte b) ∧ ∀ i, ¬ (id[i]? = some hyphen ∧ id[i + 1]? = some hyphen) := by
  constructor
  · intro hg
    refine ⟨fun b hb => ?_, fun i hi => ?_⟩
    · obtain ⟨j, hj⟩ := List.mem_iff_getElem?.mp hb
      exact (hg j b (Nat.zero_le j) hj).1
    · obtain ⟨k, hk1, hk2⟩ := (hg (i + 1) hyphen (Nat.zero_le _) hi.2).2 rfl
      have : k = i := by omega
      subst this
      exact hk2 hi.1
  · rintro ⟨hall, hcons⟩ j c _ hc
    refine ⟨hall c (List.mem_iff_getElem?.mpr ⟨j, hc⟩), fun hch => ?_⟩
    subst hch
    cases j with
    | zero => exact absurd hc h0
    | succ k => exact ⟨k, rfl, fun hk => hcons k ⟨hk, hc⟩⟩

theorem validResourceID_cases (id : GoString) :
    (ValidResourceID id = Outcome.ok true ∧ ResourceIDGrammar id) ∨
      (ValidResourceID id = Outcome.ok false ∧ ¬ ResourceIDGrammar id) := by
  by_cases hlen : id.length < 4 ∨ id.length > 63
  · right
    refine ⟨by simp [ValidResourceID, hlen], ?_⟩
    rintro ⟨h1, h2, _⟩
    omega
  · have hpos : 0 < id.length := by omega
    have hlast : id.length - 1 < id.length := by omega
    have e0 : id[0]? = some id[0] := List.getElem?_eq_getElem hpos
    have e1 : id[id.length - 1]? = some id[id.length - 1] := List.getElem?_eq_getElem hlast
    have hhead : id.head? = id[0]? := by
      cases id with
      | nil => simp at hpos
      | cons a t => simp
    have hgl : id.getLast? = id[id.length - 1]? := List.getLast?_eq_getElem? id
    by_cases hb : id[0] = hyphen ∨ id[id.length - 1] = hyphen
    · right
      refine ⟨by simp [ValidResourceID, hlen, e0, e1, hb], ?_⟩
      rintro ⟨_, _, _, h4, h5, _⟩
      rw [hhead, e0] at h4
      rw [hgl, e1] at h5
      rcases hb with hb | hb
      · exact h4 (by rw [hb])
      · exact h5 (by rw [hb])
    · have hV : ValidResourceID id = validResourceIDLoop id id.length 0 := by
        simp [ValidResourceID, hlen, e0, e1, hb]
      have hb0 : id[0]? ≠ some hyphen := by
        rw [e0]
        intro h
        exact hb (Or.inl (Option.some.inj h))
      have hb1 : id[id.length - 1]? ≠ some hyphen := by
        rw [e1]
        intro h
        exact hb (Or.inr (Option.some.inj h))
      have hG := goodFrom_zero_iff id hb0
      rw [hV]
      rcases validResourceIDLoop_spec id id.length 0 (by omega) (fun _ => hb0) with
        ⟨h1, h2⟩ | ⟨h1, h2⟩
      · left
        have := hG.mp h2
        exact ⟨h1, by omega, by omega, this.1, by rw [hhead]; exact hb0,
          by rw [hgl]; exact hb1, this.2⟩
      · right
        refine ⟨h1, ?_⟩
        rintro ⟨_, _, h3, _, _, h6⟩
        exact h2 (hG.mpr ⟨h3, h6⟩)

/-- C1: `ValidResourceID(id)` returns `true` exactly when `id` has between 4 and
63 bytes, all of them in `[a-z0-9-]`, does not start or end with `-` and has no
two consecutive `-`; in every other case it returns `false`. -/
theorem validResourceID_iff_grammar (id : GoString) :
    (ValidResourceID id = Outcome.ok true ↔ ResourceIDGrammar id) ∧
      (ValidResourceID id = Outcome.ok false ↔ ¬ ResourceIDGrammar id) := by
  rcases validResourceID_cases id with ⟨h1, h2⟩ | ⟨h1, h2⟩
  · refine ⟨⟨fun _ => h2, fun _ => h1⟩, ⟨fun h => ?_, fun h => absurd h2 h⟩⟩
    rw [h1] at h
    cases h
  · refine ⟨⟨fun h => ?_, fun h => absurd h h2⟩, ⟨fun _ => h2, fun _ => h1⟩⟩
    rw [h1] at h
    cases h

/-! ## `ParseRelativeName` -/

theorem parseRelativeNameLoop_spec (req parts : List GoString)
    (hparts : parts.length = req.length * 2) :
    ∀ remaining i acc, i + remaining = req.length → acc.length = req.length →
      (∃ out, parseRelativeNameLoop req parts remaining i acc = Outcome.ok out ∧
          (∀ j, i ≤ j → j < req.length → SegmentOK req parts j) ∧
          out.length = req.length ∧
          ∀ j, j < req.length → out[j]? = if i ≤ j then parts[2 * j + 1]? else acc[j]?) ∨
        (parseRelativeNameLoop req parts remaining i acc
            = Outcome.error (invalidNameError req) ∧
          ∃ j, i ≤ j ∧ j < req.length ∧ ¬ SegmentOK req parts j) := by
  intro remaining
  induction remaining with
  | zero =>
    intro i acc hi hacc
    left
    refine ⟨acc, by simp [parseRelativeNameLoop], fun j h1 h2 => by omega, hacc, ?_⟩
    intro j hj
    have : ¬ i ≤ j := by omega
    simp [this]
  | succ remaining ih =>
    intro i acc hi hacc
    have hin : i < req.length := by omega
    have h2i : i * 2 < parts.length := by omega
    have h2i1 : i * 2 + 1 < parts.length := by omega
    have er : req[i]? = some req[i] := List.getElem?_eq_getElem hin
    have el : parts[i * 2]? = some parts[i * 2] := List.getElem?_eq_getElem h2i
    have ei : parts[i * 2 + 1]? = some parts[i * 2 + 1] := List.getElem?_eq_getElem h2i1
    have el2 : parts[2 * i]? = some parts[i * 2] := by rw [Nat.mul_comm]; exact el
    have ei2 : parts[2 * i + 1]? = some parts[i * 2 + 1] := by rw [Nat.mul_comm]; exact ei
    have hne : i ≠ req.length := by omega
    -- the iteration fails
    have fail : ¬ SegmentOK req parts i →
        parseRelativeNameLoop req parts (remaining + 1) i acc
            = Outcome.error (invalidNameError req) →
        (∃ out, parseRelativeNameLoop req parts (remaining + 1) i acc = Outcome.ok out ∧
          (∀ j, i ≤ j → j < req.length → SegmentOK req parts j) ∧
          out.length = req.length ∧
          ∀ j, j < req.length → out[j]? = if i ≤ j then parts[2 * j + 1]? else acc[j]?) ∨
        (parseRelativeNameLoop req parts (remaining + 1) i acc
            = Outcome.error (invalidNameError req) ∧
          ∃ j, i ≤ j ∧ j < req.length ∧ ¬ SegmentOK req parts j) :=
      fun hseg hrun => Or.inr ⟨hrun, i, le_refl i, hin, hseg⟩
    -- the iteration stores the resource ID and goes on
    have goOn : SegmentOK req parts i →
        parseRelativeNameLoop req parts (remaining + 1) i acc
            = parseRelativeNameLoop req parts remaining (i + 1) (acc.set i parts[i * 2 + 1]) →
        (∃ out, parseRelativeNameLoop req parts (remaining + 1) i acc = Outcome.ok out ∧
          (∀ j, i ≤ j → j < req.length → SegmentOK req parts j) ∧
          out.length = req.length ∧
          ∀ j, j < req.length → out[j]? = if i ≤ j then parts[2 * j + 1]? else acc[j]?) ∨
        (parseRelativeNameLoop req parts (remaining + 1) i acc
            = Outcome.error (invalidNameError req) ∧
          ∃ j, i ≤ j ∧ j < req.length ∧ ¬ SegmentOK req parts j) := by
      intro hseg hrun
      rw [hrun]
      rcases ih (i + 1) (acc.set i parts[i * 2 + 1]) (by omega) (by simpa using hacc) with
        ⟨out, h1, h2, h3, h4⟩ | ⟨h1, j, hj1, hj2, hj3⟩
      · left
        refine ⟨out, h1, ?_, h3, ?_⟩
        · intro j hj1 hj2
          rcases Nat.eq_or_lt_of_le hj1 with rfl | hlt
          · exact hseg
          · exact h2 j hlt hj2
        · intro j hj
          rw [h4 j hj]
          by_cases hij : i + 1 ≤ j
          · have : i ≤ j := by omega
            simp [hij, this]
          · by_cases hji : j = i
            · subst hji
              have hlt : j < acc.length := by omega
              simp [hij, ei2, List.getElem?_set, hlt]
            · have : ¬ i ≤ j := by omega
              have hne2 : i ≠ j := fun h => hji h.symm
              simp [hij, this, List.getElem?_set, hne2]
      · right
        exact ⟨h1, j, by omega, hj2, hj3⟩
    by_cases hlit : req[i] = parts[i * 2]
    · by_cases hw : parts[i * 2 + 1] = bytesOf "-"
      · apply goOn
        · exact ⟨by rw [el2, er, hlit], parts[i * 2 + 1], ei2, Or.inl hw⟩
        · simp [parseRelativeNameLoop, er, el, ei, hlit, hne, hw]
      · rcases validResourceID_cases parts[i * 2 + 1] with ⟨hv, _⟩ | ⟨hv, _⟩
        · apply goOn
          · exact ⟨by rw [el2, er, hlit], parts[i * 2 + 1], ei2, Or.inr hv⟩
          · simp [parseRelativeNameLoop, er, el, ei, hlit, hne, hw, hv]
        · apply fail
          · rintro ⟨_, r, hr1, hr2⟩
            rw [ei2] at hr1
            cases hr1
            rcases hr2 with hr2 | hr2
            · exact hw hr2
            · rw [hv] at hr2
              cases hr2
          · simp [parseRelativeNameLoop, er, el, ei, hlit, hne, hw, hv]
    · apply fail
      · rintro ⟨h, _⟩
        rw [el2, er] at h
        exact hlit (Option.some.inj h).symm
      · simp [parseRelativeNameLoop, er, el, hlit]

theorem parseRelativeName_cases (name : GoString) (cs : List GoString) :
    (ParseRelativeName name cs = Outcome.ok (oddSegments (stringsSplitSlash name) cs.length) ∧
        WellFormedName name cs) ∨
      (ParseRelativeName name cs = Outcome.error (invalidNameError cs) ∧
        ¬ WellFormedName name cs) := by
  by_cases hlen : (stringsSplitSlash name).length = cs.length * 2
  · have hP : ParseRelativeName name cs
        = parseRelativeNameLoop cs (stringsSplitSlash name) cs.length 0
            (List.replicate cs.length []) := by
      simp [ParseRelativeName, hlen]
    rw [hP]
    rcases parseRelativeNameLoop_spec cs (stringsSplitSlash name) hlen cs.length 0
        (List.replicate cs.length []) (by omega) (by simp) with
      ⟨out, h1, h2, h3, h4⟩ | ⟨h1, j, _, hj2, hj3⟩
    · left
      refine ⟨?_, by omega, fun i hi => h2 i (Nat.zero_le i) hi⟩
      rw [h1]
      congr 1
      apply List.ext_getElem?
      intro j
      by_cases hj : j < cs.length
      · rw [h4 j hj]
        have h2j : 2 * j + 1 < (stringsSplitSlash name).length := by omega
        simp [oddSegments, List.getElem?_map, List.getElem?_range hj,
          List.getElem?_eq_getElem h2j]
      · have e1 : out[j]? = none := List.getElem?_eq_none_iff.mpr (by omega)
        have e2 : (oddSegments (stringsSplitSlash name) cs.length)[j]? = none :=
          List.getElem?_eq_none_iff.mpr (by simp [oddSegments]; omega)
        rw [e1, e2]
    · right
      exact ⟨h1, fun hw => hj3 (hw.2 j hj2)⟩
  · right
    refine ⟨by simp [ParseRelativeName, hlen], fun hw => hlen ?_⟩
    rw [hw.1, Nat.mul_comm]

/-- C2: `ParseRelativeName(name, c...)` succeeds exactly when splitting `name` on
`/` gives `2n` segments (`n` the number of collection IDs), segment `2i` equals
`c[i]` and segment `2i+1` is the wildcard `-` or passes `ValidResourceID`, for
every `i < n`; on success the result is the list of the `n` segments at the odd
offsets, in order. -/
theorem parseRelativeName_succeeds_iff (name : GoString) (cs : List GoString) :
    ((∃ ids, ParseRelativeName name cs = Outcome.ok ids) ↔
        ((stringsSplitSlash name).length = 2 * cs.length ∧
          ∀ i, i < cs.length →
            (stringsSplitSlash name)[2 * i]? = cs[i]? ∧
              ∃ r, (stringsSplitSlash name)[2 * i + 1]? = some r ∧
                (r = bytesOf "-" ∨ ValidResourceID r = Outcome.ok true))) ∧
      ∀ ids, ParseRelativeName name cs = Outcome.ok ids →
        ids = (List.range cs.length).map
          (fun i => ((stringsSplitSlash name)[2 * i + 1]?).getD []) := by
  rcases parseRelativeName_cases name cs with ⟨h1, h2⟩ | ⟨h1, h2⟩
  · refine ⟨⟨fun _ => h2, fun _ => ⟨_, h1⟩⟩, fun ids hids => ?_⟩
    rw [h1] at hids
    cases hids
    rfl
  · refine ⟨⟨?_, fun h => absurd h h2⟩, fun ids hids => ?_⟩
    · rintro ⟨ids, hids⟩
      rw [h1] at hids
      cases hids
    · rw [h1] at hids
      cases hids

/-! ## Splitting built names -/

theorem splitOn_append_sep (sep : Nat) (x y : GoString) :
    List.splitOn sep (x ++ sep :: y) = List.splitOn sep x ++ List.splitOn sep y := by
  unfold List.splitOn
  induction x with
  | nil => simp [List.splitOnP_cons, List.splitOnP_nil]
  | cons b x ih =>
    rw [List.cons_append, List.splitOnP_cons, List.splitOnP_cons, ih]
    by_cases hb : (b == sep) = true
    · simp [hb]
    · simp only [hb]
      cases hs : List.splitOnP (fun t => t == sep) x with
      | nil => exact absurd hs (List.splitOnP_ne_nil _ _)
      | cons h t => simp [List.modifyHead]

theorem splitOn_of_not_mem (sep : Nat) (x : GoString) (h : sep ∉ x) :
    List.splitOn sep x = [x] := by
  have := List.splitOn_intercalate [x] sep (by simpa using h) (by simp)
  simpa [List.intercalate] using this

theorem length_splitOn_pos (sep : Nat) (x : GoString) : 1 ≤ (List.splitOn sep x).length := by
  cases hs : List.splitOn sep x with
  | nil => exact absurd hs (List.splitOnP_ne_nil _ _)
  | cons h t => simp

theorem length_splitOn_of_mem (sep : Nat) (x : GoString) (h : sep ∈ x) :
    2 ≤ (List.splitOn sep x).length := by
  obtain ⟨s, t, rfl⟩ := List.append_of_mem h
  rw [splitOn_append_sep, List.length_append]
  have := length_splitOn_pos sep s
  have := length_splitOn_pos sep t
  omega

theorem not_slash_mem_of_accepted (r : GoString) (h : AcceptedID r) : slash ∉ r := by
  rcases h with rfl | h
  · decide
  · rcases validResourceID_cases r with ⟨_, hg⟩ | ⟨hf, _⟩
    · intro hmem
      have := hg.2.2.1 slash hmem
      unfold isIDByte slash hyphen at this
      omega
    · rw [hf] at h
      cases h

theorem split_of_accepted (r : GoString) (h : AcceptedID r) : stringsSplitSlash r = [r] :=
  splitOn_of_not_mem slash r (not_slash_mem_of_accepted r h)

theorem length_split_eq_one (r : GoString) (h : (stringsSplitSlash r).length = 1) :
    stringsSplitSlash r = [r] := by
  by_cases hm : slash ∈ r
  · have := length_splitOn_of_mem slash r hm
    unfold stringsSplitSlash at h
    omega
  · exact splitOn_of_not_mem slash r hm

theorem buildAccount_eq (a : GoString) : BuildAccount a = CollectionAccounts ++ slash :: a := by
  simp [BuildAccount, BuildRelativeName, stringsJoin, List.intercalate, bytesOf, slash]

theorem buildLocation_eq (a l : GoString) :
    BuildLocation a l = BuildAccount a ++ slash :: (CollectionLocations ++ slash :: l) := by
  simp [BuildLocation, BuildAccount, BuildRelativeName, stringsJoin, List.intercalate, bytesOf,
    slash]

theorem buildRoom_eq (a l r : GoString) :
    BuildRoom a l r = BuildLocation a l ++ slash :: (CollectionRooms ++ slash :: r) := by
  simp [BuildRoom, BuildLocation, BuildRelativeName, stringsJoin, List.intercalate, bytesOf,
    slash]

theorem split_buildAccount (a : GoString) :
    stringsSplitSlash (BuildAccount a) = CollectionAccounts :: stringsSplitSlash a := by
  rw [buildAccount_eq]
  unfold stringsSplitSlash
  rw [splitOn_append_sep]
  rfl

theorem split_buildLocation (a l : GoString) :
    stringsSplitSlash (BuildLocation a l) =
      CollectionAccounts :: (stringsSplitSlash a ++ CollectionLocations :: stringsSplitSlash l) := by
  rw [buildLocation_eq]
  unfold stringsSplitSlash
  rw [splitOn_append_sep, splitOn_append_sep]
  have := split_buildAccount a
  unfold stringsSplitSlash at this
  rw [this]
  rfl

theorem split_buildRoom (a l r : GoString) :
    stringsSplitSlash (BuildRoom a l r) =
      CollectionAccounts :: (stringsSplitSlash a ++ CollectionLocations ::
        (stringsSplitSlash l ++ CollectionRooms :: stringsSplitSlash r)) := by
  rw [buildRoom_eq]
  unfold stringsSplitSlash
  rw [splitOn_append_sep, splitOn_append_sep]
  have := split_buildLocation a l
  unfold stringsSplitSlash at this
  rw [this]
  simp
  rfl

/-! ## Parsing built names -/

theorem wellFormed_buildAccount (a : GoString) :
    WellFormedName (BuildAccount a) [CollectionAccounts] ↔ AcceptedID a := by
  unfold WellFormedName
  rw [split_buildAccount]
  constructor
  · rintro ⟨hlen, hseg⟩
    have ha : stringsSplitSlash a = [a] := length_split_eq_one a (by simpa using hlen)
    obtain ⟨_, r, hr, hacc⟩ := hseg 0 (by simp)
    rw [ha] at hr
    simp at hr
    subst hr
    exact hacc
  · intro h
    rw [split_of_accepted a h]
    refine ⟨by simp, fun i hi => ?_⟩
    have : i = 0 := by simpa using hi
    subst this
    exact ⟨by simp, a, by simp, h⟩

theorem wellFormed_buildLocation (a l : GoString) :
    WellFormedName (BuildLocation a l) [CollectionAccounts, CollectionLocations] ↔
      AcceptedID a ∧ AcceptedID l := by
  unfold WellFormedName
  rw [split_buildLocation]
  constructor
  · rintro ⟨hlen, hseg⟩
    have h1 := length_splitOn_pos slash a
    have h2 := length_splitOn_pos slash l
    simp [stringsSplitSlash] at hlen
    have ha : stringsSplitSlash a = [a] :=
      length_split_eq_one a (by unfold stringsSplitSlash; omega)
    have hl : stringsSplitSlash l = [l] :=
      length_split_eq_one l (by unfold stringsSplitSlash; omega)
    obtain ⟨_, r0, hr0, hacc0⟩ := hseg 0 (by simp)
    obtain ⟨_, r1, hr1, hacc1⟩ := hseg 1 (by simp)
    rw [ha, hl] at hr0 hr1
    simp at hr0 hr1
    subst hr0 hr1
    exact ⟨hacc0, hacc1⟩
  · rintro ⟨h1, h2⟩
    rw [split_of_accepted a h1, split_of_accepted l h2]
    refine ⟨by simp, fun i hi => ?_⟩
    have : i = 0 ∨ i = 1 := by simp at hi; omega
    rcases this with rfl | rfl
    · exact ⟨by simp, a, by simp, h1⟩
    · exact ⟨by simp, l, by simp, h2⟩

theorem wellFormed_buildRoom (a l r : GoString) :
    WellFormedName (BuildRoom a l r)
        [CollectionAccounts, CollectionLocations, CollectionRooms] ↔
      AcceptedID a ∧ AcceptedID l ∧ AcceptedID r := by
  unfold WellFormedName
  rw [split_buildRoom]
  constructor
  · rintro ⟨hlen, hseg⟩
    have h1 := length_splitOn_pos slash a
    have h2 := length_splitOn_pos slash l
    have h3 := length_splitOn_pos slash r
    simp [stringsSplitSlash] at hlen
    have ha : stringsSplitSlash a = [a] :=
      length_split_eq_one a (by unfold stringsSplitSlash; omega)
    have hl : stringsSplitSlash l = [l] :=
      length_split_eq_one l (by unfold stringsSplitSlash; omega)
    have hr : stringsSplitSlash r = [r] :=
      length_split_eq_one r (by unfold stringsSplitSlash; omega)
    obtain ⟨_, r0, hr0, hacc0⟩ := hseg 0 (by simp)
    obtain ⟨_, r1, hr1, hacc1⟩ := hseg 1 (by simp)
    obtain ⟨_, r2, hr2, hacc2⟩ := hseg 2 (by simp)
    rw [ha, hl, hr] at hr0 hr1 hr2
    simp at hr0 hr1 hr2
    subst hr0 hr1 hr2
    exact ⟨hacc0, hacc1, hacc2⟩
  · rintro ⟨h1, h2, h3⟩
    rw [split_of_accepted a h1, split_of_accepted l h2, split_of_accepted r h3]
    refine ⟨by simp, fun i hi => ?_⟩
    have : i = 0 ∨ i = 1 ∨ i = 2 := by simp at hi; omega
    rcases this with rfl | rfl | rfl
    · exact ⟨by simp, a, by simp, h1⟩
    · exact ⟨by simp, l, by simp, h2⟩
    · exact ⟨by simp, r, by simp, h3⟩

theorem parseAccount_build (a : GoString) :
    (AcceptedID a ∧ ParseAccount (BuildAccount a) = Outcome.ok a) ∨
      (¬ AcceptedID a ∧ ParseAccount (BuildAccount a)
        = Outcome.error (invalidNameError [CollectionAccounts])) := by
  rcases parseRelativeName_cases (BuildAccount a) [CollectionAccounts] with ⟨h1, h2⟩ | ⟨h1, h2⟩
  · have hacc := (wellFormed_buildAccount a).mp h2
    left
    refine ⟨hacc, ?_⟩
    rw [split_buildAccount, split_of_accepted a hacc] at h1
    simp [ParseAccount, h1, oddSegments]
  · right
    exact ⟨fun h => h2 ((wellFormed_buildAccount a).mpr h), by simp [ParseAccount, h1]⟩

theorem parseLocation_build (a l : GoString) :
    (AcceptedID a ∧ AcceptedID l ∧
        ParseLocation (BuildLocation a l) = Outcome.ok (a, l)) ∨
      (¬ (AcceptedID a ∧ AcceptedID l) ∧ ParseLocation (BuildLocation a l)
        = Outcome.error (invalidNameError [CollectionAccounts, CollectionLocations])) := by
  rcases parseRelativeName_cases (BuildLocation a l) [CollectionAccounts, CollectionLocations]
    with ⟨h1, h2⟩ | ⟨h1, h2⟩
  · have hacc := (wellFormed_buildLocation a l).mp h2
    left
    refine ⟨hacc.1, hacc.2, ?_⟩
    rw [split_buildLocation, split_of_accepted a hacc.1, split_of_accepted l hacc.2] at h1
    simp [ParseLocation, h1, oddSegments, List.range_succ]
  · right
    exact ⟨fun h => h2 ((wellFormed_buildLocation a l).mpr h), by simp [ParseLocation, h1]⟩

theorem parseRoom_build (a l r : GoString) :
    (AcceptedID a ∧ AcceptedID l ∧ AcceptedID r ∧
        ParseRoom (BuildRoom a l r) = Outcome.ok (a, l, r)) ∨
      (¬ (AcceptedID a ∧ AcceptedID l ∧ AcceptedID r) ∧ ParseRoom (BuildRoom a l r)
        = Outcome.error
            (invalidNameError [CollectionAccounts, CollectionLocations, CollectionRooms])) := by
  rcases parseRelativeName_cases (BuildRoom a l r)
    [CollectionAccounts, CollectionLocations, CollectionRooms] with ⟨h1, h2⟩ | ⟨h1, h2⟩
  · have hacc := (wellFormed_buildRoom a l r).mp h2
    left
    refine ⟨hacc.1, hacc.2.1, hacc.2.2, ?_⟩
    rw [split_buildRoom, split_of_accepted a hacc.1, split_of_accepted l hacc.2.1,
      split_of_accepted r hacc.2.2] at h1
    simp [ParseRoom, h1, oddSegments, List.range_succ]
  · right
    exact ⟨fun h => h2 ((wellFormed_buildRoom a l r).mpr h), by simp [ParseRoom, h1]⟩

theorem list_of_length_two {α : Type} (xs : List α) (h : xs.length = 2) :
    ∃ x0 x1, xs = [x0, x1] := by
  match xs, h with
  | [x0, x1], _ => exact ⟨x0, x1, rfl⟩

theorem list_of_length_four {α : Type} (xs : List α) (h : xs.length = 4) :
    ∃ x0 x1 x2 x3, xs = [x0, x1, x2, x3] := by
  match xs, h with
  | [x0, x1, x2, x3], _ => exact ⟨x0, x1, x2, x3, rfl⟩

theorem list_of_length_six {α : Type} (xs : List α) (h : xs.length = 6) :
    ∃ x0 x1 x2 x3 x4 x5, xs = [x0, x1, x2, x3, x4, x5] := by
  match xs, h with
  | [x0, x1, x2, x3, x4, x5], _ => exact ⟨x0, x1, x2, x3, x4, x5, rfl⟩

theorem build_split (name : GoString) : BuildRelativeName (stringsSplitSlash name) = name :=
  List.intercalate_splitOn name slash

theorem parseAccount_rebuild (name a : GoString) (h : ParseAccount name = Outcome.ok a) :
    BuildAccount a = name := by
  rcases parseRelativeName_cases name [CollectionAccounts] with ⟨h1, h2, h3⟩ | ⟨h1, _⟩
  · obtain ⟨p0, p1, hp⟩ := list_of_length_two _ h2
    have s0 := (h3 0 (by simp)).1
    rw [hp] at h1 s0
    simp at s0
    simp [ParseAccount, h1, oddSegments] at h
    subst s0 h
    have := build_split name
    rw [hp] at this
    exact this
  · simp [ParseAccount, h1] at h

theorem parseLocation_rebuild (name a l : GoString)
    (h : ParseLocation name = Outcome.ok (a, l)) : BuildLocation a l = name := by
  rcases parseRelativeName_cases name [CollectionAccounts, CollectionLocations] with
    ⟨h1, h2, h3⟩ | ⟨h1, _⟩
  · obtain ⟨p0, p1, p2, p3, hp⟩ := list_of_length_four _ h2
    have s0 := (h3 0 (by simp)).1
    have s1 := (h3 1 (by simp)).1
    rw [hp] at h1 s0 s1
    simp at s0 s1
    simp [ParseLocation, h1, oddSegments, List.range_succ] at h
    obtain ⟨ha, hl⟩ := h
    subst s0 s1 ha hl
    have := build_split name
    rw [hp] at this
    exact this
  · simp [ParseLocation, h1] at h

theorem parseRoom_rebuild (name a l r : GoString)
    (h : ParseRoom name = Outcome.ok (a, l, r)) : BuildRoom a l r = name := by
  rcases parseRelativeName_cases name
    [CollectionAccounts, CollectionLocations, CollectionRooms] with ⟨h1, h2, h3⟩ | ⟨h1, _⟩
  · obtain ⟨p0, p1, p2, p3, p4, p5, hp⟩ := list_of_length_six _ h2
    have s0 := (h3 0 (by simp)).1
    have s1 := (h3 1 (by simp)).1
    have s2 := (h3 2 (by simp)).1
    rw [hp] at h1 s0 s1 s2
    simp at s0 s1 s2
    simp [ParseRoom, h1, oddSegments, List.range_succ] at h
    obtain ⟨ha, hl, hr⟩ := h
    subst s0 s1 s2 ha hl hr
    have := build_split name
    rw [hp] at this
    exact this
  · simp [ParseRoom, h1] at h

theorem not_accepted_of_invalid (s : GoString) (hbad : ¬ ResourceIDGrammar s)
    (hw : s ≠ bytesOf "-") : ¬ AcceptedID s := by
  rintro (h | h)
  · exact hw h
  · rcases validResourceID_cases s with ⟨_, hg⟩ | ⟨hf, _⟩
    · exact hbad hg
    · rw [hf] at h
      cases h

/-! ## Claims about resource names -/

/-- C3: for resource IDs `a`, `l`, `r` that pass `ValidResourceID`, parsing the
built account, location and room names gives back `a`, `(a, l)` and `(a, l, r)`
without error. -/
theorem parse_build_roundtrip (a l r : GoString)
    (ha : ValidResourceID a = Outcome.ok true) (hl : ValidResourceID l = Outcome.ok true)
    (hr : ValidResourceID r = Outcome.ok true) :
    ParseAccount (BuildAccount a) = Outcome.ok a ∧
      ParseLocation (BuildLocation a l) = Outcome.ok (a, l) ∧
      ParseRoom (BuildRoom a l r) = Outcome.ok (a, l, r) := by
  have Ha : AcceptedID a := Or.inr ha
  have Hl : AcceptedID l := Or.inr hl
  have Hr : AcceptedID r := Or.inr hr
  refine ⟨?_, ?_, ?_⟩
  · rcases parseAccount_build a with ⟨_, h⟩ | ⟨h, _⟩
    · exact h
    · exact absurd Ha h
  · rcases parseLocation_build a l with ⟨_, _, h⟩ | ⟨h, _⟩
    · exact h
    · exact absurd ⟨Ha, Hl⟩ h
  · rcases parseRoom_build a l r with ⟨_, _, _, h⟩ | ⟨h, _⟩
    · exact h
    · exact absurd ⟨Ha, Hl, Hr⟩ h

theorem parse_build_roundtrip_witness :
    ParseAccount (BuildAccount (bytesOf "acme-corp")) = Outcome.ok (bytesOf "acme-corp") ∧
      ParseLocation (BuildLocation (bytesOf "acme-corp") (bytesOf "head-office"))
        = Outcome.ok (bytesOf "acme-corp", bytesOf "head-office") ∧
      ParseRoom (BuildRoom (bytesOf "acme-corp") (bytesOf "head-office") (bytesOf "room-101"))
        = Outcome.ok (bytesOf "acme-corp", bytesOf "head-office", bytesOf "room-101") :=
  parse_build_roundtrip (bytesOf "acme-corp") (bytesOf "head-office") (bytesOf "room-101")
    (by decide) (by decide) (by decide)

/-- C4: whenever `ParseAccount`, `ParseLocation` or `ParseRoom` succeeds on a
name, building a name from the returned IDs with the matching builder gives the
original name back. -/
theorem build_parse_roundtrip (name : GoString) :
    (∀ a, ParseAccount name = Outcome.ok a → BuildAccount a = name) ∧
      (∀ a l, ParseLocation name = Outcome.ok (a, l) → BuildLocation a l = name) ∧
      (∀ a l r, ParseRoom name = Outcome.ok (a, l, r) → BuildRoom a l r = name) :=
  ⟨fun a h => parseAccount_rebuild name a h,
    fun a l h => parseLocation_rebuild name a l h,
    fun a l r h => parseRoom_rebuild name a l r h⟩

theorem build_parse_roundtrip_witness :
    BuildRoom (bytesOf "acme") (bytesOf "-") (bytesOf "room1")
      = bytesOf "accounts/acme/locations/" ++ bytesOf "-" ++ bytesOf "/rooms/room1" :=
  (build_parse_roundtrip (bytesOf "accounts/acme/locations/" ++ bytesOf "-" ++ bytesOf "/rooms/room1")).2.2
    (bytesOf "acme") (bytesOf "-") (bytesOf "room1") (by decide)

/-- C5, as stated, fails: the string `-` is shorter than 4 bytes and starts and
ends with a hyphen, yet `ParseAccount` succeeds on the name made of `accounts`,
a slash and that string. -/
theorem wildcard_breaks_grammar_yet_parses :
    ¬ ResourceIDGrammar (bytesOf "-") ∧
      ParseAccount (bytesOf "accounts/" ++ bytesOf "-") = Outcome.ok (bytesOf "-") := by
  refine ⟨fun h => ?_, by decide⟩
  have := h.1
  simp [bytesOf] at this

/-- C5, amended: for every string `s` other than the wildcard `-` that breaks
the resource-ID grammar, parsing `"accounts/" + s` with `ParseAccount`, and
parsing any location or room name built with `s` in one of its resource-ID
positions (the other IDs arbitrary), fails with an `InvalidArgument` status. -/
theorem invalid_id_rejected (s : GoString) (hbad : ¬ ResourceIDGrammar s)
    (hw : s ≠ bytesOf "-") :
    (∃ msg, ParseAccount (bytesOf "accounts/" ++ s)
        = Outcome.error (GoError.status Code.InvalidArgument msg [])) ∧
      (∀ x, (∃ msg, ParseLocation (BuildLocation s x)
          = Outcome.error (GoError.status Code.InvalidArgument msg [])) ∧
        (∃ msg, ParseLocation (BuildLocation x s)
          = Outcome.error (GoError.status Code.InvalidArgument msg []))) ∧
      (∀ x y, (∃ msg, ParseRoom (BuildRoom s x y)
          = Outcome.error (GoError.status Code.InvalidArgument msg [])) ∧
        (∃ msg, ParseRoom (BuildRoom x s y)
          = Outcome.error (GoError.status Code.InvalidArgument msg [])) ∧
        (∃ msg, ParseRoom (BuildRoom x y s)
          = Outcome.error (GoError.status Code.InvalidArgument msg []))) := by
  have hs := not_accepted_of_invalid s hbad hw
  have hA : ∀ a, ¬ AcceptedID a → ∃ msg, ParseAccount (BuildAccount a)
      = Outcome.error (GoError.status Code.InvalidArgument msg []) := by
    intro a ha
    rcases parseAccount_build a with ⟨h, _⟩ | ⟨_, h⟩
    · exact absurd h ha
    · exact ⟨_, h⟩
  have hL : ∀ a l, ¬ (AcceptedID a ∧ AcceptedID l) → ∃ msg, ParseLocation (BuildLocation a l)
      = Outcome.error (GoError.status Code.InvalidArgument msg []) := by
    intro a l ha
    rcases parseLocation_build a l with ⟨h1, h2, _⟩ | ⟨_, h⟩
    · exact absurd ⟨h1, h2⟩ ha
    · exact ⟨_, h⟩
  have hR : ∀ a l r, ¬ (AcceptedID a ∧ AcceptedID l ∧ AcceptedID r) →
      ∃ msg, ParseRoom (BuildRoom a l r)
        = Outcome.error (GoError.status Code.InvalidArgument msg []) := by
    intro a l r ha
    rcases parseRoom_build a l r with ⟨h1, h2, h3, _⟩ | ⟨_, h⟩
    · exact absurd ⟨h1, h2, h3⟩ ha
    · exact ⟨_, h⟩
  refine ⟨?_, fun x => ⟨?_, ?_⟩, fun x y => ⟨?_, ?_, ?_⟩⟩
  · have e : bytesOf "accounts/" ++ s = BuildAccount s := by
      rw [buildAccount_eq]
      rfl
    rw [e]
    exact hA s hs
  · exact hL s x (fun h => hs h.1)
  · exact hL x s (fun h => hs h.2)
  · exact hR s x y (fun h => hs h.1)
  · exact hR x s y (fun h => hs h.2.1)
  · exact hR x y s (fun h => hs h.2.2)

theorem invalid_id_rejected_witness :
    ∃ msg, ParseAccount (bytesOf "accounts/" ++ bytesOf "Acme")
      = Outcome.error (GoError.status Code.InvalidArgument msg []) :=
  (invalid_id_rejected (bytesOf "Acme")
    (fun h => absurd (h.2.2.1 65 (by decide)) (by decide)) (by decide)).1

/-- C6, as stated, fails: no call of the parser passes `AllowWildcard` (the
parser has no option parameter), and the account, location and room names whose
resource IDs are all the wildcard parse without error. -/
theorem wildcard_parses_without_option :
    ParseAccount (bytesOf "accounts/" ++ bytesOf "-") = Outcome.ok (bytesOf "-") ∧
      ParseLocation (bytesOf "accounts/" ++ bytesOf "-" ++ bytesOf "/locations/" ++ bytesOf "-")
        = Outcome.ok (bytesOf "-", bytesOf "-") ∧
      ParseRoom (bytesOf "accounts/" ++ bytesOf "-" ++ bytesOf "/locations/" ++ bytesOf "-"
          ++ bytesOf "/rooms/" ++ bytesOf "-")
        = Outcome.ok (bytesOf "-", bytesOf "-", bytesOf "-") := by
  decide

/-- C6, amended: name parsing accepts the wildcard `-` in every resource-ID
position of every call: whenever each of `a`, `l`, `r` is the wildcard or passes
`ValidResourceID`, the built account, location and room names parse to
`a`, `(a, l)` and `(a, l, r)`. -/
theorem wildcard_accepted_everywhere (a l r : GoString)
    (ha : a = bytesOf "-" ∨ ValidResourceID a = Outcome.ok true)
    (hl : l = bytesOf "-" ∨ ValidResourceID l = Outcome.ok true)
    (hr : r = bytesOf "-" ∨ ValidResourceID r = Outcome.ok true) :
    ParseAccount (BuildAccount a) = Outcome.ok a ∧
      ParseLocation (BuildLocation a l) = Outcome.ok (a, l) ∧
      ParseRoom (BuildRoom a l r) = Outcome.ok (a, l, r) := by
  refine ⟨?_, ?_, ?_⟩
  · rcases parseAccount_build a with ⟨_, h⟩ | ⟨h, _⟩
    · exact h
    · exact absurd ha h
  · rcases parseLocation_build a l with ⟨_, _, h⟩ | ⟨h, _⟩
    · exact h
    · exact absurd ⟨ha, hl⟩ h
  · rcases parseRoom_build a l r with ⟨_, _, _, h⟩ | ⟨h, _⟩
    · exact h
    · exact absurd ⟨ha, hl, hr⟩ h

theorem wildcard_accepted_everywhere_witness :
    ParseAccount (BuildAccount (bytesOf "-")) = Outcome.ok (bytesOf "-") ∧
      ParseLocation (BuildLocation (bytesOf "-") (bytesOf "main"))
        = Outcome.ok (bytesOf "-", bytesOf "main") ∧
      ParseRoom (BuildRoom (bytesOf "-") (bytesOf "main") (bytesOf "-"))
        = Outcome.ok (bytesOf "-", bytesOf "main", bytesOf "-") :=
  wildcard_accepted_everywhere (bytesOf "-") (bytesOf "main") (bytesOf "-")
    (Or.inl rfl) (Or.inr (by decide)) (Or.inl rfl)

/-! ## Pagination tokens -/

theorem formatNatLoop_ascii :
    ∀ fuel n acc, (∀ b ∈ acc, b < 128) → ∀ b ∈ formatNatLoop fuel n acc, b < 128 := by
  intro fuel
  induction fuel with
  | zero =>
    intro n acc hacc b hb
    exact hacc b (by simpa [formatNatLoop] using hb)
  | succ fuel ih =>
    intro n acc hacc b hb
    unfold formatNatLoop at hb
    by_cases hn : n < 10
    · simp only [hn, if_true, List.mem_cons] at hb
      rcases hb with rfl | hb
      · omega
      · exact hacc b hb
    · simp only [hn, if_false] at hb
      refine ih (n / 10) _ ?_ b hb
      intro c hc
      rcases List.mem_cons.mp hc with rfl | hc
      · omega
      · exact hacc c hc

theorem itoa_ascii (i : Int) : ∀ b ∈ Itoa i, b < 128 := by
  intro b hb
  unfold Itoa at hb
  have hf : ∀ n, ∀ c ∈ formatNat n, c < 128 := fun n =>
    formatNatLoop_ascii (n + 1) n [] (by simp)
  by_cases hi : i < 0
  · simp only [hi, if_true, List.mem_cons] at hb
    rcases hb with rfl | hb
    · decide
    · exact hf _ b hb
  · simp only [hi, if_false] at hb
    exact hf _ b hb

theorem utf8ValidLoop_of_ascii :
    ∀ fuel s, s.length ≤ fuel → (∀ b ∈ s, b < 128) → utf8ValidLoop fuel s = true := by
  intro fuel
  induction fuel with
  | zero =>
    intro s hlen _
    cases s with
    | nil => simp [utf8ValidLoop]
    | cons b rest => simp at hlen
  | succ fuel ih =>
    intro s hlen hs
    cases s with
    | nil => simp [utf8ValidLoop]
    | cons b rest =>
      have hb : b < 128 := hs b (by simp)
      simp only [utf8ValidLoop, hb, if_true]
      exact ih rest (by simpa using hlen) (fun c hc => hs c (by simp [hc]))

theorem utf8Valid_itoa (i : Int) : utf8Valid (Itoa i) = true :=
  utf8ValidLoop_of_ascii _ _ (le_refl _) (itoa_ascii i)

theorem readFull_ok (entropy : GoString) (h : gcmNonceSize ≤ entropy.length) :
    readFull entropy gcmNonceSize = Except.ok (entropy.take gcmNonceSize) ∧
      (entropy.take gcmNonceSize).length = gcmNonceSize := by
  refine ⟨by simp [readFull]; omega, ?_⟩
  rw [List.length_take]
  omega

theorem aesNewCipher_ok (key : GoString)
    (h : key.length = 16 ∨ key.length = 24 ∨ key.length = 32) :
    aesNewCipher key = Except.ok () := by
  simp [aesNewCipher, h]

/-- Every token that `GenerateNextPageToken` returns is the base64 text of a
nonce of `gcmNonceSize` bytes followed by the sealed JSON document of the
advanced page info. -/
theorem generate_ok_shape (L : Library) (secret entropy : GoString) (p : PageInfo) (n : Int)
    (token : GoString) (h : GenerateNextPageToken L secret entropy p n = Outcome.ok token) :
    ∃ v data nonce,
      Atoi (if p.EndCursor = [] then bytesOf "0" else p.EndCursor) = Except.ok v ∧
      L.jsonMarshal
          { RequestKey := p.RequestKey, EndCursor := Itoa (wrapInt64 (v + n)),
            Filter := p.Filter, Order := p.Order } = Except.ok data ∧
      aesNewCipher secret = Except.ok () ∧
      nonce.length = gcmNonceSize ∧
      token = L.base64Encode (nonce ++ L.gcmSeal secret nonce data) := by
  unfold GenerateNextPageToken at h
  cases hA : Atoi (if p.EndCursor = [] then bytesOf "0" else p.EndCursor) with
  | error e => simp [hA] at h
  | ok v =>
    simp only [hA] at h
    cases hJ : L.jsonMarshal
        { RequestKey := p.RequestKey, EndCursor := Itoa (wrapInt64 (v + n)),
          Filter := p.Filter, Order := p.Order } with
    | error d => simp [hJ] at h
    | ok data =>
      simp only [hJ] at h
      cases hC : aesNewCipher secret with
      | error e => simp [hC] at h
      | ok u =>
        simp only [hC] at h
        cases hR : readFull entropy gcmNonceSize with
        | error e => simp [hR] at h
        | ok nonce =>
          simp only [hR, Outcome.ok.injEq] at h
          refine ⟨v, data, nonce, rfl, hJ, rfl, ?_, h.symm⟩
          unfold readFull at hR
          by_cases hlen : entropy.length < gcmNonceSize
          · simp [hlen] at hR
          · simp only [hlen, if_false, Except.ok.injEq] at hR
            rw [← hR, List.length_take]
            omega

theorem generate_token_ne_nil (L : Library) (hb64 : Base64NonEmpty L)
    (secret entropy : GoString) (p : PageInfo) (n : Int) (token : GoString)
    (h : GenerateNextPageToken L secret entropy p n = Outcome.ok token) : token ≠ [] := by
  obtain ⟨v, data, nonce, _, _, _, hlen, rfl⟩ := generate_ok_shape L secret entropy p n token h
  apply hb64
  intro hnil
  have : nonce = [] := (List.append_eq_nil.mp hnil).1
  rw [this] at hlen
  simp [gcmNonceSize] at hlen

theorem parse_of_sealed (L : Library) (haead : AeadRoundTrip L) (hb64 : Base64RoundTrip L)
    (hne : Base64NonEmpty L) (secret nonce data : GoString)
    (hkey : secret.length = 16 ∨ secret.length = 24 ∨ secret.length = 32)
    (hnonce : nonce.length = gcmNonceSize) :
    ParsePageToken L secret (L.base64Encode (nonce ++ L.gcmSeal secret nonce data))
      = match L.jsonUnmarshal data with
        | Except.error d => Outcome.error (GoError.other d)
        | Except.ok pageInfo => Outcome.ok pageInfo := by
  have hnn : nonce ++ L.gcmSeal secret nonce data ≠ [] := by
    intro hnil
    have : nonce = [] := (List.append_eq_nil.mp hnil).1
    rw [this] at hnonce
    simp [gcmNonceSize] at hnonce
  have htok := hne _ hnn
  have hlen : ¬ (nonce ++ L.gcmSeal secret nonce data).length < gcmNonceSize := by
    rw [List.length_append]
    omega
  unfold ParsePageToken
  simp only [htok, if_false, aesNewCipher_ok secret hkey, hb64 _, hlen,
    List.take_left' hnonce, List.drop_left' hnonce, haead secret nonce data hkey hnonce]

/-- The 64-bit addition does not wrap when the mathematical sum is in range. -/
theorem wrapInt64_of_inRange (x : Int) (h1 : -(2 : Int) ^ 63 ≤ x) (h2 : x < (2 : Int) ^ 63) :
    wrapInt64 x = x := by
  unfold wrapInt64
  rw [Int.emod_eq_of_lt (by omega) (by omega)]
  omega

/-- C7, as stated, fails: with an end cursor that is not a decimal integer, or
with a secret that is not an AES key, `GenerateNextPageToken` returns an error
and there is no token to parse. -/
theorem generate_fails_on_bad_cursor_or_secret :
    GenerateNextPageToken demoLibrary demoSecret demoEntropy
        { RequestKey := [], EndCursor := bytesOf "abc", Filter := [], Order := [] } 10
      = Outcome.error (GoError.other (bytesOf "strconv.Atoi: invalid syntax")) ∧
    GenerateNextPageToken demoLibrary (bytesOf "short") demoEntropy
        { RequestKey := [], EndCursor := bytesOf "0", Filter := [], Order := [] } 10
      = Outcome.error (GoError.other (bytesOf "crypto/aes: invalid key size")) := by
  decide

/-- C7, amended: for a secret of 16, 24 or 32 bytes, a random source that
delivers the nonce, and a page info whose end cursor is empty or a decimal
integer `v` (empty read as 0) and whose request key, filter and order are valid
UTF-8, `GenerateNextPageToken(p, n)` returns a token on which `ParsePageToken`
succeeds with the request key, filter and order of `p` and with the end cursor
`Itoa(v + n)`, the sum taken in 64-bit arithmetic (the library round trips
being assumed). -/
theorem page_token_roundtrip (L : Library) (hjson : JsonRoundTrip L) (haead : AeadRoundTrip L)
    (hb64 : Base64RoundTrip L) (hne : Base64NonEmpty L)
    (secret entropy : GoString) (p : PageInfo) (n v : Int)
    (hkey : secret.length = 16 ∨ secret.length = 24 ∨ secret.length = 32)
    (hent : gcmNonceSize ≤ entropy.length)
    (hcur : Atoi (if p.EndCursor = [] then bytesOf "0" else p.EndCursor) = Except.ok v)
    (hrk : utf8Valid p.RequestKey = true) (hfi : utf8Valid p.Filter = true)
    (hor : utf8Valid p.Order = true) :
    ∃ token, GenerateNextPageToken L secret entropy p n = Outcome.ok token ∧
      ParsePageToken L secret token
        = Outcome.ok
            { RequestKey := p.RequestKey, EndCursor := Itoa (wrapInt64 (v + n)),
              Filter := p.Filter, Order := p.Order } := by
  obtain ⟨data, hm, hu⟩ := hjson
    { RequestKey := p.RequestKey, EndCursor := Itoa (wrapInt64 (v + n)),
      Filter := p.Filter, Order := p.Order } hrk (utf8Valid_itoa _) hfi hor
  obtain ⟨hr, hlen⟩ := readFull_ok entropy hent
  refine ⟨L.base64Encode (entropy.take gcmNonceSize
    ++ L.gcmSeal secret (entropy.take gcmNonceSize) data), ?_, ?_⟩
  · unfold GenerateNextPageToken
    simp only [hcur, hm, aesNewCipher_ok secret hkey, hr]
  · rw [parse_of_sealed L haead hb64 hne secret _ data hkey hlen, hu]

theorem demoLibrary_jsonRoundTrip : JsonRoundTrip demoLibrary := by
  intro p _ _ _ _
  refine ⟨_, rfl, ?_⟩
  obtain ⟨rk, ec, fi, od⟩ := p
  have hle : rk.length + ec.length + fi.length
      ≤ rk.length + (ec.length + (fi.length + od.length)) := by omega
  have hdrop : List.drop (rk.length + ec.length + fi.length) (rk ++ (ec ++ (fi ++ od))) = od := by
    rw [← List.append_assoc, ← List.append_assoc]
    exact List.drop_left' (by simp [Nat.add_assoc])
  simp [demoLibrary, hle, hdrop]

theorem demoLibrary_aeadRoundTrip : AeadRoundTrip demoLibrary := by
  intro key nonce text _ _
  simp [demoLibrary, demoTag]

theorem demoLibrary_base64RoundTrip : Base64RoundTrip demoLibrary := by
  intro data
  simp [demoLibrary, Function.comp_def]

theorem demoLibrary_base64NonEmpty : Base64NonEmpty demoLibrary := by
  intro data h
  simpa [demoLibrary] using h

theorem page_token_roundtrip_witness :
    ∃ token,
      GenerateNextPageToken demoLibrary demoSecret demoEntropy
          { RequestKey := bytesOf "accounts/acme", EndCursor := bytesOf "50",
            Filter := [], Order := bytesOf "name" } 25 = Outcome.ok token ∧
        ParsePageToken demoLibrary demoSecret token
          = Outcome.ok
              { RequestKey := bytesOf "accounts/acme", EndCursor := Itoa (wrapInt64 (50 + 25)),
                Filter := [], Order := bytesOf "name" } :=
  page_token_roundtrip demoLibrary demoLibrary_jsonRoundTrip demoLibrary_aeadRoundTrip
    demoLibrary_base64RoundTrip demoLibrary_base64NonEmpty demoSecret demoEntropy
    { RequestKey := bytesOf "accounts/acme", EndCursor := bytesOf "50",
      Filter := [], Order := bytesOf "name" } 25 50
    (by decide) (by decide) rfl (by decide) (by decide) (by decide)

/-- C9, as stated, fails: a token that is valid base64 and passes
authentication but whose payload is not a JSON document (here the empty
payload) makes `ParsePageToken` return the JSON decoder's own error, and a
secret that is not an AES key makes it return the cipher's error; neither is
the `InvalidArgument` status. -/
theorem parse_failure_not_uniform :
    ParsePageToken demoLibrary demoSecret
        (demoLibrary.base64Encode
          (demoEntropy ++ demoLibrary.gcmSeal demoSecret demoEntropy []))
      = Outcome.error (GoError.other (bytesOf "unexpected end of JSON input")) ∧
    ParsePageToken demoLibrary (bytesOf "short") (bytesOf "x")
      = Outcome.error (GoError.other (bytesOf "crypto/aes: invalid key size")) := by
  decide

/-- C9, amended: with a secret of 16, 24 or 32 bytes, every non-empty token
that is not valid base64, or decodes to fewer bytes than the nonce, or fails
authentication, makes `ParsePageToken` return the one `InvalidArgument` status
with message "invalid page_token provided"; the only other error the function
returns is the JSON decoder's error for an authenticated payload, passed on
unchanged. -/
theorem parse_failure_uniform (L : Library) (secret token : GoString) (hne : token ≠ [])
    (hkey : secret.length = 16 ∨ secret.length = 24 ∨ secret.length = 32) :
    ((L.base64Decode token = none ∨
        ∃ decoded, L.base64Decode token = some decoded ∧
          (decoded.length < gcmNonceSize ∨
            L.gcmOpen secret (decoded.take gcmNonceSize) (decoded.drop gcmNonceSize) = none)) →
      ParsePageToken L secret token
        = Outcome.error
            (GoError.status Code.InvalidArgument (bytesOf "invalid page_token provided") [])) ∧
    (∀ e, ParsePageToken L secret token = Outcome.error e →
      e = GoError.status Code.InvalidArgument (bytesOf "invalid page_token provided") [] ∨
        ∃ decoded payload d, L.base64Decode token = some decoded ∧
          L.gcmOpen secret (decoded.take gcmNonceSize) (decoded.drop gcmNonceSize)
            = some payload ∧
          L.jsonUnmarshal payload = Except.error d ∧ e = GoError.other d) := by
  have hc := aesNewCipher_ok secret hkey
  constructor
  · rintro (h | ⟨decoded, h1, h2 | h2⟩)
    · simp [ParsePageToken, hne, hc, h, invalidPageTokenError]
    · simp [ParsePageToken, hne, hc, h1, h2, invalidPageTokenError]
    · by_cases hlen : decoded.length < gcmNonceSize
      · simp [ParsePageToken, hne, hc, h1, hlen, invalidPageTokenError]
      · simp [ParsePageToken, hne, hc, h1, hlen, h2, invalidPageTokenError]
  · intro e he
    unfold ParsePageToken at he
    simp only [hne, if_false, hc] at he
    cases hd : L.base64Decode token with
    | none =>
      simp only [hd, Outcome.error.injEq] at he
      exact Or.inl (by rw [← he]; rfl)
    | some decoded =>
      simp only [hd] at he
      by_cases hlen : decoded.length < gcmNonceSize
      · simp only [hlen, if_true, Outcome.error.injEq] at he
        exact Or.inl (by rw [← he]; rfl)
      · simp only [hlen, if_false] at he
        cases ho : L.gcmOpen secret (decoded.take gcmNonceSize) (decoded.drop gcmNonceSize) with
        | none =>
          simp only [ho, Outcome.error.injEq] at he
          exact Or.inl (by rw [← he]; rfl)
        | some payload =>
          simp only [ho] at he
          cases hj : L.jsonUnmarshal payload with
          | error d =>
            simp only [hj, Outcome.error.injEq] at he
            exact Or.inr ⟨decoded, payload, d, rfl, ho, hj, he.symm⟩
          | ok pageInfo => simp [hj] at he

theorem parse_failure_uniform_witness :
    ParsePageToken demoLibrary demoSecret (bytesOf "abc" ++ [0])
      = Outcome.error
          (GoError.status Code.InvalidArgument (bytesOf "invalid page_token provided") []) :=
  (parse_failure_uniform demoLibrary demoSecret (bytesOf "abc" ++ [0]) (by decide)
    (by decide)).1 (Or.inl (by decide))

/-! ## List handlers -/

theorem listResponse_token_iff {Row : Type} (L : Library) (hne : Base64NonEmpty L)
    (secret entropy : GoString) (pageInfo : PageInfo) (pageSize : Int) (rows : List Row)
    (resp : ListResponse Row)
    (h : listResponse L secret entropy pageInfo pageSize rows = Outcome.ok resp) :
    resp.NextPageToken ≠ [] ↔ (resp.Items.length : Int) = pageSize := by
  unfold listResponse at h
  by_cases hlen : (rows.length : Int) = pageSize
  · simp only [hlen, if_true] at h
    cases hg : GenerateNextPageToken L secret entropy pageInfo pageSize with
    | ok token =>
      simp only [hg, Outcome.ok.injEq] at h
      subst h
      exact ⟨fun _ => hlen, fun _ => generate_token_ne_nil L hne secret entropy pageInfo
        pageSize token hg⟩
    | error e => simp [hg] at h
    | panic => simp [hg] at h
    | timeout => simp [hg] at h
  · simp only [hlen, if_false, Outcome.ok.injEq] at h
    subst h
    exact ⟨fun h => absurd rfl h, fun h => absurd h hlen⟩

/-- C10: in `ListAccounts`, `ListLocations` and `ListRooms`, a successful
response carries a non-empty next page token exactly when the number of rows
returned equals the page size of the request (base64 text of a non-empty input
being non-empty). -/
theorem next_page_token_iff_full_page {Row : Type} (L : Library) (hne : Base64NonEmpty L)
    (secret entropy : GoString) (db : Database Row) (req : PageableRequest)
    (resp : ListResponse Row) :
    (ListAccounts L secret entropy db req = Outcome.ok resp →
      (resp.NextPageToken ≠ [] ↔ (resp.Items.length : Int) = req.PageSize)) ∧
    (ListLocations L secret entropy db req = Outcome.ok resp →
      (resp.NextPageToken ≠ [] ↔ (resp.Items.length : Int) = req.PageSize)) ∧
    (ListRooms L secret entropy db req = Outcome.ok resp →
      (resp.NextPageToken ≠ [] ↔ (resp.Items.length : Int) = req.PageSize)) := by
  refine ⟨fun h => ?_, fun h => ?_, fun h => ?_⟩
  · unfold ListAccounts at h
    cases hv : validatePageableRequest L secret req with
    | ok pageInfo =>
      simp only [hv] at h
      cases hs : storeListAccounts db [WithPageSize req.PageSize, WithPageInfo pageInfo] with
      | ok rows =>
        simp only [hs] at h
        exact listResponse_token_iff L hne secret entropy pageInfo req.PageSize rows resp h
      | error e => simp [hs] at h
      | panic => simp [hs] at h
      | timeout => simp [hs] at h
    | error e => simp [hv] at h
    | panic => simp [hv] at h
    | timeout => simp [hv] at h
  · unfold ListLocations at h
    cases hv : validatePageableRequest L secret req with
    | ok pageInfo =>
      simp only [hv] at h
      cases hs : storeListLocations db (req.Parent.getD [])
          [WithPageInfo pageInfo, WithPageSize req.PageSize] with
      | ok rows =>
        simp only [hs] at h
        exact listResponse_token_iff L hne secret entropy pageInfo req.PageSize rows resp h
      | error e => simp [hs] at h
      | panic => simp [hs] at h
      | timeout => simp [hs] at h
    | error e => simp [hv] at h
    | panic => simp [hv] at h
    | timeout => simp [hv] at h
  · unfold ListRooms at h
    cases hv : validatePageableRequest L secret req with
    | ok pageInfo =>
      simp only [hv] at h
      cases hs : storeListRooms db (req.Parent.getD [])
          [WithPageInfo pageInfo, WithPageSize req.PageSize] with
      | ok rows =>
        simp only [hs] at h
        exact listResponse_token_iff L hne secret entropy pageInfo req.PageSize rows resp h
      | error e => simp [hs] at h
      | panic => simp [hs] at h
      | timeout => simp [hs] at h
    | error e => simp [hv] at h
    | panic => simp [hv] at h
    | timeout => simp [hv] at h

theorem next_page_token_iff_full_page_witness :
    ListAccounts demoLibrary demoSecret demoEntropy demoDatabase demoListRequest
        = Outcome.ok demoAccountsPage ∧
      (demoAccountsPage.NextPageToken ≠ [] ↔
        (demoAccountsPage.Items.length : Int) = demoListRequest.PageSize) :=
  ⟨rfl, (next_page_token_iff_full_page demoLibrary demoLibrary_base64NonEmpty demoSecret
    demoEntropy demoDatabase demoListRequest demoAccountsPage).1 rfl⟩

/-! ## The error made from a violation list -/

theorem utf8Valid_of_ascii (s : GoString) (h : ∀ b ∈ s, b < 128) : utf8Valid s = true :=
  utf8ValidLoop_of_ascii _ _ (le_refl _) h

theorem convertErrorList_eq_none_iff (errs : List FieldError) :
    convertErrorList errs = none ↔ errs = [] := by
  cases errs with
  | nil => simp [convertErrorList]
  | cons e rest =>
    simp only [convertErrorList, List.length_cons, Nat.succ_ne_zero, if_false]
    split <;> simp

/-- On a list whose field paths and details are valid UTF-8 the detail is
attached and the error is the status. -/
theorem convertErrorList_of_ne_nil (errs : List FieldError) (h : errs ≠ [])
    (hv : ValidViolations errs) :
    convertErrorList errs
      = some (GoError.status Code.InvalidArgument (bytesOf "invalid argument")
          (errs.map (fun e => ({ field := e.Field, description := e.Detail } : FieldViolation)))) := by
  have hl : errs.length ≠ 0 := fun h0 => h (List.length_eq_zero.mp h0)
  have hall : (errs.map (fun e => ({ field := e.Field, description := e.Detail } : FieldViolation))).all
      (fun v => utf8Valid v.field && utf8Valid v.description) = true := by
    rw [List.all_eq_true]
    intro v hvm
    obtain ⟨e, he, rfl⟩ := List.mem_map.mp hvm
    simp [(hv e he).1, (hv e he).2]
  simp only [convertErrorList, hl, if_false, withDetails, hall, if_true]

/-- On a list with a field path or a detail that is not valid UTF-8 the error
is the plain one of the marshaller. -/
theorem convertErrorList_of_invalid (errs : List FieldError) (e : FieldError) (he : e ∈ errs)
    (hbad : utf8Valid e.Field = false ∨ utf8Valid e.Detail = false) :
    convertErrorList errs = some (GoError.other (bytesOf "proto: field contains invalid UTF-8")) := by
  have hl : errs.length ≠ 0 := by
    intro h0
    rw [List.length_eq_zero.mp h0] at he
    exact absurd he (List.not_mem_nil e)
  have hall : (errs.map (fun e => ({ field := e.Field, description := e.Detail } : FieldViolation))).all
      (fun v => utf8Valid v.field && utf8Valid v.description) = false := by
    rw [List.all_eq_false]
    refine ⟨_, List.mem_map.mpr ⟨e, he, rfl⟩, ?_⟩
    rcases hbad with hb | hb <;> simp [hb]
  simp only [convertErrorList, hl, if_false, withDetails, hall]
  rfl

theorem validViolations_nil : ValidViolations [] := by
  intro e he
  simp at he

theorem validViolations_append (a b : List FieldError) (ha : ValidViolations a)
    (hb : ValidViolations b) : ValidViolations (a ++ b) := by
  intro e he
  rcases List.mem_append.mp he with h | h
  · exact ha e h
  · exact hb e h

theorem validViolations_singleton (x : FieldError) (hf : utf8Valid x.Field = true)
    (hd : utf8Valid x.Detail = true) : ValidViolations [x] := by
  intro e he
  rw [List.mem_singleton.mp he]
  exact ⟨hf, hd⟩

theorem accountViolations_valid (displayName : GoString) :
    ValidViolations (validateLabels (bytesOf "account") ++ validateAnnotations (bytesOf "account")
      ++ validateDisplayName (bytesOf "account") displayName) := by
  intro e he
  simp [validateLabels, validateAnnotations, validateDisplayName] at he
  obtain ⟨_, rfl⟩ := he
  decide

theorem roomViolations_valid (displayName description : GoString) :
    ValidViolations (validateLabels (bytesOf "room") ++ validateAnnotations (bytesOf "room")
      ++ validateDisplayName (bytesOf "room") displayName
      ++ validateDescription (bytesOf "room") description) := by
  intro e he
  simp [validateLabels, validateAnnotations, validateDisplayName, validateDescription] at he
  rcases he with ⟨_, rfl⟩ | ⟨_, rfl⟩ <;> decide

/-- The status error of a name parser and its text are valid UTF-8. -/
theorem invalidNameError_text_valid :
    utf8Valid (errorText (invalidNameError [CollectionAccounts])) = true ∧
      utf8Valid (errorText (invalidNameError [CollectionAccounts, CollectionLocations])) = true ∧
      utf8Valid (errorText
        (invalidNameError [CollectionAccounts, CollectionLocations, CollectionRooms])) = true := by
  decide

/-- The only status error of `ParsePageToken` is the fixed one. -/
theorem parsePageToken_status (L : Library) (secret token : GoString) (code : Code)
    (message : GoString) (details : List FieldViolation)
    (h : ParsePageToken L secret token = Outcome.error (GoError.status code message details)) :
    GoError.status code message details = invalidPageTokenError := by
  unfold ParsePageToken at h
  split at h
  · simp at h
  · unfold aesNewCipher at h
    split at h
    · rename_i e he
      split at he <;> simp at he
      rw [← he] at h
      simp at h
    · split at h
      · simp at h; exact h.symm
      · split at h
        · simp at h; exact h.symm
        · split at h
          · simp at h; exact h.symm
          · split at h <;> simp at h

/-! ## Request validation -/

theorem validatePageableRequest_of_token (L : Library) (secret : GoString)
    (req : PageableRequest) (p : PageInfo) (htok : req.PageToken ≠ [])
    (hp : ParsePageToken L secret req.PageToken = Outcome.ok p) :
    validatePageableRequest L secret req
      = match convertErrorList (pageViolations req p) with
        | some e => Outcome.error e
        | none => Outcome.ok p := by
  have key : validatePageableRequest L secret req
      = if (pageViolations req p).length > 0 then
          (match convertErrorList (pageViolations req p) with
            | some e => Outcome.error e
            | none => Outcome.ok { RequestKey := [], EndCursor := [], Filter := [], Order := [] })
        else Outcome.ok p := by
    unfold validatePageableRequest pageViolations
    simp only [htok, if_false, hp]
    by_cases h0 : req.PageSize > maxGlobalPageSize ∨ req.PageSize < 0 <;>
      by_cases h1 : p.RequestKey ≠ req.Parent.getD [] <;>
      by_cases h2 : p.Filter ≠ req.Filter.getD [] <;>
      by_cases h3 : p.Order ≠ req.Order.getD [] <;>
      simp [h0, h1, h2, h3]
  rw [key]
  by_cases hlen : (pageViolations req p).length > 0
  · rw [if_pos hlen]
    cases hc : convertErrorList (pageViolations req p) with
    | some e => rfl
    | none =>
      rw [(convertErrorList_eq_none_iff _).mp hc] at hlen
      simp at hlen
  · rw [if_neg hlen]
    have hnil : pageViolations req p = [] := List.length_eq_zero.mp (by omega)
    rw [hnil]
    simp [convertErrorList]

theorem pageViolations_valid (req : PageableRequest) (p : PageInfo) :
    ValidViolations (pageViolations req p) := by
  intro e he
  unfold pageViolations at he
  simp only [List.mem_append] at he
  rcases he with ((he | he) | he) | he <;> split at he <;> simp at he <;>
    (subst he; decide)

theorem hasViolation_convert (p : PageInfo) (errs : List FieldError) (f : GoString)
    (hv : ValidViolations errs) :
    HasViolation
        (match convertErrorList errs with
          | some e => Outcome.error e
          | none => Outcome.ok p) f
      ↔ ∃ e ∈ errs, e.Field = f := by
  unfold HasViolation
  by_cases h : errs = []
  · subst h
    simp [convertErrorList]
  · rw [convertErrorList_of_ne_nil errs h hv]
    simp only [Outcome.error.injEq, GoError.status.injEq, true_and]
    constructor
    · rintro ⟨msg, details, ⟨_, rfl⟩, v, hv, hf⟩
      obtain ⟨e, he, rfl⟩ := List.mem_map.mp hv
      exact ⟨e, he, hf⟩
    · rintro ⟨e, he, hf⟩
      exact ⟨_, _, ⟨rfl, rfl⟩, _, List.mem_map.mpr ⟨e, he, rfl⟩, hf⟩

/-- C11, as stated, fails: the token of `demoOversizedRequest` decodes to a page
info whose request key, filter and order equal those of the request, yet the
request is rejected (its page size is 501) instead of getting the page info
back. -/
theorem unchanged_request_rejected_for_page_size :
    (∃ p, ParsePageToken demoLibrary demoSecret demoOversizedRequest.PageToken = Outcome.ok p ∧
        p.RequestKey = demoOversizedRequest.Parent.getD [] ∧
        p.Filter = demoOversizedRequest.Filter.getD [] ∧
        p.Order = demoOversizedRequest.Order.getD []) ∧
      validatePageableRequest demoLibrary demoSecret demoOversizedRequest
        = Outcome.error
            (GoError.status Code.InvalidArgument (bytesOf "invalid argument")
              [{ field := bytesOf "page_size",
                 description := bytesOf "page_size must be between 0 and 500 inclusive" }]) := by
  refine ⟨⟨_, rfl, ?_, ?_, ?_⟩, ?_⟩ <;> decide

/-- C11, amended: for every pageable request whose non-empty page token decodes
to a page info `p`, `validatePageableRequest` returns an `InvalidArgument`
error with a violation for `parent` exactly when `p.RequestKey` differs from the
parent of the request, for `filter` exactly when `p.Filter` differs from its
filter, and for `order` exactly when `p.Order` differs from its order; when none
differs and the page size is within 0 and 500 it returns `p` with no error. -/
theorem page_token_consistency (L : Library) (secret : GoString) (req : PageableRequest)
    (p : PageInfo) (htok : req.PageToken ≠ [])
    (hp : ParsePageToken L secret req.PageToken = Outcome.ok p) :
    (HasViolation (validatePageableRequest L secret req) (bytesOf "parent")
        ↔ p.RequestKey ≠ req.Parent.getD []) ∧
      (HasViolation (validatePageableRequest L secret req) (bytesOf "filter")
        ↔ p.Filter ≠ req.Filter.getD []) ∧
      (HasViolation (validatePageableRequest L secret req) (bytesOf "order")
        ↔ p.Order ≠ req.Order.getD []) ∧
      (0 ≤ req.PageSize → req.PageSize ≤ 500 → p.RequestKey = req.Parent.getD [] →
        p.Filter = req.Filter.getD [] → p.Order = req.Order.getD [] →
        validatePageableRequest L secret req = Outcome.ok p) := by
  rw [validatePageableRequest_of_token L secret req p htok hp]
  have e1 : bytesOf "page_size" ≠ bytesOf "parent" := by decide
  have e2 : bytesOf "page_size" ≠ bytesOf "filter" := by decide
  have e3 : bytesOf "page_size" ≠ bytesOf "order" := by decide
  have e4 : bytesOf "parent" ≠ bytesOf "filter" := by decide
  have e5 : bytesOf "parent" ≠ bytesOf "order" := by decide
  have e6 : bytesOf "filter" ≠ bytesOf "order" := by decide
  refine ⟨?_, ?_, ?_, ?_⟩
  · rw [hasViolation_convert _ _ _ (pageViolations_valid req p)]
    unfold pageViolations
    by_cases h0 : req.PageSize > maxGlobalPageSize ∨ req.PageSize < 0 <;>
      by_cases h1 : p.RequestKey = req.Parent.getD [] <;>
      by_cases h2 : p.Filter = req.Filter.getD [] <;>
      by_cases h3 : p.Order = req.Order.getD [] <;>
      simp [h0, h1, h2, h3, e1, e4.symm, e5.symm]
  · rw [hasViolation_convert _ _ _ (pageViolations_valid req p)]
    unfold pageViolations
    by_cases h0 : req.PageSize > maxGlobalPageSize ∨ req.PageSize < 0 <;>
      by_cases h1 : p.RequestKey = req.Parent.getD [] <;>
      by_cases h2 : p.Filter = req.Filter.getD [] <;>
      by_cases h3 : p.Order = req.Order.getD [] <;>
      simp [h0, h1, h2, h3, e2, e4, e6.symm]
  · rw [hasViolation_convert _ _ _ (pageViolations_valid req p)]
    unfold pageViolations
    by_cases h0 : req.PageSize > maxGlobalPageSize ∨ req.PageSize < 0 <;>
      by_cases h1 : p.RequestKey = req.Parent.getD [] <;>
      by_cases h2 : p.Filter = req.Filter.getD [] <;>
      by_cases h3 : p.Order = req.Order.getD [] <;>
      simp [h0, h1, h2, h3, e3, e5, e6]
  · intro hlo hhi h1 h2 h3
    have h0 : ¬ (req.PageSize > maxGlobalPageSize ∨ req.PageSize < 0) := by
      unfold maxGlobalPageSize
      omega
    simp [pageViolations, h0, h1, h2, h3, convertErrorList]

theorem page_token_consistency_witness :
    HasViolation
        (validatePageableRequest demoLibrary demoSecret
          { demoOversizedRequest with Parent := some (bytesOf "accounts/other") })
        (bytesOf "parent")
      ↔ bytesOf "accounts/acme" ≠ bytesOf "accounts/other" :=
  (page_token_consistency demoLibrary demoSecret
    { demoOversizedRequest with Parent := some (bytesOf "accounts/other") }
    { RequestKey := bytesOf "accounts/acme", EndCursor := bytesOf "2", Filter := [], Order := [] }
    (by decide) (by decide)).1

/-- C12, at the failing input: without a page token `validatePageableRequest`
returns the first-page info and no error whatever the page size, so a request
for 501 accounts reaches the database with `LIMIT 501`. -/
theorem page_size_unchecked_without_token (L : Library) (secret : GoString) (size : Int)
    (parent filter order : Option GoString) :
    validatePageableRequest L secret
        { PageSize := size, PageToken := [], Parent := parent, Filter := filter, Order := order }
      = Outcome.ok
          { RequestKey := parent.getD [], EndCursor := bytesOf "0", Filter := filter.getD [],
            Order := order.getD [] } ∧
    ListAccounts demoLibrary demoSecret demoEntropy echoDatabase
        { PageSize := 501, PageToken := [], Parent := none, Filter := none, Order := none }
      = Outcome.error
          (GoError.other
            (selectAccountBaseQuery ++ bytesOf " ORDER BY name LIMIT 501 OFFSET 0")) := by
  exact ⟨by simp [validatePageableRequest], rfl⟩

/-- C13, as stated, fails: the list `demoUndecodableViolations` is not empty,
yet `convertErrorList` returns the plain error of attaching the detail (its one
detail is not valid UTF-8), not an `InvalidArgument` status that carries the
violation. -/
theorem convertErrorList_plain_error_on_bad_utf8 :
    demoUndecodableViolations.length = 1 ∧
      utf8Valid [0xFF] = false ∧
      convertErrorList demoUndecodableViolations
        = some (GoError.other (bytesOf "proto: field contains invalid UTF-8")) ∧
      ¬ ∃ details, convertErrorList demoUndecodableViolations
          = some (GoError.status Code.InvalidArgument (bytesOf "invalid argument") details) := by
  refine ⟨by decide, by decide, by decide, ?_⟩
  rintro ⟨details, h⟩
  have h2 : convertErrorList demoUndecodableViolations
      = some (GoError.other (bytesOf "proto: field contains invalid UTF-8")) := by decide
  rw [h2] at h
  injection h with h
  injection h

/-- C13, amended: `convertErrorList` returns nil exactly for the empty list; for
a list of `n > 0` violations whose field paths and details are all valid UTF-8
it returns one `InvalidArgument` status whose detail has `n` field violations,
the `i`-th carrying the field and the detail of the `i`-th input violation; for
a list with a field path or a detail that is not valid UTF-8 it returns a plain
error, which is not a status. -/
theorem convertErrorList_bundles_all (errs : List FieldError) :
    (convertErrorList errs = none ↔ errs = []) ∧
      (errs ≠ [] →
        (∀ e ∈ errs, utf8Valid e.Field = true ∧ utf8Valid e.Detail = true) →
        ∃ details, convertErrorList errs
            = some (GoError.status Code.InvalidArgument (bytesOf "invalid argument") details) ∧
          details.length = errs.length ∧
          ∀ (i : Nat) (e : FieldError), errs[i]? = some e →
            details[i]? = some ({ field := e.Field, description := e.Detail } : FieldViolation)) ∧
      ((∃ e ∈ errs, utf8Valid e.Field = false ∨ utf8Valid e.Detail = false) →
        ∃ description, convertErrorList errs = some (GoError.other description)) := by
  refine ⟨convertErrorList_eq_none_iff errs, ?_, ?_⟩
  · intro hne hvalid
    refine ⟨errs.map (fun e => { field := e.Field, description := e.Detail }),
      convertErrorList_of_ne_nil errs hne hvalid, by simp, ?_⟩
    intro i e hi
    simp [List.getElem?_map, hi]
  · rintro ⟨e, he, hbad⟩
    exact ⟨_, convertErrorList_of_invalid errs e he hbad⟩

theorem convertErrorList_bundles_all_witness :
    (∃ details,
      convertErrorList
          [{ Field := bytesOf "name", Detail := bytesOf "bad name" },
           { Field := bytesOf "message", Detail := bytesOf "too long" }]
        = some (GoError.status Code.InvalidArgument (bytesOf "invalid argument") details) ∧
      details.length = 2 ∧
      ∀ (i : Nat) (e : FieldError),
        [({ Field := bytesOf "name", Detail := bytesOf "bad name" } : FieldError),
          { Field := bytesOf "message", Detail := bytesOf "too long" }][i]? = some e →
        details[i]? = some ({ field := e.Field, description := e.Detail } : FieldViolation)) ∧
      ∃ description,
        convertErrorList [{ Field := [0xC0], Detail := bytesOf "bad name" }]
          = some (GoError.other description) :=
  ⟨(convertErrorList_bundles_all
      [{ Field := bytesOf "name", Detail := bytesOf "bad name" },
       { Field := bytesOf "message", Detail := bytesOf "too long" }]).2.1 (by simp) (by decide),
    (convertErrorList_bundles_all [{ Field := [0xC0], Detail := bytesOf "bad name" }]).2.2
      ⟨{ Field := [0xC0], Detail := bytesOf "bad name" }, by simp, Or.inl (by decide)⟩⟩

/-! ## The store without database faults -/

theorem controlCall_noFaults (F : FaultPlan) (hF : NoFaults F) (w : World) :
    controlCall F w = (none, afterControl w) := by
  simp [controlCall, afterControl, hF w.calls]

theorem statementCall_noFaults (F : FaultPlan) (hF : NoFaults F) (stmt : Statement) (w : World) :
    statementCall F stmt w = (none, afterStatement w stmt) := by
  simp [statementCall, afterStatement, hF w.calls]

theorem doTransaction_commit {σ : Type} (F : FaultPlan) (hF : NoFaults F) (init : σ)
    (callback : World → (σ × Outcome Unit) × World) (w : World) (s : σ) (u : Unit) (w1 : World)
    (h : callback (afterControl w) = ((s, Outcome.ok u), w1)) :
    doTransaction F init callback w = ((s, Outcome.ok ()), afterControl w1) := by
  simp [doTransaction, controlCall_noFaults F hF, h]

theorem doGetAccount_noFaults (F : FaultPlan) (hF : NoFaults F) (J : Runtime)
    (name parsed : GoString) (hp : ParseAccount name = Outcome.ok parsed) (w : World) :
    doGetAccount F J name w
      = (storedAccount J w.tables name, afterStatement w (accountSelect parsed)) := by
  unfold doGetAccount storedAccount queryAccountRow
  simp only [hp]
  rw [show ({ text := selectAccountBaseQuery ++ bytesOf " WHERE name = $1",
              args := [SqlValue.text parsed] } : Statement) = accountSelect parsed from rfl,
    statementCall_noFaults F hF]
  simp only [afterStatement]
  cases hfind : w.tables.accounts.find? (fun r => decide (r.name = parsed)) with
  | none => rfl
  | some row =>
    cases hs : scanAccount J row with
    | error e => simp [hs]
    | ok account => simp [hs]

theorem doGetLocation_noFaults (F : FaultPlan) (hF : NoFaults F) (name : GoString) (w : World) :
    doGetLocation F name w
      = (storedLocation w.tables name, afterStatement w (locationSelect name)) := by
  unfold doGetLocation storedLocation queryLocationRow
  rw [show ({ text := locationSelectBaseQuery ++ bytesOf " WHERE name = $1",
              args := [SqlValue.text name] } : Statement) = locationSelect name from rfl,
    statementCall_noFaults F hF]
  simp only [afterStatement]
  cases hfind : w.tables.locations.find? (fun r => decide (r.name = name)) with
  | none => rfl
  | some row =>
    cases hs : scanLocation row with
    | error e => simp [hs]
    | ok location => simp [hs]

theorem doGetRoom_noFaults (F : FaultPlan) (hF : NoFaults F) (name a l r : GoString)
    (hp : ParseRoom name = Outcome.ok (a, l, r)) (w : World) :
    doGetRoom F name w = (storedRoom w.tables name, afterStatement w (roomSelect a l r)) := by
  unfold doGetRoom storedRoom queryRoomRow
  simp only [hp]
  rw [show ({ text := selectRoomBaseQuery
                ++ bytesOf " WHERE account = $1 AND location = $2 AND name = $3",
              args := [SqlValue.text a, SqlValue.text l, SqlValue.text r] } : Statement)
        = roomSelect a l r from rfl,
    statementCall_noFaults F hF]
  simp only [afterStatement]
  cases hfind : w.tables.rooms.find? (fun x =>
      decide (x.account = a) && decide (x.location = l) && decide (x.name = r)) with
  | none => rfl
  | some row =>
    cases hs : scanRoom row with
    | error e => simp [hs]
    | ok room => simp [hs]

@[simp] theorem afterControl_tables (w : World) : (afterControl w).tables = w.tables := rfl

@[simp] theorem afterStatement_tables (w : World) (s : Statement) :
    (afterStatement w s).tables = w.tables := rfl

@[simp] theorem afterControl_log (w : World) : (afterControl w).log = w.log := rfl

@[simp] theorem afterStatement_log (w : World) (s : Statement) :
    (afterStatement w s).log = w.log ++ [s] := rfl

/-- The world after a transaction that only looked one row up: `BeginTx`, the
lookup statement, `Commit`. -/
theorem lookupOnly_world (w : World) (s : Statement) :
    (afterControl (afterStatement (afterControl w) s)).tables = w.tables ∧
      (afterControl (afterStatement (afterControl w) s)).log = w.log ++ [s] :=
  ⟨rfl, rfl⟩

theorem storeCreateAccount_existing (F : FaultPlan) (hF : NoFaults F) (J : Runtime)
    (now : Timestamp) (account : Account) (parsed : GoString) (e : Account) (w : World)
    (hp : ParseAccount account.Name = Outcome.ok parsed)
    (hs : storedAccount J w.tables account.Name = Outcome.ok (some e)) :
    storeCreateAccount F J now account w
      = (Outcome.ok none, afterControl (afterStatement (afterControl w) (accountSelect parsed))) := by
  have hcb : createAccountTx F J now account parsed (afterControl w)
      = ((none, Outcome.ok ()), afterStatement (afterControl w) (accountSelect parsed)) := by
    unfold createAccountTx
    rw [doGetAccount_noFaults F hF J account.Name parsed hp]
    simp only [afterControl_tables, hs]
  unfold storeCreateAccount
  simp only [hp]
  rw [doTransaction_commit F hF none _ w none () _ hcb]

theorem storeCreateLocation_existing (F : FaultPlan) (hF : NoFaults F) (now : Timestamp)
    (location : Location) (a l : GoString) (e : Location) (w : World)
    (hp : ParseLocation location.Name = Outcome.ok (a, l))
    (hs : storedLocation w.tables location.Name = Outcome.ok (some e)) :
    storeCreateLocation F now location w
      = (Outcome.ok none,
          afterControl (afterStatement (afterControl w) (locationSelect location.Name))) := by
  have hcb : createLocationTx F now location a (afterControl w)
      = ((none, Outcome.ok ()),
          afterStatement (afterControl w) (locationSelect location.Name)) := by
    unfold createLocationTx
    rw [doGetLocation_noFaults F hF]
    simp only [afterControl_tables, hs]
  unfold storeCreateLocation
  simp only [hp]
  rw [doTransaction_commit F hF none _ w none () _ hcb]

theorem storeCreateRoom_existing (F : FaultPlan) (hF : NoFaults F) (now : Timestamp)
    (room : Room) (a l r : GoString) (e : Room) (w : World)
    (hp : ParseRoom room.Name = Outcome.ok (a, l, r))
    (hs : storedRoom w.tables room.Name = Outcome.ok (some e)) :
    storeCreateRoom F now room w
      = (Outcome.ok none, afterControl (afterStatement (afterControl w) (roomSelect a l r))) := by
  have hcb : createRoomTx F now room a l r (afterControl w)
      = ((none, Outcome.ok ()), afterStatement (afterControl w) (roomSelect a l r)) := by
    unfold createRoomTx
    rw [doGetRoom_noFaults F hF room.Name a l r hp]
    simp only [afterControl_tables, hs]
  unfold storeCreateRoom
  simp only [hp]
  rw [doTransaction_commit F hF none _ w none () _ hcb]

theorem parseAccount_of_stored (J : Runtime) (t : Tables) (name : GoString)
    (x : Option Account) (h : storedAccount J t name = Outcome.ok x) :
    ∃ parsed, ParseAccount name = Outcome.ok parsed := by
  unfold storedAccount at h
  cases hp : ParseAccount name with
  | ok parsed => exact ⟨parsed, rfl⟩
  | error e => simp [hp, Outcome.failure] at h
  | panic => simp [hp, Outcome.failure] at h
  | timeout => simp [hp, Outcome.failure] at h

theorem parseRoom_of_stored (t : Tables) (name : GoString) (x : Option Room)
    (h : storedRoom t name = Outcome.ok x) :
    ∃ a l r, ParseRoom name = Outcome.ok (a, l, r) := by
  unfold storedRoom at h
  cases hp : ParseRoom name with
  | ok parsed => exact ⟨parsed.1, parsed.2.1, parsed.2.2, rfl⟩
  | error e => simp [hp, Outcome.failure] at h
  | panic => simp [hp, Outcome.failure] at h
  | timeout => simp [hp, Outcome.failure] at h

theorem validResourceID_total (id : GoString) :
    ValidResourceID id = Outcome.ok true ∨ ValidResourceID id = Outcome.ok false := by
  rcases validResourceID_cases id with ⟨h, _⟩ | ⟨h, _⟩
  · exact Or.inl h
  · exact Or.inr h

/-- What a request that passes `validateCreateAccount` looks like. -/
theorem validateCreateAccount_ok (req : CreateAccountRequest)
    (h : validateCreateAccount req = Outcome.ok none) :
    ValidResourceID req.AccountId = Outcome.ok true ∧
      ∃ payload, req.Account = some payload ∧ payload.DisplayName.length ≤ 255 := by
  unfold validateCreateAccount at h
  by_cases hid : req.AccountId = []
  · cases hacc : validateAccount req.Account true with
    | ok more => simp [hid, hacc, convertErrorList_eq_none_iff] at h
    | error e => simp [hid, hacc, Outcome.failure] at h
    | panic => simp [hid, hacc, Outcome.failure] at h
    | timeout => simp [hid, hacc, Outcome.failure] at h
  · rcases validResourceID_total req.AccountId with hv | hv
    · refine ⟨hv, ?_⟩
      cases hpay : req.Account with
      | none => simp [hid, hv, hpay, validateAccount, convertErrorList_eq_none_iff] at h
      | some payload =>
        refine ⟨payload, rfl, ?_⟩
        by_contra hlen
        have hlen2 : payload.DisplayName.length > 255 := by omega
        simp [hid, hv, hpay, validateAccount, validateLabels, validateAnnotations,
          validateDisplayName, hlen2, convertErrorList_eq_none_iff] at h
    · cases hacc : validateAccount req.Account true with
      | ok more => simp [hid, hv, hacc, convertErrorList_eq_none_iff] at h
      | error e => simp [hid, hv, hacc, Outcome.failure] at h
      | panic => simp [hid, hv, hacc, Outcome.failure] at h
      | timeout => simp [hid, hv, hacc, Outcome.failure] at h

theorem parseAccount_buildAccount_valid (id : GoString)
    (h : ValidResourceID id = Outcome.ok true) :
    ParseAccount (BuildAccount id) = Outcome.ok id := by
  rcases parseAccount_build id with ⟨_, h1⟩ | ⟨h1, _⟩
  · exact h1
  · exact absurd (Or.inr h) h1

theorem validateCreateLocation_ok (location : Option Location)
    (h : validateCreateLocation location = none) : ∃ payload, location = some payload := by
  cases location with
  | none => simp [validateCreateLocation, convertErrorList_eq_none_iff] at h
  | some payload => exact ⟨payload, rfl⟩

theorem validateRoom_ok (room : Option Room) (create : Bool)
    (h : validateRoom room create = Outcome.ok none) : ∃ payload, room = some payload := by
  cases room with
  | none => simp [validateRoom, convertErrorList_eq_none_iff] at h
  | some payload => exact ⟨payload, rfl⟩

/-- C15, as stated, fails for the handler: after `DeleteLocation` removed the
location `head-office` the row of its room `room-101` is still stored, yet
`CreateRoom` for that room, whose request passes validation, looks the parent
up first and answers `NotFound`, not `AlreadyExists`. -/
theorem createRoom_on_orphan_room_not_found :
    (DeleteLocation noFaults (bytesOf "accounts/acme-corp/locations/head-office")
        worldWithRoom).1 = Outcome.ok () ∧
      (∃ e, storedRoom worldWithOrphanRoom.tables
          (BuildRelativeName
            [demoCreateRoomRequest.Parent, CollectionRooms, demoCreateRoomRequest.RoomId])
        = Outcome.ok (some e)) ∧
      validateRoom demoCreateRoomRequest.Room true = Outcome.ok none ∧
      CreateRoom noFaults demoLater demoCreateRoomRequest worldWithOrphanRoom
        = (Outcome.error errNotFound,
            afterStatement worldWithOrphanRoom
              (locationSelect (bytesOf "accounts/acme-corp/locations/head-office"))) ∧
      errNotFound ≠ errAlreadyExists := by
  refine ⟨by decide, ⟨_, rfl⟩, by decide, by decide, by decide⟩

/-- C15, amended: a create operation of the store on a name that already has a
stored row returns an absent entity with a nil error, sends no statement but
the lookup and leaves the tables as they are (no database call failing); on
such a name the server handler whose request passed validation returns the
`AlreadyExists` status, for a location or a room when the parent account or
location of the request is stored; when that parent is not stored the handler
returns `NotFound` after the parent lookup, the tables unchanged. -/
theorem create_on_existing_name (F : FaultPlan) (hF : NoFaults F) (J : Runtime)
    (now : Timestamp) (w : World) :
    (∀ (account : Account) (parsed : GoString) (e : Account),
      ParseAccount account.Name = Outcome.ok parsed →
      storedAccount J w.tables account.Name = Outcome.ok (some e) →
      ∃ w1, storeCreateAccount F J now account w = (Outcome.ok none, w1) ∧
        w1.tables = w.tables ∧ w1.log = w.log ++ [accountSelect parsed]) ∧
    (∀ (location : Location) (a l : GoString) (e : Location),
      ParseLocation location.Name = Outcome.ok (a, l) →
      storedLocation w.tables location.Name = Outcome.ok (some e) →
      ∃ w1, storeCreateLocation F now location w = (Outcome.ok none, w1) ∧
        w1.tables = w.tables ∧ w1.log = w.log ++ [locationSelect location.Name]) ∧
    (∀ (room : Room) (a l r : GoString) (e : Room),
      ParseRoom room.Name = Outcome.ok (a, l, r) →
      storedRoom w.tables room.Name = Outcome.ok (some e) →
      ∃ w1, storeCreateRoom F now room w = (Outcome.ok none, w1) ∧
        w1.tables = w.tables ∧ w1.log = w.log ++ [roomSelect a l r]) ∧
    (∀ (req : CreateAccountRequest) (e : Account),
      validateCreateAccount req = Outcome.ok none →
      storedAccount J w.tables (BuildAccount req.AccountId) = Outcome.ok (some e) →
      ∃ w1, CreateAccount F J now req w = (Outcome.error errAlreadyExists, w1) ∧
        w1.tables = w.tables) ∧
    (∀ (req : CreateLocationRequest) (payload : Location) (parent : Account) (a l : GoString)
        (e : Location),
      validateCreateLocation req.Location = none → req.Location = some payload →
      storedAccount J w.tables req.Parent = Outcome.ok (some parent) →
      ParseLocation (BuildRelativeName
          [req.Parent, CollectionLocations, slugify J payload.DisplayName])
        = Outcome.ok (a, l) →
      storedLocation w.tables (BuildRelativeName
          [req.Parent, CollectionLocations, slugify J payload.DisplayName])
        = Outcome.ok (some e) →
      ∃ w1, CreateLocation F J now req w = (Outcome.error errAlreadyExists, w1) ∧
        w1.tables = w.tables) ∧
    (∀ (req : CreateRoomRequest) (payload : Room) (parent : Location) (e : Room),
      validateRoom req.Room true = Outcome.ok none → req.Room = some payload →
      storedLocation w.tables req.Parent = Outcome.ok (some parent) →
      storedRoom w.tables (BuildRelativeName [req.Parent, CollectionRooms, req.RoomId])
        = Outcome.ok (some e) →
      ∃ w1, CreateRoom F now req w = (Outcome.error errAlreadyExists, w1) ∧
        w1.tables = w.tables) ∧
    (∀ (req : CreateLocationRequest),
      validateCreateLocation req.Location = none →
      storedAccount J w.tables req.Parent = Outcome.ok none →
      ∃ w1, CreateLocation F J now req w = (Outcome.error errNotFound, w1) ∧
        w1.tables = w.tables) ∧
    (∀ (req : CreateRoomRequest),
      validateRoom req.Room true = Outcome.ok none →
      storedLocation w.tables req.Parent = Outcome.ok none →
      ∃ w1, CreateRoom F now req w = (Outcome.error errNotFound, w1) ∧
        w1.tables = w.tables) := by
  refine ⟨?_, ?_, ?_, ?_, ?_, ?_, ?_, ?_⟩
  · intro account parsed e hp hs
    exact ⟨_, storeCreateAccount_existing F hF J now account parsed e w hp hs, rfl, rfl⟩
  · intro location a l e hp hs
    exact ⟨_, storeCreateLocation_existing F hF now location a l e w hp hs, rfl, rfl⟩
  · intro room a l r e hp hs
    exact ⟨_, storeCreateRoom_existing F hF now room a l r e w hp hs, rfl, rfl⟩
  · intro req e hv hs
    obtain ⟨hid, payload, hpay, _⟩ := validateCreateAccount_ok req hv
    have hp := parseAccount_buildAccount_valid req.AccountId hid
    have hst := storeCreateAccount_existing F hF J now
      { payload with Name := BuildAccount req.AccountId } req.AccountId e w hp hs
    refine ⟨afterControl (afterStatement (afterControl w) (accountSelect req.AccountId)),
      ?_, rfl⟩
    unfold CreateAccount
    simp only [hv, hpay, hst]
  · intro req payload parent a l e hv hpay hparent hp hs
    obtain ⟨pp, hpp⟩ := parseAccount_of_stored J w.tables req.Parent _ hparent
    have hst := storeCreateLocation_existing F hF now
      { payload with
        Name := BuildRelativeName
          [req.Parent, CollectionLocations, slugify J payload.DisplayName] }
      a l e (afterStatement w (accountSelect pp)) hp hs
    refine ⟨afterControl (afterStatement (afterControl (afterStatement w (accountSelect pp)))
      (locationSelect (BuildRelativeName
        [req.Parent, CollectionLocations, slugify J payload.DisplayName]))), ?_, rfl⟩
    rw [hpay] at hv
    unfold CreateLocation storeGetAccount
    simp only [hpay, hv, doGetAccount_noFaults F hF J req.Parent pp hpp, hparent, hst]
  · intro req payload parent e hv hpay hparent hs
    obtain ⟨a, l, r, hp⟩ := parseRoom_of_stored w.tables _ _ hs
    have hst := storeCreateRoom_existing F hF now
      { payload with Name := BuildRelativeName [req.Parent, CollectionRooms, req.RoomId] }
      a l r e (afterStatement w (locationSelect req.Parent)) hp hs
    refine ⟨afterControl (afterStatement (afterControl (afterStatement w
      (locationSelect req.Parent))) (roomSelect a l r)), ?_, rfl⟩
    rw [hpay] at hv
    unfold CreateRoom storeGetLocation
    simp only [hpay, hv, doGetLocation_noFaults F hF, hparent, hst]
  · intro req hv hparent
    obtain ⟨pp, hpp⟩ := parseAccount_of_stored J w.tables req.Parent _ hparent
    refine ⟨afterStatement w (accountSelect pp), ?_, rfl⟩
    unfold CreateLocation storeGetAccount
    simp only [hv, doGetAccount_noFaults F hF J req.Parent pp hpp, hparent]
  · intro req hv hparent
    refine ⟨afterStatement w (locationSelect req.Parent), ?_, rfl⟩
    unfold CreateRoom storeGetLocation
    simp only [hv, doGetLocation_noFaults F hF, hparent]

theorem storeDeleteAccount_absent (F : FaultPlan) (hF : NoFaults F) (J : Runtime)
    (name parsed : GoString) (w : World) (hp : ParseAccount name = Outcome.ok parsed)
    (hs : storedAccount J w.tables name = Outcome.ok none) :
    storeDeleteAccount F J name w
      = (Outcome.ok none, afterControl (afterStatement (afterControl w) (accountSelect parsed))) := by
  have hcb : deleteAccountTx F J name (afterControl w)
      = ((none, Outcome.ok ()), afterStatement (afterControl w) (accountSelect parsed)) := by
    unfold deleteAccountTx
    rw [doGetAccount_noFaults F hF J name parsed hp]
    simp only [afterControl_tables, hs]
  unfold storeDeleteAccount
  rw [doTransaction_commit F hF none _ w none () _ hcb]

theorem doUpdateAccount_absent (F : FaultPlan) (hF : NoFaults F) (J : Runtime)
    (now : Timestamp) (name parsed : GoString) (updater : Account → Outcome Account) (w : World)
    (hp : ParseAccount name = Outcome.ok parsed)
    (hs : storedAccount J w.tables name = Outcome.ok none) :
    doUpdateAccount F J now name updater w
      = (Outcome.ok none, afterControl (afterStatement (afterControl w) (accountSelect parsed))) := by
  have hcb : updateAccountTx F J now name parsed updater (afterControl w)
      = ((none, Outcome.ok ()), afterStatement (afterControl w) (accountSelect parsed)) := by
    unfold updateAccountTx
    rw [doGetAccount_noFaults F hF J name parsed hp]
    simp only [afterControl_tables, hs]
  unfold doUpdateAccount
  simp only [hp]
  rw [doTransaction_commit F hF none _ w none () _ hcb]

theorem storeUpdateLocation_absent (F : FaultPlan) (hF : NoFaults F) (J : Runtime)
    (now : Timestamp) (location : Location) (mask : Option (List GoString)) (w : World)
    (hs : storedLocation w.tables location.Name = Outcome.ok none) :
    storeUpdateLocation F J now location mask w
      = (Outcome.ok none,
          afterControl (afterStatement (afterControl w) (locationSelect location.Name))) := by
  have hcb : updateLocationTx F J now location mask (afterControl w)
      = ((none, Outcome.ok ()),
          afterStatement (afterControl w) (locationSelect location.Name)) := by
    unfold updateLocationTx
    rw [doGetLocation_noFaults F hF]
    simp only [afterControl_tables, hs]
  unfold storeUpdateLocation
  rw [doTransaction_commit F hF none _ w none () _ hcb]

theorem storeDeleteLocation_absent (F : FaultPlan) (hF : NoFaults F) (name : GoString)
    (w : World) (hs : storedLocation w.tables name = Outcome.ok none) :
    storeDeleteLocation F name w
      = (Outcome.ok none, afterControl (afterStatement (afterControl w) (locationSelect name))) := by
  have hcb : deleteLocationTx F name (afterControl w)
      = ((none, Outcome.ok ()), afterStatement (afterControl w) (locationSelect name)) := by
    unfold deleteLocationTx
    rw [doGetLocation_noFaults F hF]
    simp only [afterControl_tables, hs]
  unfold storeDeleteLocation
  rw [doTransaction_commit F hF none _ w none () _ hcb]

theorem storeUpdateRoom_absent (F : FaultPlan) (hF : NoFaults F) (J : Runtime)
    (now : Timestamp) (room : Room) (mask : Option (List GoString)) (a l r : GoString)
    (w : World) (hp : ParseRoom room.Name = Outcome.ok (a, l, r))
    (hs : storedRoom w.tables room.Name = Outcome.ok none) :
    storeUpdateRoom F J now room mask w
      = (Outcome.ok none, afterControl (afterStatement (afterControl w) (roomSelect a l r))) := by
  have hcb : updateRoomTx F J now room mask (afterControl w)
      = ((none, Outcome.ok ()), afterStatement (afterControl w) (roomSelect a l r)) := by
    unfold updateRoomTx
    rw [doGetRoom_noFaults F hF room.Name a l r hp]
    simp only [afterControl_tables, hs]
  unfold storeUpdateRoom
  rw [doTransaction_commit F hF none _ w none () _ hcb]

theorem storeDeleteRoom_absent (F : FaultPlan) (hF : NoFaults F) (name a l r : GoString)
    (w : World) (hp : ParseRoom name = Outcome.ok (a, l, r))
    (hs : storedRoom w.tables name = Outcome.ok none) :
    storeDeleteRoom F name w
      = (Outcome.ok none, afterControl (afterStatement (afterControl w) (roomSelect a l r))) := by
  have hcb : deleteRoomTx F name (afterControl w)
      = ((none, Outcome.ok ()), afterStatement (afterControl w) (roomSelect a l r)) := by
    unfold deleteRoomTx
    rw [doGetRoom_noFaults F hF name a l r hp]
    simp only [afterControl_tables, hs]
  unfold storeDeleteRoom
  rw [doTransaction_commit F hF none _ w none () _ hcb]

/-- What a request that passes `validateUpdateAccount` looks like. -/
theorem validateUpdateAccount_ok (req : UpdateAccountRequest)
    (h : validateUpdateAccount req = Outcome.ok none) :
    ∃ account parsed, req.Account = some account ∧
      ParseAccount account.Name = Outcome.ok parsed := by
  unfold validateUpdateAccount at h
  cases hacc : req.Account with
  | none => simp [hacc, validateAccount, convertErrorList_eq_none_iff] at h
  | some account =>
    refine ⟨account, ?_⟩
    by_cases hn : account.Name = []
    · simp [hacc, validateAccount, hn, convertErrorList_eq_none_iff] at h
    · cases hp : ParseAccount account.Name with
      | ok parsed => exact ⟨parsed, rfl, rfl⟩
      | error e => simp [hacc, validateAccount, hn, hp, convertErrorList_eq_none_iff] at h
      | panic => simp [hacc, validateAccount, hn, hp, Outcome.failure] at h
      | timeout => simp [hacc, validateAccount, hn, hp, Outcome.failure] at h

/-- What an update request that passes `validateRoom` looks like. -/
theorem validateRoom_update_ok (room : Option Room)
    (h : validateRoom room false = Outcome.ok none) :
    ∃ payload a l r, room = some payload ∧ ParseRoom payload.Name = Outcome.ok (a, l, r) := by
  cases hroom : room with
  | none => simp [hroom, validateRoom, convertErrorList_eq_none_iff] at h
  | some payload =>
    refine ⟨payload, ?_⟩
    by_cases hn : payload.Name = []
    · simp [hroom, validateRoom, hn, convertErrorList_eq_none_iff] at h
    · cases hp : ParseRoom payload.Name with
      | ok parsed => exact ⟨parsed.1, parsed.2.1, parsed.2.2, rfl, rfl⟩
      | error e => simp [hroom, validateRoom, hn, hp, convertErrorList_eq_none_iff] at h
      | panic => simp [hroom, validateRoom, hn, hp, Outcome.failure] at h
      | timeout => simp [hroom, validateRoom, hn, hp, Outcome.failure] at h

/-- C17: an update or a delete operation of the store on a well-formed name
that has no stored row returns an absent entity with a nil error, sends no
statement but the lookup and leaves the tables as they are (no database call
failing); the server handler whose request passed validation then returns the
`NotFound` status. -/
theorem update_or_delete_on_absent_name (F : FaultPlan) (hF : NoFaults F) (J : Runtime)
    (now : Timestamp) (w : World) :
    (∀ (name parsed : GoString), ParseAccount name = Outcome.ok parsed →
      storedAccount J w.tables name = Outcome.ok none →
      (∃ w1, storeDeleteAccount F J name w = (Outcome.ok none, w1) ∧
        w1.tables = w.tables ∧ w1.log = w.log ++ [accountSelect parsed]) ∧
      (∀ account : Account, account.Name = name →
        ∃ w1, storeUpdateAccount F J now account w = (Outcome.ok none, w1) ∧
          w1.tables = w.tables ∧ w1.log = w.log ++ [accountSelect parsed]) ∧
      (∀ status : AccountStatus,
        ∃ w1, storeUpdateAccountStatus F J now name status w = (Outcome.ok none, w1) ∧
          w1.tables = w.tables ∧ w1.log = w.log ++ [accountSelect parsed]) ∧
      (∀ quotas : AccountQuotas,
        ∃ w1, storeUpdateAccountQuotas F J now name quotas w = (Outcome.ok none, w1) ∧
          w1.tables = w.tables ∧ w1.log = w.log ++ [accountSelect parsed]) ∧
      (∃ w1, DeleteAccount F J name w = (Outcome.error errNotFound, w1) ∧
        w1.tables = w.tables) ∧
      (∀ status : AccountStatus, status.Name = name →
        ∃ w1, UpdateAccountStatus F J now (some status) w = (Outcome.error errNotFound, w1) ∧
          w1.tables = w.tables) ∧
      (∀ quotas : AccountQuotas, quotas.Name = name →
        ∃ w1, UpdateAccountQuotas F J now (some quotas) w = (Outcome.error errNotFound, w1) ∧
          w1.tables = w.tables) ∧
      (∀ req : UpdateAccountRequest, validateUpdateAccount req = Outcome.ok none →
        (∀ account, req.Account = some account → account.Name = name) →
        ∃ w1, UpdateAccount F J now req w = (Outcome.error errNotFound, w1) ∧
          w1.tables = w.tables)) ∧
    (∀ (name a l : GoString), ParseLocation name = Outcome.ok (a, l) →
      storedLocation w.tables name = Outcome.ok none →
      (∃ w1, storeDeleteLocation F name w = (Outcome.ok none, w1) ∧
        w1.tables = w.tables ∧ w1.log = w.log ++ [locationSelect name]) ∧
      (∀ (location : Location) (mask : Option (List GoString)), location.Name = name →
        ∃ w1, storeUpdateLocation F J now location mask w = (Outcome.ok none, w1) ∧
          w1.tables = w.tables ∧ w1.log = w.log ++ [locationSelect name]) ∧
      (∃ w1, DeleteLocation F name w = (Outcome.error errNotFound, w1) ∧
        w1.tables = w.tables) ∧
      (∀ (req : UpdateLocationRequest) (location : Location),
        validateCreateLocation req.Location = none → req.Location = some location →
        location.Name = name →
        ∃ w1, UpdateLocation F J now req w = (Outcome.error errNotFound, w1) ∧
          w1.tables = w.tables)) ∧
    (∀ (name a l r : GoString), ParseRoom name = Outcome.ok (a, l, r) →
      storedRoom w.tables name = Outcome.ok none →
      (∃ w1, storeDeleteRoom F name w = (Outcome.ok none, w1) ∧
        w1.tables = w.tables ∧ w1.log = w.log ++ [roomSelect a l r]) ∧
      (∀ (room : Room) (mask : Option (List GoString)), room.Name = name →
        ∃ w1, storeUpdateRoom F J now room mask w = (Outcome.ok none, w1) ∧
          w1.tables = w.tables ∧ w1.log = w.log ++ [roomSelect a l r]) ∧
      (∃ w1, DeleteRoom F name w = (Outcome.error errNotFound, w1) ∧ w1.tables = w.tables) ∧
      (∀ (req : UpdateRoomRequest) (room : Room),
        validateRoom req.Room false = Outcome.ok none → req.Room = some room →
        room.Name = name →
        ∃ w1, UpdateRoom F J now req w = (Outcome.error errNotFound, w1) ∧
          w1.tables = w.tables)) := by
  refine ⟨?_, ?_, ?_⟩
  · intro name parsed hp hs
    have hdel := storeDeleteAccount_absent F hF J name parsed w hp hs
    have hupd := fun updater => doUpdateAccount_absent F hF J now name parsed updater w hp hs
    refine ⟨⟨_, hdel, rfl, rfl⟩, ?_, ?_, ?_, ?_, ?_, ?_, ?_⟩
    · intro account hname
      subst hname
      exact ⟨_, hupd _, rfl, rfl⟩
    · intro status
      refine ⟨afterControl (afterStatement (afterControl w) (accountSelect parsed)), ?_, rfl, rfl⟩
      unfold storeUpdateAccountStatus
      rw [hupd]
    · intro quotas
      refine ⟨afterControl (afterStatement (afterControl w) (accountSelect parsed)), ?_, rfl, rfl⟩
      unfold storeUpdateAccountQuotas
      rw [hupd]
    · refine ⟨afterControl (afterStatement (afterControl w) (accountSelect parsed)), ?_, rfl⟩
      unfold DeleteAccount
      simp only [hp, hdel]
    · intro status hname
      subst hname
      refine ⟨afterControl (afterStatement (afterControl w) (accountSelect parsed)), ?_, rfl⟩
      unfold UpdateAccountStatus storeUpdateAccountStatus
      simp only [hp, hupd]
    · intro quotas hname
      subst hname
      refine ⟨afterControl (afterStatement (afterControl w) (accountSelect parsed)), ?_, rfl⟩
      unfold UpdateAccountQuotas storeUpdateAccountQuotas
      simp only [hp, hupd]
    · intro req hv hname
      obtain ⟨account, _, hacc, _⟩ := validateUpdateAccount_ok req hv
      have hn := hname account hacc
      subst hn
      refine ⟨afterControl (afterStatement (afterControl w) (accountSelect parsed)), ?_, rfl⟩
      unfold UpdateAccount storeUpdateAccount
      simp only [hv, hacc, hupd]
  · intro name a l hp hs
    have hdel := storeDeleteLocation_absent F hF name w hs
    refine ⟨⟨_, hdel, rfl, rfl⟩, ?_, ?_, ?_⟩
    · intro location mask hname
      subst hname
      exact ⟨_, storeUpdateLocation_absent F hF J now location mask w hs, rfl, rfl⟩
    · refine ⟨afterControl (afterStatement (afterControl w) (locationSelect name)), ?_, rfl⟩
      unfold DeleteLocation
      simp only [hp, hdel]
    · intro req location hv hloc hname
      subst hname
      rw [hloc] at hv
      refine ⟨afterControl (afterStatement (afterControl w) (locationSelect location.Name)),
        ?_, rfl⟩
      unfold UpdateLocation
      simp only [hloc, hv, storeUpdateLocation_absent F hF J now location req.UpdateMask w hs]
  · intro name a l r hp hs
    have hdel := storeDeleteRoom_absent F hF name a l r w hp hs
    refine ⟨⟨_, hdel, rfl, rfl⟩, ?_, ?_, ?_⟩
    · intro room mask hname
      subst hname
      exact ⟨_, storeUpdateRoom_absent F hF J now room mask a l r w hp hs, rfl, rfl⟩
    · refine ⟨afterControl (afterStatement (afterControl w) (roomSelect a l r)), ?_, rfl⟩
      unfold DeleteRoom
      simp only [hp, hdel]
    · intro req room hv hroom hname
      subst hname
      rw [hroom] at hv
      refine ⟨afterControl (afterStatement (afterControl w) (roomSelect a l r)), ?_, rfl⟩
      unfold UpdateRoom
      simp only [hroom, hv, storeUpdateRoom_absent F hF J now room req.UpdateMask a l r w hp hs]

theorem storeCreateAccount_absent (F : FaultPlan) (hF : NoFaults F) (J : Runtime)
    (hJ : MarshalSucceeds J) (now : Timestamp) (hnow : timestampValid now = true)
    (account : Account) (parsed : GoString) (w : World)
    (hp : ParseAccount account.Name = Outcome.ok parsed)
    (hs : storedAccount J w.tables account.Name = Outcome.ok none) :
    ∃ w1, storeCreateAccount F J now account w
      = (Outcome.ok (some (newAccountFor account now)), w1) := by
  obtain ⟨st, hst⟩ := hJ.1
    { Name := [], Phase := AccountPhase.ACCOUNT_PHASE_ACTIVE, Reason := [], Message := [] }
  obtain ⟨qt, hqt⟩ := hJ.2
    { Name := account.Name ++ bytesOf "/quotas", Devices := 0, Locations := 0 }
  have hcb : ∃ w2, createAccountTx F J now account parsed (afterControl w)
      = ((some (newAccountFor account now), Outcome.ok ()), w2) := by
    unfold createAccountTx
    rw [doGetAccount_noFaults F hF J account.Name parsed hp]
    simp only [afterControl_tables, hs, hst, hqt, ptypesTimestamp, hnow, if_true,
      execInsertAccount, statementCall_noFaults F hF]
    exact ⟨_, rfl⟩
  obtain ⟨w2, hw2⟩ := hcb
  refine ⟨afterControl w2, ?_⟩
  unfold storeCreateAccount
  simp only [hp]
  rw [doTransaction_commit F hF none _ w _ () _ hw2]

/-- C14: for every valid account ID `x` with no stored account named
`accounts/x`, creating the account returns an account whose name is
`accounts/x`, whose status is set with phase ACTIVE and whose quotas are set
with the name `accounts/x/quotas`, whatever the payload holds: so does
`store.CreateAccount` for every payload carrying that name, and so does the
handler `CreateAccount` for every request with that ID that passes
validation (the database calls and the marshaller not failing, the clock
within range). -/
theorem createAccount_sets_defaults (F : FaultPlan) (hF : NoFaults F) (J : Runtime)
    (hJ : MarshalSucceeds J) (now : Timestamp) (hnow : timestampValid now = true) (w : World)
    (x : GoString) (hx : ValidResourceID x = Outcome.ok true)
    (hs : storedAccount J w.tables (bytesOf "accounts/" ++ x) = Outcome.ok none) :
    (∀ payload : Account, payload.Name = bytesOf "accounts/" ++ x →
      ∃ created w1, storeCreateAccount F J now payload w = (Outcome.ok (some created), w1) ∧
        created.Name = bytesOf "accounts/" ++ x ∧
        (∃ st, created.Status = some st ∧ st.Phase = AccountPhase.ACCOUNT_PHASE_ACTIVE) ∧
        ∃ q, created.Quotas = some q ∧ q.Name = bytesOf "accounts/" ++ x ++ bytesOf "/quotas") ∧
    (∀ req : CreateAccountRequest, req.AccountId = x →
      validateCreateAccount req = Outcome.ok none →
      ∃ created w1, CreateAccount F J now req w = (Outcome.ok created, w1) ∧
        created.Name = bytesOf "accounts/" ++ x ∧
        (∃ st, created.Status = some st ∧ st.Phase = AccountPhase.ACCOUNT_PHASE_ACTIVE) ∧
        ∃ q, created.Quotas = some q ∧ q.Name = bytesOf "accounts/" ++ x ++ bytesOf "/quotas") := by
  have hb : BuildAccount x = bytesOf "accounts/" ++ x := by
    rw [buildAccount_eq]
    rfl
  have hp : ParseAccount (bytesOf "accounts/" ++ x) = Outcome.ok x := by
    rw [← hb]
    exact parseAccount_buildAccount_valid x hx
  constructor
  · intro payload hname
    obtain ⟨w1, h1⟩ := storeCreateAccount_absent F hF J hJ now hnow payload x w
      (by rw [hname]; exact hp) (by rw [hname]; exact hs)
    refine ⟨newAccountFor payload now, w1, h1, hname, ⟨_, rfl, rfl⟩, ⟨_, rfl, ?_⟩⟩
    simp [hname]
  · intro req hid hv
    subst hid
    obtain ⟨_, payload, hpay, _⟩ := validateCreateAccount_ok req hv
    obtain ⟨w1, h1⟩ := storeCreateAccount_absent F hF J hJ now hnow
      { payload with Name := BuildAccount req.AccountId } req.AccountId w
      (by rw [hb]; exact hp) (by rw [hb]; exact hs)
    refine ⟨newAccountFor { payload with Name := BuildAccount req.AccountId } now, w1, ?_, hb,
      ⟨_, rfl, rfl⟩, ⟨_, rfl, ?_⟩⟩
    · unfold CreateAccount
      simp only [hv, hpay, h1]
    · simp [hb]

/-- A lookup of an account changes no table and sends nothing but its one
`SELECT`, whether or not the call fails. -/
theorem doGetAccount_readonly (F : FaultPlan) (J : Runtime) (name : GoString) (w : World) :
    (doGetAccount F J name w).2.tables = w.tables ∧
      ∀ s ∈ (doGetAccount F J name w).2.log, s ∈ w.log ∨ ∃ parsed, s = accountSelect parsed := by
  unfold doGetAccount
  cases hp : ParseAccount name with
  | ok parsed =>
    have hq : queryAccountRow F parsed w
        = (match F w.calls with
            | some e => Except.error e
            | none => Except.ok (w.tables.accounts.find? (fun r => decide (r.name = parsed))),
          afterStatement w (accountSelect parsed)) := by
      unfold queryAccountRow statementCall
      cases F w.calls <;> rfl
    simp only [hq]
    have hlog : ∀ s ∈ (afterStatement w (accountSelect parsed)).log,
        s ∈ w.log ∨ ∃ p, s = accountSelect p := by
      intro s hs
      rcases List.mem_append.mp hs with h | h
      · exact Or.inl h
      · exact Or.inr ⟨parsed, by simpa using h⟩
    cases hf : F w.calls with
    | some e => exact ⟨rfl, hlog⟩
    | none =>
      cases hfind : w.tables.accounts.find? (fun r => decide (r.name = parsed)) with
      | none => exact ⟨rfl, hlog⟩
      | some row =>
        cases hs : scanAccount J row with
        | error e =>
          simp only [hs]
          exact ⟨rfl, hlog⟩
        | ok account =>
          simp only [hs]
          exact ⟨rfl, hlog⟩
  | error e => exact ⟨rfl, fun s hs => Or.inl hs⟩
  | panic => exact ⟨rfl, fun s hs => Or.inl hs⟩
  | timeout => exact ⟨rfl, fun s hs => Or.inl hs⟩

theorem parseAccount_of_found (F : FaultPlan) (J : Runtime) (name : GoString) (w w1 : World)
    (x : Option Account) (h : doGetAccount F J name w = (Outcome.ok x, w1)) :
    ∃ parsed, ParseAccount name = Outcome.ok parsed := by
  unfold doGetAccount at h
  cases hp : ParseAccount name with
  | ok parsed => exact ⟨parsed, rfl⟩
  | error e => simp [hp, Outcome.failure] at h
  | panic => simp [hp, Outcome.failure] at h
  | timeout => simp [hp, Outcome.failure] at h

/-- C19: when the stored account a valid `SuspendAccount` request names has the
phase SUSPENDED, the handler returns `FailedPrecondition`; when the stored
account an `ActivateAccount` request names has the phase ACTIVE, the handler
returns `FailedPrecondition`; in both cases the database is left as the lookup
left it, and a lookup changes no table and sends no statement but its
`SELECT`. -/
theorem repeated_transition_rejected (F : FaultPlan) (J : Runtime) (now : Timestamp)
    (w : World) :
    (∀ (req : SuspendAccountRequest) (account : Account) (st : AccountStatus) (w1 : World),
      validateSuspendAccount req = Outcome.ok none →
      storeGetAccount F J req.Name w = (Outcome.ok (some account), w1) →
      account.Status = some st → st.Phase = AccountPhase.ACCOUNT_PHASE_SUSPENDED →
      SuspendAccount F J now req w
        = (Outcome.error
            (GoError.status Code.FailedPrecondition (bytesOf "account is already suspended") []),
          w1)) ∧
    (∀ (name : GoString) (account : Account) (st : AccountStatus) (w1 : World),
      storeGetAccount F J name w = (Outcome.ok (some account), w1) →
      account.Status = some st → st.Phase = AccountPhase.ACCOUNT_PHASE_ACTIVE →
      ActivateAccount F J now name w
        = (Outcome.error
            (GoError.status Code.FailedPrecondition (bytesOf "account is already active") []),
          w1)) ∧
    (∀ (name : GoString) (r : Outcome (Option Account)) (w1 : World),
      storeGetAccount F J name w = (r, w1) →
      w1.tables = w.tables ∧
        ∀ s ∈ w1.log, s ∈ w.log ∨ ∃ parsed, s = accountSelect parsed) := by
  refine ⟨?_, ?_, ?_⟩
  · intro req account st w1 hv hget hst hph
    unfold SuspendAccount
    simp only [hv, hget, hst, hph, if_true, errFailedPrecondition]
  · intro name account st w1 hget hst hph
    obtain ⟨parsed, hp⟩ := parseAccount_of_found F J name w w1 _ hget
    unfold ActivateAccount
    simp only [hp, hget, hst, hph, if_true, errFailedPrecondition]
  · intro name r w1 hget
    have h := doGetAccount_readonly F J name w
    unfold storeGetAccount at hget
    rw [hget] at h
    exact h

/-! ## Evaluation on concrete databases -/

theorem noFaults_ok : NoFaults noFaults := fun _ => rfl

theorem demoRuntime_marshalSucceeds : MarshalSucceeds demoRuntime :=
  ⟨fun _ => ⟨_, rfl⟩, fun _ => ⟨_, rfl⟩⟩

theorem createAccount_sets_defaults_witness :
    ∃ created w1,
      CreateAccount noFaults demoRuntime demoNow demoCreateAccountRequest emptyWorld
        = (Outcome.ok created, w1) ∧
      created.Name = bytesOf "accounts/" ++ bytesOf "acme-corp" ∧
      (∃ st, created.Status = some st ∧ st.Phase = AccountPhase.ACCOUNT_PHASE_ACTIVE) ∧
      ∃ q, created.Quotas = some q ∧
        q.Name = bytesOf "accounts/" ++ bytesOf "acme-corp" ++ bytesOf "/quotas" :=
  (createAccount_sets_defaults noFaults noFaults_ok demoRuntime demoRuntime_marshalSucceeds
    demoNow (by decide) emptyWorld (bytesOf "acme-corp") (by decide) (by decide)).2
    demoCreateAccountRequest rfl (by decide)

theorem create_on_existing_name_witness :
    (∃ w1,
      CreateAccount noFaults demoRuntime demoLater demoCreateAccountRequest worldWithRoom
        = (Outcome.error errAlreadyExists, w1) ∧
      w1.tables = worldWithRoom.tables) ∧
    (∃ w1,
      CreateLocation noFaults demoRuntime demoLater demoCreateLocationRequest worldWithRoom
        = (Outcome.error errAlreadyExists, w1) ∧
      w1.tables = worldWithRoom.tables) ∧
    (∃ w1,
      CreateRoom noFaults demoLater demoCreateRoomRequest worldWithRoom
        = (Outcome.error errAlreadyExists, w1) ∧
      w1.tables = worldWithRoom.tables) ∧
    (∃ w1,
      storeCreateRoom noFaults demoLater
          { demoRoomUpdate with DisplayName := bytesOf "Room 101" } worldWithRoom
        = (Outcome.ok none, w1) ∧
      w1.tables = worldWithRoom.tables ∧
      w1.log = worldWithRoom.log
        ++ [roomSelect (bytesOf "acme-corp") (bytesOf "head-office") (bytesOf "room-101")]) ∧
    (∃ w1,
      CreateLocation noFaults demoRuntime demoNow demoCreateLocationRequest emptyWorld
        = (Outcome.error errNotFound, w1) ∧
      w1.tables = emptyWorld.tables) ∧
    ∃ w1,
      CreateRoom noFaults demoNow demoCreateRoomRequest worldWithAccount
        = (Outcome.error errNotFound, w1) ∧
      w1.tables = worldWithAccount.tables :=
  have h := create_on_existing_name noFaults noFaults_ok demoRuntime demoLater worldWithRoom
  ⟨h.2.2.2.1 demoCreateAccountRequest _ (by decide) rfl,
    h.2.2.2.2.1 demoCreateLocationRequest _ _ (bytesOf "acme-corp") (bytesOf "head-office") _
      (by decide) rfl rfl (by decide) rfl,
    h.2.2.2.2.2.1 demoCreateRoomRequest _ _ _ (by decide) rfl rfl rfl,
    h.2.2.1 { demoRoomUpdate with DisplayName := bytesOf "Room 101" } _ _ _ _ (by decide) rfl,
    (create_on_existing_name noFaults noFaults_ok demoRuntime demoNow
      emptyWorld).2.2.2.2.2.2.1 demoCreateLocationRequest (by decide) rfl,
    (create_on_existing_name noFaults noFaults_ok demoRuntime demoNow
      worldWithAccount).2.2.2.2.2.2.2 demoCreateRoomRequest (by decide) rfl⟩

theorem update_or_delete_on_absent_name_witness :
    ((∃ w1,
        DeleteAccount noFaults demoRuntime (bytesOf "accounts/acme-corp") emptyWorld
          = (Outcome.error errNotFound, w1) ∧
        w1.tables = emptyWorld.tables) ∧
      ∃ w1,
        UpdateAccount noFaults demoRuntime demoNow demoUpdateAccountRequest emptyWorld
          = (Outcome.error errNotFound, w1) ∧
        w1.tables = emptyWorld.tables) ∧
    ((∃ w1,
        DeleteLocation noFaults (bytesOf "accounts/acme-corp/locations/head-office")
            worldWithAccount
          = (Outcome.error errNotFound, w1) ∧
        w1.tables = worldWithAccount.tables) ∧
      ∃ w1,
        UpdateLocation noFaults demoRuntime demoLater
            { Location := some demoLocationUpdate, UpdateMask := none } worldWithAccount
          = (Outcome.error errNotFound, w1) ∧
        w1.tables = worldWithAccount.tables) ∧
    (∃ w1,
        DeleteRoom noFaults (bytesOf "accounts/acme-corp/locations/head-office/rooms/room-101")
            worldWithLocation
          = (Outcome.error errNotFound, w1) ∧
        w1.tables = worldWithLocation.tables) ∧
      ∃ w1,
        UpdateRoom noFaults demoRuntime demoLater
            { Room := some demoRoomUpdate, UpdateMask := none } worldWithLocation
          = (Outcome.error errNotFound, w1) ∧
        w1.tables = worldWithLocation.tables :=
  have ha := (update_or_delete_on_absent_name noFaults noFaults_ok demoRuntime demoNow
    emptyWorld).1 (bytesOf "accounts/acme-corp") (bytesOf "acme-corp") (by decide) (by decide)
  have hl := (update_or_delete_on_absent_name noFaults noFaults_ok demoRuntime demoLater
    worldWithAccount).2.1 (bytesOf "accounts/acme-corp/locations/head-office")
    (bytesOf "acme-corp") (bytesOf "head-office") (by decide) (by decide)
  have hr := (update_or_delete_on_absent_name noFaults noFaults_ok demoRuntime demoLater
    worldWithLocation).2.2 (bytesOf "accounts/acme-corp/locations/head-office/rooms/room-101")
    (bytesOf "acme-corp") (bytesOf "head-office") (bytesOf "room-101") (by decide) (by decide)
  ⟨⟨ha.2.2.2.2.1,
      ha.2.2.2.2.2.2.2 demoUpdateAccountRequest (by decide)
        (fun account h => by cases h; rfl)⟩,
    ⟨hl.2.2.1, hl.2.2.2 _ demoLocationUpdate (by decide) rfl rfl⟩,
    hr.2.2.1, hr.2.2.2 _ demoRoomUpdate (by decide) rfl rfl⟩

theorem repeated_transition_rejected_witness :
    SuspendAccount noFaults demoRuntime demoLater demoSuspendRequest worldSuspended
        = (Outcome.error
            (GoError.status Code.FailedPrecondition (bytesOf "account is already suspended") []),
          (storeGetAccount noFaults demoRuntime demoSuspendRequest.Name worldSuspended).2) ∧
      ActivateAccount noFaults demoRuntime demoLater (bytesOf "accounts/acme-corp")
          worldWithAccount
        = (Outcome.error
            (GoError.status Code.FailedPrecondition (bytesOf "account is already active") []),
          (storeGetAccount noFaults demoRuntime (bytesOf "accounts/acme-corp")
            worldWithAccount).2) ∧
      (storeGetAccount noFaults demoRuntime demoSuspendRequest.Name worldSuspended).2.tables
        = worldSuspended.tables :=
  ⟨(repeated_transition_rejected noFaults demoRuntime demoLater worldSuspended).1
      demoSuspendRequest
      { Name := bytesOf "accounts/acme-corp", Uid := bytesOf "1",
        SelfLink := bytesOf "//apis.chacerapp.com/accounts/acme-corp",
        CreateTime := some demoNow, UpdateTime := some demoLater, DisplayName := bytesOf "Acme",
        Status := some
          { Name := [], Phase := AccountPhase.ACCOUNT_PHASE_SUSPENDED,
            Reason := bytesOf "Billing", Message := bytesOf "unpaid" },
        Quotas := some
          { Name := bytesOf "accounts/acme-corp/quotas", Devices := 0, Locations := 0 } }
      { Name := [], Phase := AccountPhase.ACCOUNT_PHASE_SUSPENDED, Reason := bytesOf "Billing",
        Message := bytesOf "unpaid" }
      _ (by decide) (by decide) rfl rfl,
    (repeated_transition_rejected noFaults demoRuntime demoLater worldWithAccount).2.1
      (bytesOf "accounts/acme-corp")
      { Name := bytesOf "accounts/acme-corp", Uid := bytesOf "1",
        SelfLink := bytesOf "//apis.chacerapp.com/accounts/acme-corp",
        CreateTime := some demoNow, UpdateTime := none, DisplayName := bytesOf "Acme",
        Status := some
          { Name := [], Phase := AccountPhase.ACCOUNT_PHASE_ACTIVE, Reason := [],
            Message := [] },
        Quotas := some
          { Name := bytesOf "accounts/acme-corp/quotas", Devices := 0, Locations := 0 } }
      { Name := [], Phase := AccountPhase.ACCOUNT_PHASE_ACTIVE, Reason := [], Message := [] }
      _ (by decide) rfl rfl,
    ((repeated_transition_rejected noFaults demoRuntime demoLater worldSuspended).2.2
      demoSuspendRequest.Name _ _ rfl).1⟩

/-- C16, at failing inputs: when the `UPDATE` of `store.UpdateLocation` fails,
the store still returns the modified location with a nil error although the
tables are unchanged; when the lookup of `store.UpdateAccount` fails, the store
returns an absent account with a nil error and the handler answers `NotFound`;
when the transaction of `store.UpdateRoom` cannot begin, the store returns an
absent room with a nil error.  In none of the three is the persistence error
returned. -/
theorem update_swallows_persistence_error :
    (∃ updated w1,
      storeUpdateLocation (faultAt (worldWithLocation.calls + 2)) demoRuntime demoLater
          demoLocationUpdate none worldWithLocation = (Outcome.ok (some updated), w1) ∧
        updated.DisplayName = bytesOf "New" ∧ w1.tables = worldWithLocation.tables) ∧
    (∃ w1,
      storeUpdateAccount (faultAt (worldWithAccount.calls + 1)) demoRuntime demoLater
          { demoAccountPayload with Name := bytesOf "accounts/acme-corp",
                                    DisplayName := bytesOf "New" } worldWithAccount
        = (Outcome.ok none, w1)) ∧
    (∃ w1,
      UpdateAccount (faultAt (worldWithAccount.calls + 1)) demoRuntime demoLater
          demoUpdateAccountRequest worldWithAccount = (Outcome.error errNotFound, w1)) ∧
    (∃ w1,
      storeUpdateRoom (faultAt worldWithRoom.calls) demoRuntime demoLater demoRoomUpdate none
          worldWithRoom = (Outcome.ok none, w1)) := by
  refine ⟨⟨_, _, rfl, ?_, ?_⟩, ⟨_, rfl⟩, ⟨_, rfl⟩, ⟨_, rfl⟩⟩
  · decide
  · decide

/-- C18, at the failing input: deleting the stored account `accounts/acme-corp`
returns the account, but the `DELETE` is sent with the fully-qualified name
while the row holds the bare ID, so the row stays and a later get still
returns the account.  Deleting a stored location or room does remove the row. -/
theorem deleteAccount_leaves_row :
    (∃ account w1,
      DeleteAccount noFaults demoRuntime (bytesOf "accounts/acme-corp") worldWithAccount
        = (Outcome.ok account, w1) ∧
      w1.tables = worldWithAccount.tables ∧
      { text := accountDeleteQuery,
        args := [SqlValue.text (bytesOf "accounts/acme-corp")] } ∈ w1.log ∧
      (GetAccount noFaults demoRuntime (bytesOf "accounts/acme-corp") w1).1
        = Outcome.ok account) ∧
    (storeGetLocation noFaults (bytesOf "accounts/acme-corp/locations/head-office")
        (DeleteLocation noFaults (bytesOf "accounts/acme-corp/locations/head-office")
          worldWithLocation).2).1 = Outcome.ok none ∧
    (storeGetRoom noFaults (bytesOf "accounts/acme-corp/locations/head-office/rooms/room-101")
        (DeleteRoom noFaults (bytesOf "accounts/acme-corp/locations/head-office/rooms/room-101")
          worldWithRoom).2).1 = Outcome.ok none := by
  refine ⟨⟨_, _, rfl, ?_, ?_, ?_⟩, ?_, ?_⟩
  · decide
  · decide
  · decide
  · decide
  · decide

/-! ## Outcomes of the name parsers -/

theorem oddSegments_length (parts : List GoString) (n : Nat) :
    (oddSegments parts n).length = n := by
  simp [oddSegments]

theorem acceptedID_of_wellFormed (name : GoString) (cs : List GoString) (i : Nat)
    (hw : WellFormedName name cs) (hi : i < cs.length) :
    AcceptedID (((stringsSplitSlash name)[2 * i + 1]?).getD []) := by
  obtain ⟨_, r, hr, hacc⟩ := hw.2 i hi
  rw [hr]
  exact hacc

theorem isIDByte_of_accepted (r : GoString) (h : AcceptedID r) : ∀ b ∈ r, isIDByte b := by
  rcases h with h | h
  · subst h
    intro b hb
    have : b = 45 := by simpa [bytesOf] using hb
    exact Or.inr (Or.inr this)
  · rcases validResourceID_cases r with ⟨_, hg⟩ | ⟨hf, _⟩
    · exact hg.2.2.1
    · rw [hf] at h
      cases h

theorem parseAccount_cases (name : GoString) :
    (∃ parsed, ParseAccount name = Outcome.ok parsed ∧
        ParseRelativeName name [CollectionAccounts] = Outcome.ok [parsed] ∧
        WellFormedName name [CollectionAccounts] ∧ AcceptedID parsed) ∨
      (ParseAccount name = Outcome.error (invalidNameError [CollectionAccounts]) ∧
        ¬ WellFormedName name [CollectionAccounts]) := by
  rcases parseRelativeName_cases name [CollectionAccounts] with ⟨h, hw⟩ | ⟨h, hw⟩
  · left
    refine ⟨((stringsSplitSlash name)[2 * 0 + 1]?).getD [], ?_, ?_, hw,
      acceptedID_of_wellFormed name _ 0 hw (by simp)⟩
    · simp [ParseAccount, h, oddSegments, List.range_succ]
    · rw [h]
      simp [oddSegments, List.range_succ]
  · right
    exact ⟨by simp [ParseAccount, h], hw⟩

theorem parseLocation_cases (name : GoString) :
    (∃ a l, ParseLocation name = Outcome.ok (a, l) ∧
        ParseRelativeName name [CollectionAccounts, CollectionLocations] = Outcome.ok [a, l] ∧
        WellFormedName name [CollectionAccounts, CollectionLocations] ∧
        AcceptedID a ∧ AcceptedID l) ∨
      (ParseLocation name
          = Outcome.error (invalidNameError [CollectionAccounts, CollectionLocations]) ∧
        ¬ WellFormedName name [CollectionAccounts, CollectionLocations]) := by
  rcases parseRelativeName_cases name [CollectionAccounts, CollectionLocations] with
    ⟨h, hw⟩ | ⟨h, hw⟩
  · left
    refine ⟨((stringsSplitSlash name)[2 * 0 + 1]?).getD [],
      ((stringsSplitSlash name)[2 * 1 + 1]?).getD [], ?_, ?_, hw,
      acceptedID_of_wellFormed name _ 0 hw (by simp),
      acceptedID_of_wellFormed name _ 1 hw (by simp)⟩
    · simp [ParseLocation, h, oddSegments, List.range_succ]
    · rw [h]
      simp [oddSegments, List.range_succ]
  · right
    exact ⟨by simp [ParseLocation, h], hw⟩

theorem parseRoom_cases (name : GoString) :
    (∃ a l r, ParseRoom name = Outcome.ok (a, l, r) ∧
        ParseRelativeName name [CollectionAccounts, CollectionLocations, CollectionRooms]
          = Outcome.ok [a, l, r] ∧
        WellFormedName name [CollectionAccounts, CollectionLocations, CollectionRooms] ∧
        AcceptedID a ∧ AcceptedID l ∧ AcceptedID r) ∨
      (ParseRoom name
          = Outcome.error
              (invalidNameError [CollectionAccounts, CollectionLocations, CollectionRooms]) ∧
        ¬ WellFormedName name [CollectionAccounts, CollectionLocations, CollectionRooms]) := by
  rcases parseRelativeName_cases name
      [CollectionAccounts, CollectionLocations, CollectionRooms] with ⟨h, hw⟩ | ⟨h, hw⟩
  · left
    refine ⟨((stringsSplitSlash name)[2 * 0 + 1]?).getD [],
      ((stringsSplitSlash name)[2 * 1 + 1]?).getD [],
      ((stringsSplitSlash name)[2 * 2 + 1]?).getD [], ?_, ?_, hw,
      acceptedID_of_wellFormed name _ 0 hw (by simp),
      acceptedID_of_wellFormed name _ 1 hw (by simp),
      acceptedID_of_wellFormed name _ 2 hw (by simp)⟩
    · simp [ParseRoom, h, oddSegments, List.range_succ]
    · rw [h]
      simp [oddSegments, List.range_succ]
  · right
    exact ⟨by simp [ParseRoom, h], hw⟩

theorem invalidNameError_isInvalidArgument (cs : List GoString) :
    IsInvalidArgument (invalidNameError cs) :=
  ⟨_, _, rfl⟩

/-- C27: `ValidResourceID` returns a boolean for every string, never indexing
out of range: the empty string and every string whose first byte is outside
`[a-z0-9]` give `false`, and the loop, entered only when the first byte is not
a hyphen, reads `id[i-1]` at no index `i = 0` and so returns a boolean
too. -/
theorem validResourceID_never_out_of_range (id : GoString) :
    (ValidResourceID id = Outcome.ok true ∨ ValidResourceID id = Outcome.ok false) ∧
      ValidResourceID id ≠ Outcome.panic ∧
      ValidResourceID [] = Outcome.ok false ∧
      (∀ (c : Nat) (rest : GoString), id = c :: rest →
        ¬ ((97 ≤ c ∧ c ≤ 122) ∨ (48 ≤ c ∧ c ≤ 57)) → ValidResourceID id = Outcome.ok false) ∧
      (id[0]? ≠ some hyphen →
        validResourceIDLoop id id.length 0 = Outcome.ok true ∨
          validResourceIDLoop id id.length 0 = Outcome.ok false) := by
  have htot : ValidResourceID id = Outcome.ok true ∨ ValidResourceID id = Outcome.ok false := by
    rcases validResourceID_cases id with ⟨h, _⟩ | ⟨h, _⟩
    · exact Or.inl h
    · exact Or.inr h
  refine ⟨htot, ?_, by decide, ?_, ?_⟩
  · rcases htot with h | h <;> rw [h] <;> simp
  · intro c rest hid hc
    rcases validResourceID_cases id with ⟨_, hg⟩ | ⟨h, _⟩
    · exfalso
      obtain ⟨_, _, hall, hhead, _, _⟩ := hg
      subst hid
      rcases hall c (List.mem_cons_self c rest) with h | h | h
      · exact hc (Or.inl h)
      · exact hc (Or.inr h)
      · exact hhead (by simp [h])
    · exact h
  · intro h0
    rcases validResourceIDLoop_spec id id.length 0 (by omega) (fun _ => h0) with
      ⟨h, _⟩ | ⟨h, _⟩
    · exact Or.inl h
    · exact Or.inr h

theorem validResourceID_never_out_of_range_witness :
    ValidResourceID (bytesOf "_acme") = Outcome.ok false ∧
      (validResourceIDLoop (bytesOf "ac--me") (bytesOf "ac--me").length 0 = Outcome.ok true ∨
        validResourceIDLoop (bytesOf "ac--me") (bytesOf "ac--me").length 0 = Outcome.ok false) :=
  ⟨(validResourceID_never_out_of_range (bytesOf "_acme")).2.2.2.1 95 (bytesOf "acme")
      (by decide) (by decide),
    (validResourceID_never_out_of_range (bytesOf "ac--me")).2.2.2.2 (by decide)⟩

/-! ## `validateSuspendAccount` -/

/-- The violations `validateSuspendAccount` collects. -/
theorem validateSuspendAccount_eq (req : SuspendAccountRequest) :
    ∃ errs, validateSuspendAccount req = Outcome.ok (convertErrorList errs) ∧
      errs.map (fun e => e.Field) = suspendViolationFields req ∧ ValidViolations errs := by
  have hreason : (validAccountSuspendedReasons.any (fun r => decide (req.Reason = r))) = true ↔
      (req.Reason = bytesOf "Billing" ∨ req.Reason = bytesOf "Fraud") := by
    simp [validAccountSuspendedReasons]
  have hreason2 : ¬ (req.Reason = bytesOf "Billing" ∨ req.Reason = bytesOf "Fraud") →
      (validAccountSuspendedReasons.any (fun r => decide (req.Reason = r))) = false := by
    intro hr
    cases hany : validAccountSuspendedReasons.any (fun r => decide (req.Reason = r)) with
    | false => rfl
    | true => exact absurd (hreason.mp hany) hr
  rcases parseAccount_cases req.Name with ⟨parsed, hp, _, _, _⟩ | ⟨hp, _⟩
  · by_cases hr : req.Reason = bytesOf "Billing" ∨ req.Reason = bytesOf "Fraud"
    · have hr1 := hreason.mpr hr
      by_cases hm : req.Message.length ≤ 1024
      · have hm1 : ¬ req.Message.length > 1024 := by omega
        exact ⟨_, by simp only [validateSuspendAccount, hp, hr1, hm1]; rfl,
          by simp [suspendViolationFields, hp, hr, hm],
          by intro e he; simp at he⟩
      · have hm1 : req.Message.length > 1024 := by omega
        exact ⟨_, by simp only [validateSuspendAccount, hp, hr1, hm1]; rfl,
          by simp [suspendViolationFields, hp, hr, hm],
          by intro e he; simp at he; obtain rfl | rfl | rfl := he; all_goals decide⟩
    · have hr1 := hreason2 hr
      by_cases hm : req.Message.length ≤ 1024
      · have hm1 : ¬ req.Message.length > 1024 := by omega
        exact ⟨_, by simp only [validateSuspendAccount, hp, hr1, hm1]; rfl,
          by simp [suspendViolationFields, hp, hr, hm],
          by intro e he; simp at he; obtain rfl | rfl | rfl := he; all_goals decide⟩
      · have hm1 : req.Message.length > 1024 := by omega
        exact ⟨_, by simp only [validateSuspendAccount, hp, hr1, hm1]; rfl,
          by simp [suspendViolationFields, hp, hr, hm],
          by intro e he; simp at he; obtain rfl | rfl | rfl := he; all_goals decide⟩
  · have hpe : ParseAccount req.Name
        = Outcome.error (GoError.status Code.InvalidArgument
            (bytesOf "a valid name will be in the format of \x60"
              ++ stringsJoin [CollectionAccounts] (bytesOf "/*/") ++ bytesOf "/*\x60") []) := hp
    by_cases hr : req.Reason = bytesOf "Billing" ∨ req.Reason = bytesOf "Fraud"
    · have hr1 := hreason.mpr hr
      by_cases hm : req.Message.length ≤ 1024
      · have hm1 : ¬ req.Message.length > 1024 := by omega
        exact ⟨_, by simp only [validateSuspendAccount, hpe, hr1, hm1]; rfl,
          by simp [suspendViolationFields, hp, hr, hm],
          by intro e he; simp at he; obtain rfl | rfl | rfl := he; all_goals decide⟩
      · have hm1 : req.Message.length > 1024 := by omega
        exact ⟨_, by simp only [validateSuspendAccount, hpe, hr1, hm1]; rfl,
          by simp [suspendViolationFields, hp, hr, hm],
          by intro e he; simp at he; obtain rfl | rfl | rfl := he; all_goals decide⟩
    · have hr1 := hreason2 hr
      by_cases hm : req.Message.length ≤ 1024
      · have hm1 : ¬ req.Message.length > 1024 := by omega
        exact ⟨_, by simp only [validateSuspendAccount, hpe, hr1, hm1]; rfl,
          by simp [suspendViolationFields, hp, hr, hm],
          by intro e he; simp at he; obtain rfl | rfl | rfl := he; all_goals decide⟩
      · have hm1 : req.Message.length > 1024 := by omega
        exact ⟨_, by simp only [validateSuspendAccount, hpe, hr1, hm1]; rfl,
          by simp [suspendViolationFields, hp, hr, hm],
          by intro e he; simp at he; obtain rfl | rfl | rfl := he; all_goals decide⟩

theorem suspendViolationFields_eq_nil_iff (req : SuspendAccountRequest) :
    suspendViolationFields req = [] ↔
      (∃ parsed, ParseAccount req.Name = Outcome.ok parsed) ∧
        (req.Reason = bytesOf "Billing" ∨ req.Reason = bytesOf "Fraud") ∧
        req.Message.length ≤ 1024 := by
  unfold suspendViolationFields
  rcases parseAccount_cases req.Name with ⟨parsed, hp, _, _, _⟩ | ⟨hp, _⟩
  · by_cases hr : req.Reason = bytesOf "Billing" ∨ req.Reason = bytesOf "Fraud" <;>
      by_cases hm : req.Message.length ≤ 1024 <;> simp [hp, hr, hm]
  · by_cases hr : req.Reason = bytesOf "Billing" ∨ req.Reason = bytesOf "Fraud" <;>
      by_cases hm : req.Message.length ≤ 1024 <;> simp [hp, hr, hm]

/-- C25: `validateSuspendAccount` returns no error exactly when the name parses
as an account name, the reason is `Billing` or `Fraud` and the message has at
most 1024 bytes; otherwise it returns one `InvalidArgument` error whose
violations name every failed check, in the order `name`, `reason`,
`message`. -/
theorem validateSuspendAccount_reports_every_failure (req : SuspendAccountRequest) :
    (validateSuspendAccount req = Outcome.ok none ↔
        (∃ parsed, ParseAccount req.Name = Outcome.ok parsed) ∧
          (req.Reason = bytesOf "Billing" ∨ req.Reason = bytesOf "Fraud") ∧
          req.Message.length ≤ 1024) ∧
      (validateSuspendAccount req ≠ Outcome.ok none →
        ∃ details,
          validateSuspendAccount req
            = Outcome.ok (some
                (GoError.status Code.InvalidArgument (bytesOf "invalid argument") details)) ∧
          details.map (fun v => v.field) = suspendViolationFields req) := by
  obtain ⟨errs, hv, hf, hvalid⟩ := validateSuspendAccount_eq req
  have hnil : errs = [] ↔ suspendViolationFields req = [] := by
    rw [← hf]
    simp
  constructor
  · rw [hv, ← suspendViolationFields_eq_nil_iff, ← hnil, ← convertErrorList_eq_none_iff]
    constructor
    · intro h
      injection h
    · intro h
      rw [h]
  · intro hne
    have herrs : errs ≠ [] := by
      intro h
      apply hne
      rw [hv, (convertErrorList_eq_none_iff errs).mpr h]
    refine ⟨_, by rw [hv, convertErrorList_of_ne_nil errs herrs hvalid], ?_⟩
    rw [← hf]
    simp [List.map_map, Function.comp]

theorem validateSuspendAccount_reports_every_failure_witness :
    ∃ details,
      validateSuspendAccount
          { Name := bytesOf "acme-corp", Reason := bytesOf "Spite",
            Message := List.replicate 1025 97 }
        = Outcome.ok (some
            (GoError.status Code.InvalidArgument (bytesOf "invalid argument") details)) ∧
      details.map (fun v => v.field)
        = suspendViolationFields
            { Name := bytesOf "acme-corp", Reason := bytesOf "Spite",
              Message := List.replicate 1025 97 } :=
  (validateSuspendAccount_reports_every_failure
    { Name := bytesOf "acme-corp", Reason := bytesOf "Spite",
      Message := List.replicate 1025 97 }).2
    (fun h =>
      absurd
        ((validateSuspendAccount_reports_every_failure
          { Name := bytesOf "acme-corp", Reason := bytesOf "Spite",
            Message := List.replicate 1025 97 }).1.mp h).2.1
        (by decide))

/-! ## The account name interpolated by `store.ListLocations` -/

/-- C29: for every parent, `store.ListLocations` either returns the
`InvalidArgument` error of the name parser without calling the database, or
sends one query in which the interpolated account name, if any, is the parsed
account ID, whose bytes are all in `[a-z0-9-]` and so include no quote. -/
theorem listLocations_interpolates_id_bytes_only (parent : GoString)
    (opts : List (listOptions → listOptions)) :
    (∃ accountName, ParseAccount parent = Outcome.ok accountName ∧
        (∀ b ∈ accountName, isIDByte b) ∧ singleQuote ∉ accountName ∧
        ∀ (Row : Type) (db : Database Row),
          storeListLocations db parent opts
            = db (paginateQuery
                ((if accountName ≠ bytesOf "-" then
                    locationSelectBaseQuery ++ (bytesOf " WHERE account = " ++ [singleQuote]
                      ++ accountName ++ [singleQuote, 32])
                  else locationSelectBaseQuery) ++ bytesOf " ORDER BY account, name")
                (getListOptions opts).pageInfo (getListOptions opts).pageSize) []) ∨
      (∃ e, IsInvalidArgument e ∧
        ∀ (Row : Type) (db : Database Row), storeListLocations db parent opts = Outcome.error e) := by
  rcases parseAccount_cases parent with ⟨parsed, hp, _, _, hacc⟩ | ⟨hp, _⟩
  · left
    have hbytes := isIDByte_of_accepted parsed hacc
    refine ⟨parsed, hp, hbytes, ?_, ?_⟩
    · intro hq
      rcases hbytes _ hq with h | h | h
      · simp [singleQuote] at h
      · simp [singleQuote] at h
      · simp [singleQuote, hyphen] at h
    · intro Row db
      simp only [storeListLocations, hp]
  · right
    refine ⟨invalidNameError [CollectionAccounts], invalidNameError_isInvalidArgument _, ?_⟩
    intro Row db
    simp only [storeListLocations, hp]

/-! ## `slugify` -/

/-- No two neighbours of the list are both hyphens. -/
theorem noDoubleHyphen_of_chain (l : GoString)
    (h : List.Chain' (fun a b => ¬ (a = hyphen ∧ b = hyphen)) l) :
    ∀ i, ¬ (l[i]? = some hyphen ∧ l[i + 1]? = some hyphen) := by
  induction l with
  | nil => intro i hi; simp at hi
  | cons x rest ih =>
    intro i hi
    cases rest with
    | nil => simp at hi
    | cons y t =>
      rw [List.chain'_cons] at h
      cases i with
      | zero =>
        simp at hi
        exact h.1 ⟨hi.1, hi.2⟩
      | succ k =>
        apply ih h.2 k
        simpa using hi

theorem slugifyStep_eq (out : GoString) (flag : Bool) (c : Nat) :
    slugifyStep (out, flag) c
      = if (97 ≤ c ∧ c ≤ 122) ∨ (48 ≤ c ∧ c ≤ 57) then (out ++ [c], false)
        else if (c = 45 ∨ c = 32) ∧ flag = false then (out ++ [45], true)
        else (out, flag) := by
  have hb : bytesOf "-" = [45] := by decide
  unfold slugifyStep
  by_cases h1 : 97 ≤ c ∧ c ≤ 122
  · have h2 : ¬ (c ≥ 48 ∧ c ≤ 57) := by omega
    have h3 : c ≠ 45 := by omega
    have h4 : c ≠ 32 := by omega
    simp [h1, h2, h3, h4]
  · by_cases h2 : 48 ≤ c ∧ c ≤ 57
    · have h3 : c ≠ 45 := by omega
      have h4 : c ≠ 32 := by omega
      have h1' : ¬ (c ≥ 97 ∧ c ≤ 122) := h1
      simp [h1', h2, h3, h4]
    · have h1' : ¬ (c ≥ 97 ∧ c ≤ 122) := h1
      have h2' : ¬ (c ≥ 48 ∧ c ≤ 57) := h2
      by_cases h3 : c = 45
      · subst h3
        cases flag <;> simp
      · by_cases h4 : c = 32
        · subst h4
          cases flag <;> simp [hb]
        · simp [h1', h2', h3, h4, h1, h2]

/-- What the loop of `slugify` keeps true of `(slugified, addedHyphen)`. -/
theorem slugifyStep_invariant (out : GoString) (flag : Bool) (c : Nat)
    (h1 : ∀ b ∈ out, isIDByte b)
    (h2 : List.Chain' (fun a b => ¬ (a = hyphen ∧ b = hyphen)) out)
    (h3 : out.getLast? = some hyphen → flag = true) :
    (∀ b ∈ (slugifyStep (out, flag) c).1, isIDByte b) ∧
      List.Chain' (fun a b => ¬ (a = hyphen ∧ b = hyphen)) (slugifyStep (out, flag) c).1 ∧
      ((slugifyStep (out, flag) c).1.getLast? = some hyphen →
        (slugifyStep (out, flag) c).2 = true) := by
  rw [slugifyStep_eq]
  by_cases ha : (97 ≤ c ∧ c ≤ 122) ∨ (48 ≤ c ∧ c ≤ 57)
  · have hne : c ≠ hyphen := by unfold hyphen; omega
    simp only [ha, if_true]
    refine ⟨?_, ?_, ?_⟩
    · intro b hb
      rcases List.mem_append.mp hb with hb | hb
      · exact h1 b hb
      · have : b = c := by simpa using hb
        subst this
        rcases ha with ha | ha
        · exact Or.inl ha
        · exact Or.inr (Or.inl ha)
    · rw [List.chain'_append]
      refine ⟨h2, List.chain'_singleton c, ?_⟩
      intro x _ y hy hxy
      have : y = c := by simpa using hy.symm
      exact hne (this ▸ hxy.2)
    · intro hlast
      simp at hlast
      exact absurd hlast hne
  · simp only [ha, if_false]
    by_cases hh : (c = 45 ∨ c = 32) ∧ flag = false
    · simp only [hh, and_self, if_true]
      refine ⟨?_, ?_, fun _ => trivial⟩
      · intro b hb
        rcases List.mem_append.mp hb with hb | hb
        · exact h1 b hb
        · have : b = 45 := by simpa using hb
          exact Or.inr (Or.inr this)
      · rw [List.chain'_append]
        refine ⟨h2, List.chain'_singleton 45, ?_⟩
        intro x hx y _ hxy
        have hlast : out.getLast? = some hyphen := by
          have : x = hyphen := hxy.1
          rw [← this]
          exact hx
        have := h3 hlast
        rw [hh.2] at this
        cases this
    · simp only [hh, if_false]
      exact ⟨h1, h2, h3⟩

theorem slugify_foldl_invariant (runes : List Nat) :
    ∀ (out : GoString) (flag : Bool), (∀ b ∈ out, isIDByte b) →
      List.Chain' (fun a b => ¬ (a = hyphen ∧ b = hyphen)) out →
      (out.getLast? = some hyphen → flag = true) →
      (∀ b ∈ (runes.foldl slugifyStep (out, flag)).1, isIDByte b) ∧
        List.Chain' (fun a b => ¬ (a = hyphen ∧ b = hyphen))
          (runes.foldl slugifyStep (out, flag)).1 := by
  induction runes with
  | nil => intro out flag h1 h2 _; exact ⟨h1, h2⟩
  | cons c rest ih =>
    intro out flag h1 h2 h3
    obtain ⟨g1, g2, g3⟩ := slugifyStep_invariant out flag c h1 h2 h3
    rw [List.foldl_cons]
    exact ih (slugifyStep (out, flag) c).1 (slugifyStep (out, flag) c).2 g1 g2 g3

theorem decodeRunes_ascii (t : GoString) :
    ∀ fuel, t.length ≤ fuel → (∀ b ∈ t, b < 128) → decodeRunes fuel t = t := by
  induction t with
  | nil => intro fuel _ _; cases fuel <;> rfl
  | cons b rest ih =>
    intro fuel hlen hall
    cases fuel with
    | zero => simp at hlen
    | succ fuel =>
      have hb : b < 128 := hall b (List.mem_cons_self b rest)
      have hd : decodeRune (b :: rest) = (b, 1) := by simp [decodeRune, hb]
      simp only [decodeRunes, hd, List.drop_succ_cons, List.drop_zero]
      rw [ih fuel (by simpa using hlen) (fun x hx => hall x (List.mem_cons_of_mem b hx))]

theorem lowerRune_idByte (J : Runtime) (b : Nat) (h : isIDByte b) : lowerRune J b = b := by
  unfold lowerRune
  rcases h with h | h | h
  · have h1 : b < 128 := by omega
    have h2 : ¬ (65 ≤ b ∧ b ≤ 90) := by omega
    simp [h1, h2]
  · have h1 : b < 128 := by omega
    have h2 : ¬ (65 ≤ b ∧ b ≤ 90) := by omega
    simp [h1, h2]
  · subst h
    simp [hyphen]

theorem slugify_foldl_fixed (t : GoString) :
    ∀ (out : GoString) (flag : Bool), (∀ b ∈ t, isIDByte b) →
      List.Chain' (fun a b => ¬ (a = hyphen ∧ b = hyphen)) t →
      (flag = true → t.head? ≠ some hyphen) →
      (t.foldl slugifyStep (out, flag)).1 = out ++ t := by
  induction t with
  | nil => intro out flag _ _ _; simp
  | cons c rest ih =>
    intro out flag h1 h2 h3
    have hc : isIDByte c := h1 c (List.mem_cons_self c rest)
    have hrest : ∀ b ∈ rest, isIDByte b := fun b hb => h1 b (List.mem_cons_of_mem c hb)
    have hchain : List.Chain' (fun a b => ¬ (a = hyphen ∧ b = hyphen)) rest := h2.tail
    rw [List.foldl_cons, slugifyStep_eq]
    by_cases ha : (97 ≤ c ∧ c ≤ 122) ∨ (48 ≤ c ∧ c ≤ 57)
    · simp only [ha, if_true]
      rw [ih (out ++ [c]) false hrest hchain (fun h => by cases h)]
      simp
    · have hch : c = 45 := by
        rcases hc with h | h | h
        · exact absurd (Or.inl h) ha
        · exact absurd (Or.inr h) ha
        · exact h
      subst hch
      have hflag : flag = false := by
        cases flag with
        | false => rfl
        | true => exact absurd (by simp [hyphen]) (h3 rfl)
      subst hflag
      have hhead : rest.head? ≠ some hyphen := by
        intro hh
        cases rest with
        | nil => simp at hh
        | cons y t =>
          rw [List.chain'_cons] at h2
          simp at hh
          exact h2.1 ⟨rfl, hh⟩
      simp only [ha, if_false]
      simp only [true_or, and_self, if_true]
      rw [ih (out ++ [45]) true hrest hchain (fun _ => hhead)]
      simp

/-- C30: for every input, the slug has only bytes in `[a-z0-9-]`, has no two
consecutive hyphens, and is a fixed point of `slugify`. -/
theorem slugify_idempotent_slug (J : Runtime) (s : GoString) :
    (∀ b ∈ slugify J s, isIDByte b) ∧
      (∀ i, ¬ ((slugify J s)[i]? = some hyphen ∧ (slugify J s)[i + 1]? = some hyphen)) ∧
      slugify J (slugify J s) = slugify J s := by
  obtain ⟨h1, h2⟩ := slugify_foldl_invariant ((decodeRunes s.length s).map (lowerRune J)) [] false
    (by simp) List.chain'_nil (by simp)
  have e : (((decodeRunes s.length s).map (lowerRune J)).foldl slugifyStep ([], false)).1
      = slugify J s := rfl
  rw [e] at h1 h2
  refine ⟨h1, noDoubleHyphen_of_chain _ h2, ?_⟩
  have hascii : ∀ b ∈ slugify J s, b < 128 := by
    intro b hb
    rcases h1 b hb with h | h | h
    · omega
    · omega
    · rw [h]; decide
  have hlow : (slugify J s).map (lowerRune J) = slugify J s := by
    conv_rhs => rw [← List.map_id (slugify J s)]
    exact List.map_congr_left (fun b hb => lowerRune_idByte J b (h1 b hb))
  have e2 : slugify J (slugify J s)
      = (((decodeRunes (slugify J s).length (slugify J s)).map (lowerRune J)).foldl
          slugifyStep ([], false)).1 := rfl
  rw [e2, decodeRunes_ascii _ _ (le_refl _) hascii, hlow,
    slugify_foldl_fixed _ [] false h1 h2 (fun h => by cases h)]
  simp

/-! ## A page token that fails to decode -/

/-- C28, as stated, fails: the token of `demoGarbageTokenRequest` fails to
decode with a status error, and the violations returned are not only the
`page_token` violation and the one for the non-empty parent: the `page_size`
violation (the request asks for 501 rows) comes first. -/
theorem undecodable_token_with_bad_page_size :
    ParsePageToken demoLibrary demoSecret demoGarbageTokenRequest.PageToken
        = Outcome.error invalidPageTokenError ∧
      validatePageableRequest demoLibrary demoSecret demoGarbageTokenRequest
        ≠ Outcome.error
            (GoError.status Code.InvalidArgument (bytesOf "invalid argument")
              ((staleTokenViolations demoGarbageTokenRequest
                (bytesOf "invalid page_token provided")).map toFieldViolation)) ∧
      validatePageableRequest demoLibrary demoSecret demoGarbageTokenRequest
        = Outcome.error
            (GoError.status Code.InvalidArgument (bytesOf "invalid argument")
              [{ field := bytesOf "page_size",
                 description := bytesOf "page_size must be between 0 and 500 inclusive" },
               { field := bytesOf "page_token",
                 description := bytesOf "invalid page_token provided" },
               { field := bytesOf "parent",
                 description := bytesOf "parent must not be changed during pagination query" }]) := by
  refine ⟨by decide, by decide, by decide⟩

/-- C28, amended: for a pageable request whose non-empty page token fails to
decode with a gRPC status error, `validatePageableRequest` returns an
`InvalidArgument` error whose violations are, after the `page_size` violation
when the page size is outside `[0, 500]`, the `page_token` violation carrying
the message of the status and one "must not be changed" violation for each of
parent, filter and order that is not empty in the request. -/
theorem undecodable_token_violations (L : Library) (secret : GoString) (req : PageableRequest)
    (code : Code) (message : GoString) (details : List FieldViolation)
    (htok : req.PageToken ≠ [])
    (hp : ParsePageToken L secret req.PageToken
      = Outcome.error (GoError.status code message details)) :
    validatePageableRequest L secret req
      = Outcome.error
          (GoError.status Code.InvalidArgument (bytesOf "invalid argument")
            ((pageSizeViolations req ++ staleTokenViolations req message).map
              toFieldViolation)) := by
  have hst := parsePageToken_status L secret req.PageToken code message details hp
  simp only [invalidPageTokenError, GoError.status.injEq] at hst
  have hvm : utf8Valid message = true := by
    rw [hst.2.1]
    decide
  have hvalid : ValidViolations (pageSizeViolations req ++ staleTokenViolations req message) := by
    intro e he
    unfold pageSizeViolations staleTokenViolations at he
    simp only [List.mem_append, List.mem_singleton] at he
    rcases he with he | (((he | he) | he) | he)
    · split at he <;> simp at he
      subst he
      decide
    · subst he
      constructor
      · show utf8Valid (bytesOf "page_token") = true
        decide
      · exact hvm
    · split at he <;> simp at he
      subst he
      decide
    · split at he <;> simp at he
      subst he
      decide
    · split at he <;> simp at he
      subst he
      decide
  have hne : pageSizeViolations req ++ staleTokenViolations req message ≠ [] := by
    simp [staleTokenViolations]
  have key : validatePageableRequest L secret req
      = match convertErrorList (pageSizeViolations req ++ staleTokenViolations req message) with
        | some e => Outcome.error e
        | none => Outcome.ok { RequestKey := [], EndCursor := [], Filter := [], Order := [] } := by
    unfold validatePageableRequest pageSizeViolations staleTokenViolations
    simp only [htok, if_false, hp]
    by_cases h0 : req.PageSize > maxGlobalPageSize ∨ req.PageSize < 0 <;>
      by_cases h1 : req.Parent.getD [] = [] <;>
      by_cases h2 : req.Filter.getD [] = [] <;>
      by_cases h3 : req.Order.getD [] = [] <;>
      simp [h0, h1, h2, h3, Ne.symm, eq_comm]
  rw [key, convertErrorList_of_ne_nil _ hne hvalid]
  rfl

theorem undecodable_token_violations_witness :
    validatePageableRequest demoLibrary demoSecret
        { demoGarbageTokenRequest with PageSize := 10 }
      = Outcome.error
          (GoError.status Code.InvalidArgument (bytesOf "invalid argument")
            ((pageSizeViolations { demoGarbageTokenRequest with PageSize := 10 }
              ++ staleTokenViolations { demoGarbageTokenRequest with PageSize := 10 }
                (bytesOf "invalid page_token provided")).map toFieldViolation)) :=
  undecodable_token_violations demoLibrary demoSecret
    { demoGarbageTokenRequest with PageSize := 10 } Code.InvalidArgument
    (bytesOf "invalid page_token provided") [] (by decide) (by decide)

/-! ## Length limits and the default page size, on concrete requests -/

theorem convertErrorList_mem (errs : List FieldError) (e : FieldError) (h : e ∈ errs)
    (hvalid : ValidViolations errs) :
    ∃ details,
      convertErrorList errs
        = some (GoError.status Code.InvalidArgument (bytesOf "invalid argument") details) ∧
      ∃ v ∈ details, v.field = e.Field := by
  have hne : errs ≠ [] := List.ne_nil_of_mem h
  exact ⟨_, convertErrorList_of_ne_nil errs hne hvalid, _, List.mem_map.mpr ⟨e, h, rfl⟩, rfl⟩

/-- The length checks that request validation does make: a display name of
more than 255 bytes on an account (create and update) or on a room (create and
update), and a description of more than 255 bytes on a room or a location,
give an `InvalidArgument` error with a violation for that field. -/
theorem length_limits_checked :
    (∀ (account : Account) (creating : Bool), 255 < account.DisplayName.length →
      ∃ errs, validateAccount (some account) creating = Outcome.ok errs ∧
        ∃ e ∈ errs, e.Field = bytesOf "account.displayName") ∧
    (∀ (room : Room) (create : Bool), 255 < room.DisplayName.length →
      ∃ details,
        validateRoom (some room) create
          = Outcome.ok (some
              (GoError.status Code.InvalidArgument (bytesOf "invalid argument") details)) ∧
        ∃ v ∈ details, v.field = bytesOf "room.displayName") ∧
    (∀ (room : Room) (create : Bool), 255 < room.Description.length →
      ∃ details,
        validateRoom (some room) create
          = Outcome.ok (some
              (GoError.status Code.InvalidArgument (bytesOf "invalid argument") details)) ∧
        ∃ v ∈ details, v.field = bytesOf "room.description") ∧
    (∀ location : Location, 255 < location.Description.length →
      ∃ details,
        validateCreateLocation (some location)
          = some (GoError.status Code.InvalidArgument (bytesOf "invalid argument") details) ∧
        ∃ v ∈ details, v.field = bytesOf "location.description") := by
  have hroom : ∀ (room : Room) (create : Bool) (e : FieldError),
      e ∈ validateLabels (bytesOf "room") ++ validateAnnotations (bytesOf "room")
        ++ validateDisplayName (bytesOf "room") room.DisplayName
        ++ validateDescription (bytesOf "room") room.Description →
      ∃ details,
        validateRoom (some room) create
          = Outcome.ok (some
              (GoError.status Code.InvalidArgument (bytesOf "invalid argument") details)) ∧
        ∃ v ∈ details, v.field = e.Field := by
    intro room create e he
    cases create with
    | true =>
      obtain ⟨details, hd, hv⟩ := convertErrorList_mem _ e he (roomViolations_valid _ _)
      exact ⟨details, by simp only [validateRoom, Bool.not_true, Bool.false_eq_true, if_false, hd],
        hv⟩
    | false =>
      by_cases hn : room.Name = []
      · obtain ⟨details, hd, hv⟩ := convertErrorList_mem _ e
          (List.mem_append_left
            [{ Field := bytesOf "room" ++ bytesOf ".name", Detail := bytesOf "name is required" }]
            he)
          (validViolations_append _ _ (roomViolations_valid _ _)
            (validViolations_singleton _ (by decide) (by decide)))
        exact ⟨details, by simp only [validateRoom, Bool.not_false, if_true, hn, hd], hv⟩
      · rcases parseRoom_cases room.Name with ⟨a, l, r, hp, _⟩ | ⟨hp, _⟩
        · obtain ⟨details, hd, hv⟩ := convertErrorList_mem _ e he (roomViolations_valid _ _)
          exact ⟨details, by simp only [validateRoom, Bool.not_false, if_true, hn, if_false, hp, hd],
            hv⟩
        · obtain ⟨details, hd, hv⟩ := convertErrorList_mem _ e
            (List.mem_append_left
              [{ Field := bytesOf "room" ++ bytesOf ".name",
                 Detail := errorText
                   (invalidNameError
                     [CollectionAccounts, CollectionLocations, CollectionRooms]) }]
              he)
            (validViolations_append _ _ (roomViolations_valid _ _)
              (validViolations_singleton _ (by decide) invalidNameError_text_valid.2.2))
          exact ⟨details, by simp only [validateRoom, Bool.not_false, if_true, hn, if_false, hp, hd],
            hv⟩
  refine ⟨?_, ?_, ?_, ?_⟩
  · intro account creating hlen
    have hmem : FieldError.mk (bytesOf "account" ++ bytesOf ".displayName")
          (bytesOf "display name must not be longer than 255 characters")
        ∈ validateLabels (bytesOf "account") ++ validateAnnotations (bytesOf "account")
          ++ validateDisplayName (bytesOf "account") account.DisplayName := by
      simp [validateDisplayName, hlen, validateLabels, validateAnnotations]
    have hf : bytesOf "account" ++ bytesOf ".displayName" = bytesOf "account.displayName" := by
      decide
    cases creating with
    | true =>
      exact ⟨_, by simp only [validateAccount, Bool.not_true, Bool.false_eq_true, if_false],
        _, hmem, hf⟩
    | false =>
      by_cases hn : account.Name = []
      · exact ⟨_, by simp only [validateAccount, Bool.not_false, if_true, hn],
          _, List.mem_append_left
            [{ Field := bytesOf "account" ++ bytesOf ".name",
               Detail := bytesOf "name is required" }] hmem, hf⟩
      · rcases parseAccount_cases account.Name with ⟨p, hp, _⟩ | ⟨hp, _⟩
        · exact ⟨_, by simp only [validateAccount, Bool.not_false, if_true, hn, if_false, hp],
            _, hmem, hf⟩
        · exact ⟨_, by simp only [validateAccount, Bool.not_false, if_true, hn, if_false, hp],
            _, List.mem_append_left
              [{ Field := bytesOf "account" ++ bytesOf ".name",
                 Detail := errorText (invalidNameError [CollectionAccounts]) }] hmem, hf⟩
  · intro room create hlen
    obtain ⟨details, hd, v, hv, hfield⟩ := hroom room create
      { Field := bytesOf "room" ++ bytesOf ".displayName",
        Detail := bytesOf "display name must not be longer than 255 characters" }
      (by simp [validateDisplayName, hlen, validateLabels, validateAnnotations])
    exact ⟨details, hd, v, hv, by rw [hfield]; decide⟩
  · intro room create hlen
    obtain ⟨details, hd, v, hv, hfield⟩ := hroom room create
      { Field := bytesOf "room" ++ bytesOf ".description",
        Detail := bytesOf "description must not be longer than 255 characters" }
      (by simp [validateDescription, hlen])
    exact ⟨details, hd, v, hv, by rw [hfield]; decide⟩
  · intro location hlen
    obtain ⟨details, hd, v, hv, hfield⟩ := convertErrorList_mem
      [{ Field := bytesOf "location" ++ bytesOf ".description",
         Detail := bytesOf "description must not be longer than 255 characters" }]
      { Field := bytesOf "location" ++ bytesOf ".description",
        Detail := bytesOf "description must not be longer than 255 characters" } (by simp)
      (validViolations_singleton _ (by decide) (by decide))
    refine ⟨details, ?_, v, hv, by rw [hfield]; decide⟩
    simp only [validateCreateLocation, hlen, if_true, hd]

/-- C21, at the failing input: a location whose display name has 256 bytes
passes `validateCreateLocation`, which checks the description only; the create
handler stores it and the update handler writes it.  The validators of rooms
and accounts reject the same display name. -/
theorem location_display_name_unchecked :
    demoLongDisplayName.length = 256 ∧
    validateCreateLocation demoLongLocationRequest.Location = none ∧
    (∃ created w1,
      CreateLocation noFaults demoRuntime demoNow demoLongLocationRequest worldWithAccount
        = (Outcome.ok created, w1) ∧
      created.DisplayName = demoLongDisplayName ∧
      storedLocation w1.tables (bytesOf "accounts/acme-corp/locations/head-office")
        = Outcome.ok (some created)) ∧
    (∃ updated w1,
      UpdateLocation noFaults demoRuntime demoLater demoLongLocationUpdate worldWithLocation
        = (Outcome.ok updated, w1) ∧
      updated.DisplayName = demoLongDisplayName) ∧
    validateRoom (some { demoRoomUpdate with DisplayName := demoLongDisplayName }) true
      = Outcome.ok (some
          (GoError.status Code.InvalidArgument (bytesOf "invalid argument")
            [{ field := bytesOf "room.displayName",
               description := bytesOf "display name must not be longer than 255 characters" }])) ∧
    validateCreateAccount
        { AccountId := bytesOf "acme-corp",
          Account := some { demoAccountPayload with DisplayName := demoLongDisplayName } }
      = Outcome.ok (some
          (GoError.status Code.InvalidArgument (bytesOf "invalid argument")
            [{ field := bytesOf "account.displayName",
               description := bytesOf "display name must not be longer than 255 characters" }])) := by
  set_option maxRecDepth 100000 in
  exact ⟨by simp [demoLongDisplayName, bytesOf], rfl, ⟨_, _, rfl, rfl, rfl⟩, ⟨_, _, rfl, rfl⟩,
    rfl, rfl⟩

/-- C23, at the failing input: a first-page request with page size 0 is sent to
the database with `LIMIT 25`, yet when exactly 25 rows come back the response
has no next-page token; and when no row comes back the response has a token,
whose cursor is still 0. -/
theorem default_page_size_not_used_for_token :
    ListAccounts demoLibrary demoSecret demoEntropy echoDatabase demoDefaultSizeRequest
        = Outcome.error (GoError.other demoFirstPageQuery) ∧
      ListAccounts demoLibrary demoSecret demoEntropy demoDatabase25 demoDefaultSizeRequest
        = Outcome.ok { Items := List.range 25, NextPageToken := [] } ∧
      ∃ token,
        ListAccounts demoLibrary demoSecret demoEntropy demoEmptyDatabase demoDefaultSizeRequest
          = Outcome.ok { Items := [], NextPageToken := token } ∧
        token ≠ [] ∧
        ParsePageToken demoLibrary demoSecret token
          = Outcome.ok
              { RequestKey := [], EndCursor := bytesOf "0", Filter := [], Order := [] } := by
  refine ⟨rfl, rfl, _, rfl, by decide, by decide⟩

/-! ## Malformed names at the handlers -/

theorem convertErrorList_isInvalidArgument (errs : List FieldError) (e : GoError)
    (h : convertErrorList errs = some e) (hvalid : ValidViolations errs) :
    IsInvalidArgument e := by
  by_cases hne : errs = []
  · subst hne
    simp [convertErrorList] at h
  · rw [convertErrorList_of_ne_nil errs hne hvalid] at h
    injection h with h
    exact ⟨_, _, h.symm⟩

theorem convertErrorList_append_singleton (errs : List FieldError) (x : FieldError)
    (hvalid : ValidViolations errs) (hf : utf8Valid x.Field = true)
    (hd : utf8Valid x.Detail = true) :
    ∃ e, convertErrorList (errs ++ [x]) = some e ∧ IsInvalidArgument e := by
  have hne : errs ++ [x] ≠ [] := by simp
  exact ⟨_, convertErrorList_of_ne_nil _ hne
    (validViolations_append _ _ hvalid (validViolations_singleton x hf hd)), _, _, rfl⟩

theorem convertErrorList_some_of_ne_nil (errs : List FieldError) (h : errs ≠ [])
    (hvalid : ValidViolations errs) :
    ∃ e, convertErrorList errs = some e ∧ IsInvalidArgument e :=
  ⟨_, convertErrorList_of_ne_nil errs h hvalid, _, _, rfl⟩

theorem parseAccount_error_of_malformed (name : GoString)
    (h : ¬ WellFormedName name [CollectionAccounts]) :
    ParseAccount name = Outcome.error (invalidNameError [CollectionAccounts]) := by
  rcases parseAccount_cases name with ⟨_, _, _, hw, _⟩ | ⟨hp, _⟩
  · exact absurd hw h
  · exact hp

theorem parseLocation_error_of_malformed (name : GoString)
    (h : ¬ WellFormedName name [CollectionAccounts, CollectionLocations]) :
    ParseLocation name
      = Outcome.error (invalidNameError [CollectionAccounts, CollectionLocations]) := by
  rcases parseLocation_cases name with ⟨_, _, _, _, hw, _⟩ | ⟨hp, _⟩
  · exact absurd hw h
  · exact hp

theorem parseRoom_error_of_malformed (name : GoString)
    (h : ¬ WellFormedName name [CollectionAccounts, CollectionLocations, CollectionRooms]) :
    ParseRoom name
      = Outcome.error
          (invalidNameError [CollectionAccounts, CollectionLocations, CollectionRooms]) := by
  rcases parseRoom_cases name with ⟨_, _, _, _, _, hw, _⟩ | ⟨hp, _⟩
  · exact absurd hw h
  · exact hp

theorem suspendAccount_malformed (F : FaultPlan) (J : Runtime) (now : Timestamp) (w : World)
    (req : SuspendAccountRequest) (h : ¬ WellFormedName req.Name [CollectionAccounts]) :
    ∃ e, IsInvalidArgument e ∧ SuspendAccount F J now req w = (Outcome.error e, w) := by
  have hp := parseAccount_error_of_malformed req.Name h
  obtain ⟨errs, hv, hf, hvalid⟩ := validateSuspendAccount_eq req
  have hne : errs ≠ [] := by
    intro hnil
    rw [hnil] at hf
    simp [suspendViolationFields, hp] at hf
  rw [convertErrorList_of_ne_nil errs hne hvalid] at hv
  refine ⟨GoError.status Code.InvalidArgument (bytesOf "invalid argument")
    (errs.map (fun e => ({ field := e.Field, description := e.Detail } : FieldViolation))),
    ⟨_, _, rfl⟩, ?_⟩
  simp only [SuspendAccount, hv]

theorem updateAccount_malformed (F : FaultPlan) (J : Runtime) (now : Timestamp) (w : World)
    (req : UpdateAccountRequest) (account : Account) (ha : req.Account = some account)
    (h : ¬ WellFormedName account.Name [CollectionAccounts]) :
    ∃ e, IsInvalidArgument e ∧ UpdateAccount F J now req w = (Outcome.error e, w) := by
  have hp := parseAccount_error_of_malformed account.Name h
  by_cases hn : account.Name = []
  · obtain ⟨e, he, hinv⟩ := convertErrorList_append_singleton
      (validateLabels (bytesOf "account") ++ validateAnnotations (bytesOf "account")
        ++ validateDisplayName (bytesOf "account") account.DisplayName)
      { Field := bytesOf "account" ++ bytesOf ".name", Detail := bytesOf "name is required" }
      (accountViolations_valid _) (by decide) (by decide)
    refine ⟨e, hinv, ?_⟩
    simp only [UpdateAccount, validateUpdateAccount, validateAccount, ha, hn, Bool.not_false,
      if_true, he]
  · obtain ⟨e, he, hinv⟩ := convertErrorList_append_singleton
      (validateLabels (bytesOf "account") ++ validateAnnotations (bytesOf "account")
        ++ validateDisplayName (bytesOf "account") account.DisplayName)
      { Field := bytesOf "account" ++ bytesOf ".name",
        Detail := errorText (invalidNameError [CollectionAccounts]) }
      (accountViolations_valid _) (by decide) invalidNameError_text_valid.1
    refine ⟨e, hinv, ?_⟩
    simp only [UpdateAccount, validateUpdateAccount, validateAccount, ha, hn, Bool.not_false,
      if_true, if_false, hp, he]

theorem updateRoom_malformed (F : FaultPlan) (J : Runtime) (now : Timestamp) (w : World)
    (req : UpdateRoomRequest) (room : Room) (hr : req.Room = some room)
    (h : ¬ WellFormedName room.Name [CollectionAccounts, CollectionLocations, CollectionRooms]) :
    ∃ e, IsInvalidArgument e ∧ UpdateRoom F J now req w = (Outcome.error e, w) := by
  have hp := parseRoom_error_of_malformed room.Name h
  by_cases hn : room.Name = []
  · obtain ⟨e, he, hinv⟩ := convertErrorList_append_singleton
      (validateLabels (bytesOf "room") ++ validateAnnotations (bytesOf "room")
        ++ validateDisplayName (bytesOf "room") room.DisplayName
        ++ validateDescription (bytesOf "room") room.Description)
      { Field := bytesOf "room" ++ bytesOf ".name", Detail := bytesOf "name is required" }
      (roomViolations_valid _ _) (by decide) (by decide)
    refine ⟨e, hinv, ?_⟩
    simp only [UpdateRoom, validateRoom, hr, hn, Bool.not_false, if_true, he]
  · obtain ⟨e, he, hinv⟩ := convertErrorList_append_singleton
      (validateLabels (bytesOf "room") ++ validateAnnotations (bytesOf "room")
        ++ validateDisplayName (bytesOf "room") room.DisplayName
        ++ validateDescription (bytesOf "room") room.Description)
      { Field := bytesOf "room" ++ bytesOf ".name",
        Detail := errorText
          (invalidNameError [CollectionAccounts, CollectionLocations, CollectionRooms]) }
      (roomViolations_valid _ _) (by decide) invalidNameError_text_valid.2.2
    refine ⟨e, hinv, ?_⟩
    simp only [UpdateRoom, validateRoom, hr, hn, Bool.not_false, if_true, if_false, hp, he]

theorem createAccount_invalid_id (F : FaultPlan) (J : Runtime) (now : Timestamp) (w : World)
    (req : CreateAccountRequest) (h : ValidResourceID req.AccountId ≠ Outcome.ok true) :
    ∃ e, IsInvalidArgument e ∧ CreateAccount F J now req w = (Outcome.error e, w) := by
  have hfalse : ValidResourceID req.AccountId = Outcome.ok false := by
    rcases validResourceID_total req.AccountId with ht | hf
    · exact absurd ht h
    · exact hf
  have hacc : ∃ more, validateAccount req.Account true = Outcome.ok more ∧
      ValidViolations more := by
    cases hpay : req.Account with
    | none => exact ⟨_, rfl, validViolations_singleton _ (by decide) (by decide)⟩
    | some a => exact ⟨_, rfl, accountViolations_valid a.DisplayName⟩
  obtain ⟨more, hmore, hmorev⟩ := hacc
  by_cases hid : req.AccountId = []
  · have hne : ([{ Field := bytesOf "account_id", Detail := bytesOf "account_id is required" }]
        : List FieldError) ++ more ≠ [] := by simp
    obtain ⟨e, he, hinv⟩ := convertErrorList_some_of_ne_nil _ hne
      (validViolations_append _ _ (validViolations_singleton _ (by decide) (by decide)) hmorev)
    refine ⟨e, hinv, ?_⟩
    simp only [CreateAccount, validateCreateAccount, hid, if_true, hmore, he]
  · have hne : ([{ Field := bytesOf "account_id", Detail := bytesOf "invalid account ID" }]
        : List FieldError) ++ more ≠ [] := by simp
    obtain ⟨e, he, hinv⟩ := convertErrorList_some_of_ne_nil _ hne
      (validViolations_append _ _ (validViolations_singleton _ (by decide) (by decide)) hmorev)
    refine ⟨e, hinv, ?_⟩
    simp only [CreateAccount, validateCreateAccount, hid, if_false, hfalse, hmore, he]

theorem createLocation_malformed_parent (F : FaultPlan) (J : Runtime) (now : Timestamp)
    (w : World) (req : CreateLocationRequest)
    (h : ¬ WellFormedName req.Parent [CollectionAccounts]) :
    ∃ e, IsInvalidArgument e ∧ CreateLocation F J now req w = (Outcome.error e, w) := by
  have hp := parseAccount_error_of_malformed req.Parent h
  cases hv : validateCreateLocation req.Location with
  | some e =>
    refine ⟨e, ?_, by simp only [CreateLocation, hv]⟩
    unfold validateCreateLocation at hv
    cases hl : req.Location with
    | none =>
      rw [hl] at hv
      exact convertErrorList_isInvalidArgument _ e hv
        (validViolations_singleton _ (by decide) (by decide))
    | some l =>
      rw [hl] at hv
      refine convertErrorList_isInvalidArgument _ e hv ?_
      intro x hx
      split at hx
      · rw [List.mem_singleton.mp hx]
        decide
      · simp at hx
  | none =>
    refine ⟨_, invalidNameError_isInvalidArgument [CollectionAccounts], ?_⟩
    simp only [CreateLocation, hv, storeGetAccount, doGetAccount, hp, Outcome.failure]

theorem createRoom_absent_parent (F : FaultPlan) (hF : NoFaults F) (now : Timestamp)
    (w : World) (req : CreateRoomRequest)
    (hv : validateRoom req.Room true = Outcome.ok none)
    (hs : storedLocation w.tables req.Parent = Outcome.ok none) :
    CreateRoom F now req w
      = (Outcome.error errNotFound, afterStatement w (locationSelect req.Parent)) := by
  simp only [CreateRoom, hv, storeGetLocation, doGetLocation_noFaults F hF, hs]

/-- C22, as stated, fails: the parent `nonsense` of `demoStrayRoomRequest` is
not a location name, yet `CreateRoom` looks it up in the store (the `SELECT` is
sent) and answers `NotFound`, not `InvalidArgument`. -/
theorem createRoom_malformed_parent_not_found :
    ParseLocation demoStrayRoomRequest.Parent
        = Outcome.error (invalidNameError [CollectionAccounts, CollectionLocations]) ∧
      CreateRoom noFaults demoNow demoStrayRoomRequest worldWithLocation
        = (Outcome.error errNotFound,
            afterStatement worldWithLocation (locationSelect (bytesOf "nonsense"))) ∧
      ¬ IsInvalidArgument errNotFound := by
  refine ⟨by decide, by decide, ?_⟩
  rintro ⟨msg, details, h⟩
  cases h

/-- An update of a location whose name is not a location name passes
`validateCreateLocation`, which does not look at the name; the store opens a
transaction, sends the lookup and finds nothing, and the handler answers
`NotFound`. -/
theorem updateLocation_malformed_name_not_found :
    ParseLocation (bytesOf "nonsense")
        = Outcome.error (invalidNameError [CollectionAccounts, CollectionLocations]) ∧
      UpdateLocation noFaults demoRuntime demoLater demoStrayLocationUpdate worldWithLocation
        = (Outcome.error errNotFound,
            afterControl (afterStatement (afterControl worldWithLocation)
              (locationSelect (bytesOf "nonsense")))) := by
  exact ⟨by decide, by decide⟩

/-- C22, amended: a request whose account, location or room name (or account
ID) fails the resource-name grammar is rejected with `InvalidArgument`, the
database untouched, by every account handler, by `GetLocation`,
`DeleteLocation`, `GetRoom`, `UpdateRoom` and `DeleteRoom`, and, for a
malformed parent, by `CreateLocation`, `ListLocations` and `ListRooms`;
`CreateRoom` checks its parent by looking it up, so a request that passes
`validateRoom` with a parent under which no location is stored is answered
`NotFound` after the lookup, the tables unchanged. -/
theorem malformed_name_rejected (F : FaultPlan) (J : Runtime) (now : Timestamp) (w : World) :
    (∀ name : GoString, ¬ WellFormedName name [CollectionAccounts] →
      (∃ e, IsInvalidArgument e ∧
        GetAccount F J name w = (Outcome.error e, w) ∧
        ActivateAccount F J now name w = (Outcome.error e, w) ∧
        DeleteAccount F J name w = (Outcome.error e, w) ∧
        GetAccountStatus F J name w = (Outcome.error e, w) ∧
        GetAccountQuotas F J name w = (Outcome.error e, w) ∧
        (∀ status : AccountStatus, status.Name = name →
          UpdateAccountStatus F J now (some status) w = (Outcome.error e, w)) ∧
        (∀ quotas : AccountQuotas, quotas.Name = name →
          UpdateAccountQuotas F J now (some quotas) w = (Outcome.error e, w)) ∧
        ∀ (L : Library) (secret entropy : GoString) (Row : Type) (db : Database Row)
          (req : PageableRequest) (p : PageInfo), req.Parent.getD [] = name →
          validatePageableRequest L secret req = Outcome.ok p →
          ListLocations L secret entropy db req = Outcome.error e) ∧
      (∀ req : SuspendAccountRequest, req.Name = name →
        ∃ e, IsInvalidArgument e ∧ SuspendAccount F J now req w = (Outcome.error e, w)) ∧
      (∀ (req : UpdateAccountRequest) (account : Account), req.Account = some account →
        account.Name = name →
        ∃ e, IsInvalidArgument e ∧ UpdateAccount F J now req w = (Outcome.error e, w)) ∧
      ∀ req : CreateLocationRequest, req.Parent = name →
        ∃ e, IsInvalidArgument e ∧ CreateLocation F J now req w = (Outcome.error e, w)) ∧
    (∀ req : CreateAccountRequest, ValidResourceID req.AccountId ≠ Outcome.ok true →
      ∃ e, IsInvalidArgument e ∧ CreateAccount F J now req w = (Outcome.error e, w)) ∧
    (∀ name : GoString, ¬ WellFormedName name [CollectionAccounts, CollectionLocations] →
      ∃ e, IsInvalidArgument e ∧
        GetLocation F name w = (Outcome.error e, w) ∧
        DeleteLocation F name w = (Outcome.error e, w) ∧
        ∀ (L : Library) (secret entropy : GoString) (Row : Type) (db : Database Row)
          (req : PageableRequest) (p : PageInfo), req.Parent.getD [] = name →
          validatePageableRequest L secret req = Outcome.ok p →
          ListRooms L secret entropy db req = Outcome.error e) ∧
    (∀ name : GoString,
        ¬ WellFormedName name [CollectionAccounts, CollectionLocations, CollectionRooms] →
      (∃ e, IsInvalidArgument e ∧
        GetRoom F name w = (Outcome.error e, w) ∧
        DeleteRoom F name w = (Outcome.error e, w)) ∧
      ∀ (req : UpdateRoomRequest) (room : Room), req.Room = some room → room.Name = name →
        ∃ e, IsInvalidArgument e ∧ UpdateRoom F J now req w = (Outcome.error e, w)) ∧
    (∀ req : CreateRoomRequest, NoFaults F → validateRoom req.Room true = Outcome.ok none →
      storedLocation w.tables req.Parent = Outcome.ok none →
      CreateRoom F now req w
        = (Outcome.error errNotFound, afterStatement w (locationSelect req.Parent))) := by
  refine ⟨?_, ?_, ?_, ?_, ?_⟩
  · intro name hw
    have hp := parseAccount_error_of_malformed name hw
    refine ⟨⟨invalidNameError [CollectionAccounts], invalidNameError_isInvalidArgument _,
      ?_, ?_, ?_, ?_, ?_, ?_, ?_, ?_⟩, ?_, ?_, ?_⟩
    · simp only [GetAccount, hp, Outcome.failure]
    · simp only [ActivateAccount, hp, Outcome.failure]
    · simp only [DeleteAccount, hp, Outcome.failure]
    · simp only [GetAccountStatus, hp, Outcome.failure]
    · simp only [GetAccountQuotas, hp, Outcome.failure]
    · intro status hs
      subst hs
      simp only [UpdateAccountStatus, hp, Outcome.failure]
    · intro quotas hq
      subst hq
      simp only [UpdateAccountQuotas, hp, Outcome.failure]
    · intro L secret entropy Row db req p hparent hv
      simp only [ListLocations, hv, storeListLocations, hparent, hp]
    · intro req hn
      subst hn
      exact suspendAccount_malformed F J now w req hw
    · intro req account ha hn
      subst hn
      exact updateAccount_malformed F J now w req account ha hw
    · intro req hn
      subst hn
      exact createLocation_malformed_parent F J now w req hw
  · intro req h
    exact createAccount_invalid_id F J now w req h
  · intro name hw
    have hp := parseLocation_error_of_malformed name hw
    refine ⟨invalidNameError [CollectionAccounts, CollectionLocations],
      invalidNameError_isInvalidArgument _, ?_, ?_, ?_⟩
    · simp only [GetLocation, hp, Outcome.failure]
    · simp only [DeleteLocation, hp, Outcome.failure]
    · intro L secret entropy Row db req p hparent hv
      simp only [ListRooms, hv, storeListRooms, hparent, hp]
  · intro name hw
    have hp := parseRoom_error_of_malformed name hw
    refine ⟨⟨invalidNameError [CollectionAccounts, CollectionLocations, CollectionRooms],
      invalidNameError_isInvalidArgument _, ?_, ?_⟩, ?_⟩
    · simp only [GetRoom, hp, Outcome.failure]
    · simp only [DeleteRoom, hp, Outcome.failure]
    · intro req room hr hn
      subst hn
      exact updateRoom_malformed F J now w req room hr hw
  · intro req hF hv hs
    exact createRoom_absent_parent F hF now w req hv hs

theorem malformed_name_rejected_witness :
    (∃ e, IsInvalidArgument e ∧
      GetAccount noFaults demoRuntime (bytesOf "acme-corp") worldWithLocation
        = (Outcome.error e, worldWithLocation)) ∧
    (∃ e, IsInvalidArgument e ∧
      UpdateRoom noFaults demoRuntime demoLater
          { Room := some { demoRoomUpdate with Name := bytesOf "rooms/room-101" },
            UpdateMask := none } worldWithLocation
        = (Outcome.error e, worldWithLocation)) ∧
    CreateRoom noFaults demoNow demoStrayRoomRequest worldWithLocation
      = (Outcome.error errNotFound,
          afterStatement worldWithLocation (locationSelect demoStrayRoomRequest.Parent)) := by
  have h := malformed_name_rejected noFaults demoRuntime demoLater worldWithLocation
  have h2 := malformed_name_rejected noFaults demoRuntime demoNow worldWithLocation
  refine ⟨?_, ?_, ?_⟩
  · obtain ⟨e, he, hget, _⟩ :=
      (h.1 (bytesOf "acme-corp") (fun hw => absurd hw.1 (by decide))).1
    exact ⟨e, he, hget⟩
  · exact (h.2.2.2.1 (bytesOf "rooms/room-101") (fun hw => absurd hw.1 (by decide))).2
      _ _ rfl rfl
  · exact h2.2.2.2.2 demoStrayRoomRequest noFaults_ok (by decide) (by decide)

/-! ## Following page tokens -/

theorem digitsValue_append_digit (ds : GoString) :
    ∀ (d : Nat) (a : Nat) (rest : GoString) (v : Nat), d < 10 →
      (∀ (a : Nat) (rest : GoString), digitsValue (ds ++ rest) a
        = digitsValue rest (a * 10 ^ ds.length + v)) →
      digitsValue ((ds ++ [48 + d]) ++ rest) a
        = digitsValue rest (a * 10 ^ (ds ++ [48 + d]).length + (v * 10 + d)) := by
  intro d a rest v hd h
  rw [List.append_assoc, h a ([48 + d] ++ rest)]
  have h1 : 48 ≤ 48 + d ∧ 48 + d ≤ 57 := by omega
  simp only [List.singleton_append, digitsValue, h1, and_self, if_true, List.length_append,
    List.length_singleton]
  congr 1
  have : 48 + d - 48 = d := by omega
  rw [this, pow_succ]
  ring

/-- The digits `formatNatLoop` puts in front of `acc` read back as `n`. -/
theorem formatNatLoop_digits :
    ∀ (fuel n : Nat) (acc : GoString), n < fuel →
      ∃ ds : GoString, formatNatLoop fuel n acc = ds ++ acc ∧ ds ≠ [] ∧
        (∀ b ∈ ds, 48 ≤ b ∧ b ≤ 57) ∧
        ∀ (a : Nat) (rest : GoString),
          digitsValue (ds ++ rest) a = digitsValue rest (a * 10 ^ ds.length + n) := by
  intro fuel
  induction fuel with
  | zero => intro n acc h; omega
  | succ fuel ih =>
    intro n acc hn
    by_cases h10 : n < 10
    · refine ⟨[48 + n], by simp [formatNatLoop, h10], by simp, ?_, ?_⟩
      · intro b hb
        have : b = 48 + n := by simpa using hb
        omega
      · intro a rest
        have h1 : 48 ≤ 48 + n ∧ 48 + n ≤ 57 := by omega
        simp only [List.singleton_append, digitsValue, h1, and_self, if_true,
          List.length_singleton, pow_one]
        congr 1
        omega
    · have hlt : n / 10 < fuel := by omega
      obtain ⟨ds, hds, hne, hdig, hval⟩ := ih (n / 10) ((48 + n % 10) :: acc) hlt
      refine ⟨ds ++ [48 + n % 10], ?_, by simp, ?_, ?_⟩
      · simp only [formatNatLoop, h10, if_false, hds]
        simp
      · intro b hb
        rcases List.mem_append.mp hb with hb | hb
        · exact hdig b hb
        · have : b = 48 + n % 10 := by simpa using hb
          omega
      · intro a rest
        have hmod : n % 10 < 10 := Nat.mod_lt n (by omega)
        rw [digitsValue_append_digit ds (n % 10) a rest (n / 10) hmod hval]
        congr 1
        have : n / 10 * 10 + n % 10 = n := by omega
        rw [this]

/-- A non-negative `int` printed by `strconv.Itoa` is read back by
`strconv.Atoi`. -/
theorem atoi_itoa (v : Int) (h0 : 0 ≤ v) (h1 : v < (2 : Int) ^ 63) :
    Atoi (Itoa v) = Except.ok v ∧ Itoa v ≠ [] := by
  obtain ⟨ds, hds, hne, hdig, hval⟩ := formatNatLoop_digits (v.natAbs + 1) v.natAbs [] (by omega)
  have hI : Itoa v = ds := by
    have hneg : ¬ v < 0 := by omega
    simp only [Itoa, hneg, if_false, formatNat, hds, List.append_nil]
  rw [hI]
  refine ⟨?_, hne⟩
  cases ds with
  | nil => exact absurd rfl hne
  | cons d rest =>
    have hd := hdig d (List.mem_cons_self d rest)
    have h45 : d ≠ 45 := by omega
    have h43 : d ≠ 43 := by omega
    have hv := hval 0 []
    simp only [List.append_nil, zero_mul, zero_add] at hv
    have hdv : digitsValue (d :: rest) 0 = some v.natAbs := by
      rw [hv]
      rfl
    have hcast : ((v.natAbs : Nat) : Int) = v := Int.natAbs_of_nonneg h0
    unfold Atoi
    split
    · rename_i r heq
      injection heq with hhead _
      exact absurd hhead h45
    · rename_i r heq
      injection heq with hhead _
      exact absurd hhead h43
    · simp only [List.cons_ne_nil, if_false, hdv, Bool.false_eq_true, if_false, hcast]
      have hr : ¬ (v < -(2 : Int) ^ 63 ∨ (2 : Int) ^ 63 - 1 < v) := by omega
      simp only [hr, if_false]

/-- A generated token parses to the page info with the advanced cursor. -/
theorem generate_then_parse (L : Library) (hjson : JsonRoundTrip L) (haead : AeadRoundTrip L)
    (hb64 : Base64RoundTrip L) (hne : Base64NonEmpty L)
    (secret entropy : GoString) (p : PageInfo) (n v : Int)
    (hkey : secret.length = 16 ∨ secret.length = 24 ∨ secret.length = 32)
    (hent : gcmNonceSize ≤ entropy.length)
    (hcur : Atoi (if p.EndCursor = [] then bytesOf "0" else p.EndCursor) = Except.ok v)
    (hrk : utf8Valid p.RequestKey = true) (hfi : utf8Valid p.Filter = true)
    (hor : utf8Valid p.Order = true) :
    ∃ token, GenerateNextPageToken L secret entropy p n = Outcome.ok token ∧ token ≠ [] ∧
      ParsePageToken L secret token
        = Outcome.ok
            { RequestKey := p.RequestKey, EndCursor := Itoa (wrapInt64 (v + n)),
              Filter := p.Filter, Order := p.Order } := by
  obtain ⟨data, hm, hu⟩ := hjson
    { RequestKey := p.RequestKey, EndCursor := Itoa (wrapInt64 (v + n)),
      Filter := p.Filter, Order := p.Order } hrk (utf8Valid_itoa _) hfi hor
  obtain ⟨hr, hlen⟩ := readFull_ok entropy hent
  have hgen : GenerateNextPageToken L secret entropy p n
      = Outcome.ok (L.base64Encode (entropy.take gcmNonceSize
          ++ L.gcmSeal secret (entropy.take gcmNonceSize) data)) := by
    unfold GenerateNextPageToken
    simp only [hcur, hm, aesNewCipher_ok secret hkey, hr]
  refine ⟨_, hgen, generate_token_ne_nil L hne secret entropy p n _ hgen, ?_⟩
  rw [parse_of_sealed L haead hb64 hne secret _ data hkey hlen, hu]

theorem pageViolations_nil (req : PageableRequest) (p : PageInfo)
    (h1 : 0 ≤ req.PageSize) (h2 : req.PageSize ≤ 500) (hk : p.RequestKey = req.Parent.getD [])
    (hf : p.Filter = req.Filter.getD []) (ho : p.Order = req.Order.getD []) :
    pageViolations req p = [] := by
  have hs : ¬ (req.PageSize > maxGlobalPageSize ∨ req.PageSize < 0) := by
    unfold maxGlobalPageSize
    omega
  simp [pageViolations, hs, hk, hf, ho]

/-- The page info `validatePageableRequest` accepts for request `j` of a
listing whose pages so far were full. -/
theorem nthPageToken_pageInfo {Row : Type} (L : Library) (hjson : JsonRoundTrip L)
    (haead : AeadRoundTrip L) (hb64 : Base64RoundTrip L) (hne : Base64NonEmpty L)
    (secret entropy : GoString)
    (hkey : secret.length = 16 ∨ secret.length = 24 ∨ secret.length = 32)
    (hent : gcmNonceSize ≤ entropy.length)
    (req : PageableRequest) (h1 : 1 ≤ req.PageSize) (h2 : req.PageSize ≤ 500)
    (hrk : utf8Valid (req.Parent.getD []) = true) (hfi : utf8Valid (req.Filter.getD []) = true)
    (hor : utf8Valid (req.Order.getD []) = true)
    (handler : PageableRequest → Outcome (ListResponse Row))
    (query : PageInfo → Outcome (List Row))
    (hH : ∀ (token : GoString) (p : PageInfo),
      validatePageableRequest L secret { req with PageToken := token } = Outcome.ok p →
      handler { req with PageToken := token }
        = answerWith L secret entropy p req.PageSize (query p)) :
    ∀ j : Nat, (j : Int) * req.PageSize < (2 : Int) ^ 63 →
      (∀ i, i < j → ∃ rows, query (pageInfoAt req i) = Outcome.ok rows ∧
        (rows.length : Int) = req.PageSize) →
      ∃ token, nthPageToken handler req j = Outcome.ok token ∧
        validatePageableRequest L secret { req with PageToken := token }
          = Outcome.ok (pageInfoAt req j) := by
  intro j
  induction j with
  | zero =>
    intro _ _
    refine ⟨[], rfl, ?_⟩
    simp only [validatePageableRequest, if_true, pageInfoAt]
    have : Itoa (((0 : Nat) : Int) * req.PageSize) = bytesOf "0" := by
      simp only [Nat.cast_zero, zero_mul]
      decide
    rw [this]
  | succ j ih =>
    intro hrange hfull
    have hjk : (0 : Int) ≤ (j : Int) * req.PageSize :=
      mul_nonneg (Int.ofNat_nonneg j) (by omega)
    have hstep : ((j + 1 : Nat) : Int) * req.PageSize = (j : Int) * req.PageSize + req.PageSize := by
      push_cast
      ring
    rw [hstep] at hrange
    obtain ⟨token, htok, hval⟩ := ih (by omega) (fun i hi => hfull i (by omega))
    obtain ⟨rows, hrows, hlen⟩ := hfull j (by omega)
    obtain ⟨hatoi, hnonempty⟩ := atoi_itoa ((j : Int) * req.PageSize) hjk (by omega)
    have hcur : Atoi (if (pageInfoAt req j).EndCursor = [] then bytesOf "0"
        else (pageInfoAt req j).EndCursor) = Except.ok ((j : Int) * req.PageSize) := by
      have : (pageInfoAt req j).EndCursor = Itoa ((j : Int) * req.PageSize) := rfl
      rw [this]
      simp only [hnonempty, if_false, hatoi]
    obtain ⟨next, hgen, hnext, hparse⟩ := generate_then_parse L hjson haead hb64 hne secret entropy
      (pageInfoAt req j) req.PageSize _ hkey hent hcur hrk hfi hor
    rw [wrapInt64_of_inRange _ (by omega) (by omega)] at hparse
    have hresp : handler { req with PageToken := token }
        = Outcome.ok { Items := rows, NextPageToken := next } := by
      rw [hH token _ hval, hrows]
      simp only [answerWith, listResponse, hlen, if_true, hgen]
    refine ⟨next, ?_, ?_⟩
    · simp only [nthPageToken, htok, hresp]
    · have hreq : ({ req with PageToken := next } : PageableRequest).PageToken ≠ [] := hnext
      rw [validatePageableRequest_of_token L secret { req with PageToken := next } _ hreq hparse,
        pageViolations_nil _ _ (by simp; omega) (by simp; omega) rfl rfl rfl]
      simp only [convertErrorList, List.length_nil, if_true, pageInfoAt, hstep]

theorem itoa_ne_nil (v : Int) : Itoa v ≠ [] := by
  unfold Itoa
  by_cases h : v < 0
  · simp [h]
  · obtain ⟨ds, hds, hne, _, _⟩ := formatNatLoop_digits (v.natAbs + 1) v.natAbs [] (by omega)
    simp only [h, if_false, formatNat, hds, List.append_nil]
    exact hne

theorem paginateQuery_pageInfoAt (base : GoString) (req : PageableRequest) (j : Nat)
    (hk : req.PageSize ≠ 0) :
    paginateQuery base
        { RequestKey := [], EndCursor := (pageInfoAt req j).EndCursor,
          Filter := (pageInfoAt req j).Filter, Order := (pageInfoAt req j).Order } req.PageSize
      = pageQuery base req.PageSize j := by
  have hne : Itoa ((j : Int) * req.PageSize) ≠ [] := itoa_ne_nil _
  simp only [paginateQuery, pageQuery, pageInfoAt, hk, if_false, ne_eq, hne, not_false_eq_true,
    if_true]

theorem listAccounts_answer {Row : Type} (L : Library) (secret entropy : GoString)
    (db : Database Row) (req : PageableRequest) (p : PageInfo)
    (hv : validatePageableRequest L secret req = Outcome.ok p) :
    ListAccounts L secret entropy db req
      = answerWith L secret entropy p req.PageSize
          (db (paginateQuery (selectAccountBaseQuery ++ bytesOf " ORDER BY name")
            { RequestKey := [], EndCursor := p.EndCursor, Filter := p.Filter, Order := p.Order }
            req.PageSize) []) := by
  simp only [ListAccounts, hv, storeListAccounts, getListOptions, List.foldl, WithPageSize,
    WithPageInfo, answerWith]
  cases db (paginateQuery (selectAccountBaseQuery ++ bytesOf " ORDER BY name")
    { RequestKey := [], EndCursor := p.EndCursor, Filter := p.Filter, Order := p.Order }
    req.PageSize) [] <;> rfl

theorem listLocations_answer {Row : Type} (L : Library) (secret entropy : GoString)
    (db : Database Row) (req : PageableRequest) (p : PageInfo) (a : GoString)
    (hv : validatePageableRequest L secret req = Outcome.ok p)
    (hp : ParseAccount (req.Parent.getD []) = Outcome.ok a) :
    ListLocations L secret entropy db req
      = answerWith L secret entropy p req.PageSize
          (db (paginateQuery
            ((if a ≠ bytesOf "-" then
                locationSelectBaseQuery
                  ++ (bytesOf " WHERE account = " ++ [singleQuote] ++ a ++ [singleQuote, 32])
              else locationSelectBaseQuery) ++ bytesOf " ORDER BY account, name")
            { RequestKey := [], EndCursor := p.EndCursor, Filter := p.Filter, Order := p.Order }
            req.PageSize) []) := by
  simp only [ListLocations, hv, storeListLocations, hp, getListOptions, List.foldl, WithPageSize,
    WithPageInfo, answerWith]
  cases db (paginateQuery
    ((if a ≠ bytesOf "-" then
        locationSelectBaseQuery
          ++ (bytesOf " WHERE account = " ++ [singleQuote] ++ a ++ [singleQuote, 32])
      else locationSelectBaseQuery) ++ bytesOf " ORDER BY account, name")
    { RequestKey := [], EndCursor := p.EndCursor, Filter := p.Filter, Order := p.Order }
    req.PageSize) [] <;> rfl

theorem listRooms_answer (L : Library) (secret entropy : GoString)
    (req : PageableRequest) (a l : GoString)
    (hp : ParseLocation (req.Parent.getD []) = Outcome.ok (a, l)) :
    ∃ (base : GoString) (args : List GoString), ∀ (Row : Type) (db : Database Row)
      (token : GoString) (p : PageInfo),
      validatePageableRequest L secret { req with PageToken := token } = Outcome.ok p →
      ListRooms L secret entropy db { req with PageToken := token }
        = answerWith L secret entropy p req.PageSize
            (db (paginateQuery base
              { RequestKey := [], EndCursor := p.EndCursor, Filter := p.Filter,
                Order := p.Order } req.PageSize) args) := by
  let counter : Int := 1
  let step1 : List GoString × List GoString × Int :=
    if a ≠ bytesOf "-" then ([bytesOf "account = $" ++ Itoa counter], [a], counter + 1)
    else ([], [], counter)
  let step2 : List GoString × List GoString :=
    if l ≠ bytesOf "-" then
      (step1.1 ++ [bytesOf "location = $" ++ Itoa step1.2.2], step1.2.1 ++ [l])
    else (step1.1, step1.2.1)
  let query :=
    if step2.1.length > 0 then
      selectRoomBaseQuery ++ (bytesOf " WHERE " ++ stringsJoin step2.1 (bytesOf " AND "))
    else selectRoomBaseQuery
  refine ⟨query ++ bytesOf " ORDER BY account, location, name", step2.2, ?_⟩
  intro Row db token p hv
  have hp2 : ParseLocation (({ req with PageToken := token } : PageableRequest).Parent.getD [])
      = Outcome.ok (a, l) := hp
  simp only [ListRooms, hv, storeListRooms, hp2, getListOptions, List.foldl, WithPageSize,
    WithPageInfo, answerWith, query, step2, step1, counter]
  split <;> (rename_i h; rw [h])

/-- C24: starting from an empty page token and following each returned
next-page token with the same page size `k` in `[1, 500]` and the same parent,
filter and order, request `j` of `ListAccounts`, `ListLocations` and
`ListRooms` sends its ordered query with `LIMIT k` and `OFFSET j * k` (the
pages before it having been full, and `j * k` within the range of `int`). -/
theorem pages_follow_offsets {Row : Type} (L : Library) (hjson : JsonRoundTrip L)
    (haead : AeadRoundTrip L) (hb64 : Base64RoundTrip L) (hne : Base64NonEmpty L)
    (secret entropy : GoString)
    (hkey : secret.length = 16 ∨ secret.length = 24 ∨ secret.length = 32)
    (hent : gcmNonceSize ≤ entropy.length) (db : Database Row)
    (req : PageableRequest) (h1 : 1 ≤ req.PageSize) (h2 : req.PageSize ≤ 500)
    (hrk : utf8Valid (req.Parent.getD []) = true) (hfi : utf8Valid (req.Filter.getD []) = true)
    (hor : utf8Valid (req.Order.getD []) = true) :
    (∀ j : Nat, (j : Int) * req.PageSize < (2 : Int) ^ 63 →
      (∀ i, i < j → ∃ rows,
        db (pageQuery (selectAccountBaseQuery ++ bytesOf " ORDER BY name") req.PageSize i) []
          = Outcome.ok rows ∧ (rows.length : Int) = req.PageSize) →
      ∃ token, nthPageToken (ListAccounts L secret entropy db) req j = Outcome.ok token ∧
        ∀ (Other : Type) (other : Database Other),
          ListAccounts L secret entropy other { req with PageToken := token }
            = answerWith L secret entropy (pageInfoAt req j) req.PageSize
                (other (pageQuery (selectAccountBaseQuery ++ bytesOf " ORDER BY name")
                  req.PageSize j) [])) ∧
    (∀ a : GoString, ParseAccount (req.Parent.getD []) = Outcome.ok a →
      ∃ base : GoString, ∀ j : Nat, (j : Int) * req.PageSize < (2 : Int) ^ 63 →
        (∀ i, i < j → ∃ rows,
          db (pageQuery base req.PageSize i) [] = Outcome.ok rows ∧
            (rows.length : Int) = req.PageSize) →
        ∃ token, nthPageToken (ListLocations L secret entropy db) req j = Outcome.ok token ∧
          ∀ (Other : Type) (other : Database Other),
            ListLocations L secret entropy other { req with PageToken := token }
              = answerWith L secret entropy (pageInfoAt req j) req.PageSize
                  (other (pageQuery base req.PageSize j) [])) ∧
    (∀ a l : GoString, ParseLocation (req.Parent.getD []) = Outcome.ok (a, l) →
      ∃ (base : GoString) (args : List GoString), ∀ j : Nat,
        (j : Int) * req.PageSize < (2 : Int) ^ 63 →
        (∀ i, i < j → ∃ rows,
          db (pageQuery base req.PageSize i) args = Outcome.ok rows ∧
            (rows.length : Int) = req.PageSize) →
        ∃ token, nthPageToken (ListRooms L secret entropy db) req j = Outcome.ok token ∧
          ∀ (Other : Type) (other : Database Other),
            ListRooms L secret entropy other { req with PageToken := token }
              = answerWith L secret entropy (pageInfoAt req j) req.PageSize
                  (other (pageQuery base req.PageSize j) args)) := by
  have hk : req.PageSize ≠ 0 := by omega
  refine ⟨?_, ?_, ?_⟩
  · intro j hrange hfull
    obtain ⟨token, htok, hval⟩ := nthPageToken_pageInfo L hjson haead hb64 hne secret entropy
      hkey hent req h1 h2 hrk hfi hor (ListAccounts L secret entropy db)
      (fun p => db (paginateQuery (selectAccountBaseQuery ++ bytesOf " ORDER BY name")
        { RequestKey := [], EndCursor := p.EndCursor, Filter := p.Filter, Order := p.Order }
        req.PageSize) [])
      (fun token p hv => listAccounts_answer L secret entropy db _ p hv) j hrange
      (fun i hi => by beta_reduce; rw [paginateQuery_pageInfoAt _ req i hk]; exact hfull i hi)
    refine ⟨token, htok, fun Other other => ?_⟩
    rw [listAccounts_answer L secret entropy other _ _ hval]
    exact congrArg (fun q => answerWith L secret entropy (pageInfoAt req j) req.PageSize
      (other q [])) (paginateQuery_pageInfoAt _ req j hk)
  · intro a hp
    refine ⟨(if a ≠ bytesOf "-" then
        locationSelectBaseQuery
          ++ (bytesOf " WHERE account = " ++ [singleQuote] ++ a ++ [singleQuote, 32])
      else locationSelectBaseQuery) ++ bytesOf " ORDER BY account, name", ?_⟩
    intro j hrange hfull
    obtain ⟨token, htok, hval⟩ := nthPageToken_pageInfo L hjson haead hb64 hne secret entropy
      hkey hent req h1 h2 hrk hfi hor (ListLocations L secret entropy db)
      (fun p => db (paginateQuery
        ((if a ≠ bytesOf "-" then
            locationSelectBaseQuery
              ++ (bytesOf " WHERE account = " ++ [singleQuote] ++ a ++ [singleQuote, 32])
          else locationSelectBaseQuery) ++ bytesOf " ORDER BY account, name")
        { RequestKey := [], EndCursor := p.EndCursor, Filter := p.Filter, Order := p.Order }
        req.PageSize) [])
      (fun token p hv => listLocations_answer L secret entropy db _ p a hv hp) j hrange
      (fun i hi => by beta_reduce; rw [paginateQuery_pageInfoAt _ req i hk]; exact hfull i hi)
    refine ⟨token, htok, fun Other other => ?_⟩
    rw [listLocations_answer L secret entropy other _ _ a hval hp]
    exact congrArg (fun q => answerWith L secret entropy (pageInfoAt req j) req.PageSize
      (other q [])) (paginateQuery_pageInfoAt _ req j hk)
  · intro a l hp
    obtain ⟨base, args, hrooms⟩ := listRooms_answer L secret entropy req a l hp
    refine ⟨base, args, ?_⟩
    intro j hrange hfull
    obtain ⟨token, htok, hval⟩ := nthPageToken_pageInfo L hjson haead hb64 hne secret entropy
      hkey hent req h1 h2 hrk hfi hor (ListRooms L secret entropy db)
      (fun p => db (paginateQuery base
        { RequestKey := [], EndCursor := p.EndCursor, Filter := p.Filter, Order := p.Order }
        req.PageSize) args)
      (fun token p hv => hrooms Row db token p hv) j hrange
      (fun i hi => by beta_reduce; rw [paginateQuery_pageInfoAt _ req i hk]; exact hfull i hi)
    refine ⟨token, htok, fun Other other => ?_⟩
    rw [hrooms Other other token _ hval]
    exact congrArg (fun q => answerWith L secret entropy (pageInfoAt req j) req.PageSize
      (other q args)) (paginateQuery_pageInfoAt _ req j hk)

theorem pages_follow_offsets_witness :
    ∃ token,
      nthPageToken (ListAccounts demoLibrary demoSecret demoEntropy demoDatabase)
          demoListRequest 2 = Outcome.ok token ∧
        ListAccounts demoLibrary demoSecret demoEntropy echoDatabase
            { demoListRequest with PageToken := token }
          = Outcome.error
              (GoError.other
                (selectAccountBaseQuery ++ bytesOf " ORDER BY name"
                  ++ bytesOf " LIMIT 2 OFFSET 4")) := by
  obtain ⟨token, h1, h2⟩ :=
    (pages_follow_offsets demoLibrary demoLibrary_jsonRoundTrip demoLibrary_aeadRoundTrip
      demoLibrary_base64RoundTrip demoLibrary_base64NonEmpty demoSecret demoEntropy
      (by decide) (by decide) demoDatabase demoListRequest (by decide) (by decide) (by decide)
      (by decide) (by decide)).1 2 (by decide) (fun i _ => ⟨[1, 2], rfl, rfl⟩)
  refine ⟨token, h1, ?_⟩
  rw [h2 Nat echoDatabase]
  rfl

/-! ## Updates keep names and creation times -/

theorem accountRowKept_refl (J : Runtime) (r : AccountRow) : accountRowKept J r r :=
  ⟨rfl, fun a h => ⟨a, h, rfl, rfl⟩⟩

theorem locationRowKept_refl (r : LocationRow) : locationRowKept r r :=
  ⟨rfl, fun a h => ⟨a, h, rfl, rfl⟩⟩

theorem roomRowKept_refl (r : RoomRow) : roomRowKept r r :=
  ⟨rfl, rfl, rfl, fun a h => ⟨a, h, rfl, rfl⟩⟩

theorem forall₂_self {α : Type} (R : α → α → Prop) (h : ∀ a, R a a) (l : List α) :
    List.Forall₂ R l l := by
  induction l with
  | nil => exact List.Forall₂.nil
  | cons x rest ih => exact List.Forall₂.cons (h x) ih

theorem forall₂_map_self {α : Type} (R : α → α → Prop) (f : α → α) (h : ∀ a, R a (f a))
    (l : List α) : List.Forall₂ R l (l.map f) := by
  induction l with
  | nil => exact List.Forall₂.nil
  | cons x rest ih => exact List.Forall₂.cons (h x) ih

theorem identityKept_refl (J : Runtime) (t : Tables) : IdentityKept J t t :=
  ⟨forall₂_self _ (accountRowKept_refl J) _, forall₂_self _ locationRowKept_refl _,
    forall₂_self _ roomRowKept_refl _⟩

theorem identityKept_of_eq (J : Runtime) (t t' : Tables) (h : t' = t) : IdentityKept J t t' := by
  subst h
  exact identityKept_refl J _

/-- The lookup by key finds corresponding rows in tables related row by row. -/
theorem find?_forall₂ {α : Type} (R : α → α → Prop) (p : α → Bool)
    (hp : ∀ a b, R a b → p b = p a) :
    ∀ (l l' : List α), List.Forall₂ R l l' → ∀ r, l.find? p = some r →
      ∃ r', l'.find? p = some r' ∧ R r r' := by
  intro l l' h
  induction h with
  | nil => intro r hr; simp at hr
  | cons hab _ ih =>
    rename_i a b l1 l2 hl
    intro r hr
    rw [List.find?_cons] at hr
    rw [List.find?_cons, hp a b hab]
    cases hpa : p a with
    | true =>
      rw [hpa] at hr
      simp only [Option.some.injEq] at hr
      subst hr
      exact ⟨b, rfl, hab⟩
    | false =>
      rw [hpa] at hr
      exact ih r hr

theorem storedAccount_kept (J : Runtime) (t t' : Tables) (h : IdentityKept J t t')
    (name : GoString) (e : Account) (hs : storedAccount J t name = Outcome.ok (some e)) :
    ∃ e', storedAccount J t' name = Outcome.ok (some e') ∧ e'.Name = e.Name ∧
      e'.CreateTime = e.CreateTime := by
  unfold storedAccount at hs ⊢
  cases hp : ParseAccount name with
  | ok parsed =>
    simp only [hp] at hs ⊢
    cases hf : t.accounts.find? (fun r => decide (r.name = parsed)) with
    | none => simp [hf] at hs
    | some row =>
      simp only [hf] at hs
      obtain ⟨row', hf', hk⟩ := find?_forall₂ (accountRowKept J)
        (fun r => decide (r.name = parsed)) (fun a b hab => by simp only [hab.1]) _ _ h.1 row hf
      cases hsc : scanAccount J row with
      | error err => simp [hsc] at hs
      | ok a =>
        simp only [hsc, Outcome.ok.injEq, Option.some.injEq] at hs
        subst hs
        obtain ⟨a', ha', hn, hc⟩ := hk.2 a hsc
        exact ⟨a', by simp only [hf', ha'], hn, hc⟩
  | error err => simp [hp, Outcome.failure] at hs
  | panic => simp [hp, Outcome.failure] at hs
  | timeout => simp [hp, Outcome.failure] at hs

theorem storedLocation_kept (J : Runtime) (t t' : Tables) (h : IdentityKept J t t')
    (name : GoString) (e : Location) (hs : storedLocation t name = Outcome.ok (some e)) :
    ∃ e', storedLocation t' name = Outcome.ok (some e') ∧ e'.Name = e.Name ∧
      e'.CreatedTime = e.CreatedTime := by
  unfold storedLocation at hs ⊢
  cases hf : t.locations.find? (fun r => decide (r.name = name)) with
  | none => simp [hf] at hs
  | some row =>
    simp only [hf] at hs
    obtain ⟨row', hf', hk⟩ := find?_forall₂ locationRowKept
      (fun r => decide (r.name = name)) (fun a b hab => by simp only [hab.1]) _ _ h.2.1 row hf
    cases hsc : scanLocation row with
    | error err => simp [hsc] at hs
    | ok a =>
      simp only [hsc, Outcome.ok.injEq, Option.some.injEq] at hs
      subst hs
      obtain ⟨a', ha', hn, hc⟩ := hk.2 a hsc
      exact ⟨a', by simp only [hf', ha'], hn, hc⟩

theorem storedRoom_kept (J : Runtime) (t t' : Tables) (h : IdentityKept J t t')
    (name : GoString) (e : Room) (hs : storedRoom t name = Outcome.ok (some e)) :
    ∃ e', storedRoom t' name = Outcome.ok (some e') ∧ e'.Name = e.Name ∧
      e'.CreateTime = e.CreateTime := by
  unfold storedRoom at hs ⊢
  cases hp : ParseRoom name with
  | ok parsed =>
    obtain ⟨an, ln, rn⟩ := parsed
    simp only [hp] at hs ⊢
    cases hf : t.rooms.find? (fun r =>
        decide (r.account = an) && decide (r.location = ln) && decide (r.name = rn)) with
    | none => simp [hf] at hs
    | some row =>
      simp only [hf] at hs
      obtain ⟨row', hf', hk⟩ := find?_forall₂ roomRowKept
        (fun r => decide (r.account = an) && decide (r.location = ln) && decide (r.name = rn))
        (fun a b hab => by simp only [hab.1, hab.2.1, hab.2.2.1]) _ _ h.2.2 row hf
      cases hsc : scanRoom row with
      | error err => simp [hsc] at hs
      | ok a =>
        simp only [hsc, Outcome.ok.injEq, Option.some.injEq] at hs
        subst hs
        obtain ⟨a', ha', hn, hc⟩ := hk.2.2.2 a hsc
        exact ⟨a', by simp only [hf', ha'], hn, hc⟩
  | error err => simp [hp, Outcome.failure] at hs
  | panic => simp [hp, Outcome.failure] at hs
  | timeout => simp [hp, Outcome.failure] at hs

theorem ptypesTimestampProto_ok (t u : Timestamp) (h : ptypesTimestampProto t = Except.ok u) :
    timestampValid t = true ∧ u = t := by
  unfold ptypesTimestampProto at h
  by_cases hv : timestampValid t = true
  · simp only [hv, if_true, Except.ok.injEq] at h
    exact ⟨hv, h.symm⟩
  · simp [hv] at h

theorem ptypesTimestampProto_of_valid (t : Timestamp) (h : timestampValid t = true) :
    ptypesTimestampProto t = Except.ok t := by
  simp [ptypesTimestampProto, h]

theorem ptypesTimestamp_ok (ts : Option Timestamp) (u : Timestamp)
    (h : ptypesTimestamp ts = Except.ok u) : timestampValid u = true := by
  unfold ptypesTimestamp at h
  cases ts with
  | none => simp at h
  | some t =>
    by_cases hv : timestampValid t = true
    · simp only [hv, if_true, Except.ok.injEq] at h
      rw [← h]
      exact hv
    · simp [hv] at h

/-- What a row that decodes to an account tells about the account. -/
theorem scanAccount_fields (J : Runtime) (r : AccountRow) (a : Account)
    (h : scanAccount J r = Except.ok a) :
    timestampValid r.created_time = true ∧ a.Name = BuildAccount r.name ∧
      a.CreateTime = some r.created_time := by
  unfold scanAccount at h
  cases hc : ptypesTimestampProto r.created_time with
  | error e => simp [hc] at h
  | ok created =>
    obtain ⟨hv, hcr⟩ := ptypesTimestampProto_ok _ _ hc
    subst hcr
    simp only [hc] at h
    split at h
    · simp at h
    · split at h
      · simp at h
      · split at h
        · simp at h
        · simp only [Except.ok.injEq] at h
          subst h
          exact ⟨hv, rfl, rfl⟩

theorem scanAccount_of_parts (J : Runtime) (r : AccountRow) (s : AccountStatus)
    (q : AccountQuotas) (hc : timestampValid r.created_time = true)
    (hu : ∀ t, r.updated_time = some t → timestampValid t = true)
    (hs : J.statusUnmarshal r.status = Except.ok s)
    (hq : J.quotasUnmarshal r.quotas = Except.ok q) :
    ∃ a, scanAccount J r = Except.ok a ∧ a.Name = BuildAccount r.name ∧
      a.CreateTime = some r.created_time := by
  unfold scanAccount
  rw [ptypesTimestampProto_of_valid _ hc]
  cases hup : r.updated_time with
  | none =>
    simp only [hs, hq]
    exact ⟨_, rfl, rfl, rfl⟩
  | some t =>
    have := ptypesTimestampProto_of_valid t (hu t hup)
    simp only [this, hs, hq]
    exact ⟨_, rfl, rfl, rfl⟩

theorem scanLocation_fields (r : LocationRow) (a : Location)
    (h : scanLocation r = Except.ok a) :
    timestampValid r.created_time = true ∧ a.Name = r.name ∧
      a.CreatedTime = some r.created_time := by
  unfold scanLocation at h
  cases hc : ptypesTimestampProto r.created_time with
  | error e => simp [hc] at h
  | ok created =>
    obtain ⟨hv, hcr⟩ := ptypesTimestampProto_ok _ _ hc
    subst hcr
    simp only [hc] at h
    split at h
    · simp at h
    · simp only [Except.ok.injEq] at h
      subst h
      exact ⟨hv, rfl, rfl⟩

theorem scanLocation_of_parts (r : LocationRow) (hc : timestampValid r.created_time = true)
    (hu : ∀ t, r.updated_time = some t → timestampValid t = true) :
    ∃ a, scanLocation r = Except.ok a ∧ a.Name = r.name ∧
      a.CreatedTime = some r.created_time := by
  unfold scanLocation
  rw [ptypesTimestampProto_of_valid _ hc]
  cases hup : r.updated_time with
  | none => exact ⟨_, rfl, rfl, rfl⟩
  | some t =>
    have := ptypesTimestampProto_of_valid t (hu t hup)
    simp only [this]
    exact ⟨_, rfl, rfl, rfl⟩

theorem scanRoom_fields (r : RoomRow) (a : Room) (h : scanRoom r = Except.ok a) :
    timestampValid r.created_time = true ∧ a.Name = BuildRoom r.account r.location r.name ∧
      a.CreateTime = some r.created_time := by
  unfold scanRoom at h
  cases hc : ptypesTimestampProto r.created_time with
  | error e => simp [hc] at h
  | ok created =>
    obtain ⟨hv, hcr⟩ := ptypesTimestampProto_ok _ _ hc
    subst hcr
    simp only [hc] at h
    split at h
    · simp at h
    · simp only [Except.ok.injEq] at h
      subst h
      exact ⟨hv, rfl, rfl⟩

theorem scanRoom_of_parts (r : RoomRow) (hc : timestampValid r.created_time = true)
    (hu : ∀ t, r.updated_time = some t → timestampValid t = true) :
    ∃ a, scanRoom r = Except.ok a ∧ a.Name = BuildRoom r.account r.location r.name ∧
      a.CreateTime = some r.created_time := by
  unfold scanRoom
  rw [ptypesTimestampProto_of_valid _ hc]
  cases hup : r.updated_time with
  | none => exact ⟨_, rfl, rfl, rfl⟩
  | some t =>
    have := ptypesTimestampProto_of_valid t (hu t hup)
    simp only [this]
    exact ⟨_, rfl, rfl, rfl⟩

theorem execUpdateAccount_kept (F : FaultPlan) (J : Runtime)
    (displayName status quotas : GoString) (updated : Timestamp) (name : GoString) (w : World)
    (s : AccountStatus) (q : AccountQuotas) (hu : timestampValid updated = true)
    (hs : J.statusUnmarshal status = Except.ok s) (hq : J.quotasUnmarshal quotas = Except.ok q) :
    IdentityKept J w.tables
      (execUpdateAccount F displayName status quotas updated name w).2.tables := by
  unfold execUpdateAccount statementCall
  cases F w.calls with
  | some e => exact identityKept_refl J _
  | none =>
    refine ⟨?_, forall₂_self _ locationRowKept_refl _, forall₂_self _ roomRowKept_refl _⟩
    apply forall₂_map_self
    intro r
    by_cases hn : r.name = name
    · rw [if_pos hn]
      refine ⟨rfl, ?_⟩
      intro a ha
      obtain ⟨hc, hname, hct⟩ := scanAccount_fields J r a ha
      obtain ⟨a', ha', hn', hc'⟩ := scanAccount_of_parts J
        { r with display_name := displayName, status := status, quotas := quotas,
                 updated_time := some updated } s q hc
        (fun t ht => by
          simp only [Option.some.injEq] at ht
          rw [← ht]
          exact hu) hs hq
      exact ⟨a', ha', by rw [hn', hname], by rw [hc', hct]⟩
    · rw [if_neg hn]
      exact accountRowKept_refl J r

theorem execUpdateLocation_kept (F : FaultPlan) (J : Runtime)
    (displayName description : GoString) (updated : Timestamp) (name : GoString) (w : World)
    (hu : timestampValid updated = true) :
    IdentityKept J w.tables
      (execUpdateLocation F displayName description updated name w).2.tables := by
  unfold execUpdateLocation statementCall
  cases F w.calls with
  | some e => exact identityKept_refl J _
  | none =>
    refine ⟨forall₂_self _ (accountRowKept_refl J) _, ?_, forall₂_self _ roomRowKept_refl _⟩
    apply forall₂_map_self
    intro r
    by_cases hn : r.name = name
    · rw [if_pos hn]
      refine ⟨rfl, ?_⟩
      intro a ha
      obtain ⟨hc, hname, hct⟩ := scanLocation_fields r a ha
      obtain ⟨a', ha', hn', hc'⟩ := scanLocation_of_parts
        { r with display_name := displayName, description := description,
                 updated_time := some updated } hc
        (fun t ht => by
          simp only [Option.some.injEq] at ht
          rw [← ht]
          exact hu)
      exact ⟨a', ha', by rw [hn', hname], by rw [hc', hct]⟩
    · rw [if_neg hn]
      exact locationRowKept_refl r

theorem execUpdateRoom_kept (F : FaultPlan) (J : Runtime)
    (displayName description : GoString) (updated : Timestamp) (id : GoString) (w : World)
    (hu : timestampValid updated = true) :
    IdentityKept J w.tables
      (execUpdateRoom F displayName description updated id w).2.tables := by
  unfold execUpdateRoom statementCall
  cases F w.calls with
  | some e => exact identityKept_refl J _
  | none =>
    refine ⟨forall₂_self _ (accountRowKept_refl J) _, forall₂_self _ locationRowKept_refl _, ?_⟩
    apply forall₂_map_self
    intro r
    by_cases hn : r.id = id
    · rw [if_pos hn]
      refine ⟨rfl, rfl, rfl, ?_⟩
      intro a ha
      obtain ⟨hc, hname, hct⟩ := scanRoom_fields r a ha
      obtain ⟨a', ha', hn', hc'⟩ := scanRoom_of_parts
        { r with display_name := displayName, description := description,
                 updated_time := some updated } hc
        (fun t ht => by
          simp only [Option.some.injEq] at ht
          rw [← ht]
          exact hu)
      exact ⟨a', ha', by rw [hn', hname], by rw [hc', hct]⟩
    · rw [if_neg hn]
      exact roomRowKept_refl r

/-- A transaction whose callback keeps the identity of every row keeps it
too, whether it commits or is rolled back. -/
theorem doTransaction_kept {σ : Type} (J : Runtime) (F : FaultPlan) (init : σ)
    (callback : World → (σ × Outcome Unit) × World) (w : World)
    (h : ∀ w0 : World, w0.tables = w.tables → IdentityKept J w.tables (callback w0).2.tables) :
    IdentityKept J w.tables (doTransaction F init callback w).2.tables := by
  unfold doTransaction controlCall
  cases F w.calls with
  | some e => exact identityKept_refl J _
  | none =>
    simp only
    have hcb := h { w with calls := w.calls + 1 } rfl
    rcases hres : callback { w with calls := w.calls + 1 } with ⟨⟨s, r⟩, w1⟩
    rw [hres] at hcb
    cases r with
    | ok u =>
      simp only
      cases F w1.calls with
      | some e => exact identityKept_refl J _
      | none => exact hcb
    | error e => exact identityKept_refl J _
    | panic => exact identityKept_refl J _
    | timeout => exact identityKept_refl J _

theorem doGetLocation_tables (F : FaultPlan) (name : GoString) (w : World) :
    (doGetLocation F name w).2.tables = w.tables := by
  unfold doGetLocation queryLocationRow statementCall
  cases F w.calls with
  | some e => rfl
  | none =>
    simp only
    cases w.tables.locations.find? (fun r => decide (r.name = name)) with
    | none => rfl
    | some row => cases hs : scanLocation row <;> simp only [hs]

theorem doGetRoom_tables (F : FaultPlan) (name : GoString) (w : World) :
    (doGetRoom F name w).2.tables = w.tables := by
  unfold doGetRoom
  cases hp : ParseRoom name with
  | ok parsed =>
    obtain ⟨a, l, r⟩ := parsed
    simp only
    unfold queryRoomRow statementCall
    cases F w.calls with
    | some e => rfl
    | none =>
      simp only
      cases w.tables.rooms.find? (fun x =>
        decide (x.account = a) && decide (x.location = l) && decide (x.name = r)) with
      | none => rfl
      | some row => cases hs : scanRoom row <;> simp only [hs]
  | error e => rfl
  | panic => rfl
  | timeout => rfl

theorem updateAccountTx_kept (F : FaultPlan) (J : Runtime) (hJ : UnmarshalAfterMarshal J)
    (now : Timestamp) (account accountName : GoString) (updater : Account → Outcome Account)
    (w w0 : World) (h0 : w0.tables = w.tables) :
    IdentityKept J w.tables
      (updateAccountTx F J now account accountName updater w0).2.tables := by
  unfold updateAccountTx
  have hget := (doGetAccount_readonly F J account w0).1
  rcases hg : doGetAccount F J account w0 with ⟨r, w1⟩
  rw [hg] at hget
  have h1 : w1.tables = w.tables := hget.trans h0
  have hsame : IdentityKept J w.tables w1.tables := identityKept_of_eq J _ _ h1
  cases r with
  | error e => exact hsame
  | panic => exact hsame
  | timeout => exact hsame
  | ok x =>
    cases x with
    | none => exact hsame
    | some found =>
      simp only
      cases hu : updater { found with UpdateTime := some now } with
      | error e => exact hsame
      | panic => exact hsame
      | timeout => exact hsame
      | ok existing =>
        simp only
        cases hst : existing.Status with
        | none => exact hsame
        | some st =>
          simp only
          cases hsm : J.statusMarshal st with
          | error d => exact hsame
          | ok status =>
            simp only
            cases hqt : existing.Quotas with
            | none => exact hsame
            | some qt =>
              simp only
              cases hqm : J.quotasMarshal qt with
              | error d => exact hsame
              | ok quotas =>
                simp only
                cases hts : ptypesTimestamp existing.UpdateTime with
                | error e => exact hsame
                | ok updated =>
                  simp only
                  obtain ⟨s', hs'⟩ := hJ.1 st status hsm
                  obtain ⟨q', hq'⟩ := hJ.2 qt quotas hqm
                  have hk := execUpdateAccount_kept F J existing.DisplayName status quotas
                    updated accountName w1 s' q' (ptypesTimestamp_ok _ _ hts) hs' hq'
                  rw [h1] at hk
                  rcases hex : execUpdateAccount F existing.DisplayName status quotas updated
                    accountName w1 with ⟨err, w2⟩
                  rw [hex] at hk
                  cases err <;> exact hk

theorem doUpdateAccount_kept (F : FaultPlan) (J : Runtime) (hJ : UnmarshalAfterMarshal J)
    (now : Timestamp) (account : GoString) (updater : Account → Outcome Account) (w : World) :
    IdentityKept J w.tables (doUpdateAccount F J now account updater w).2.tables := by
  unfold doUpdateAccount
  cases hp : ParseAccount account with
  | ok accountName =>
    simp only
    have hk := doTransaction_kept J F none (updateAccountTx F J now account accountName updater) w
      (fun w0 h0 => updateAccountTx_kept F J hJ now account accountName updater w w0 h0)
    rcases hd : doTransaction F none (updateAccountTx F J now account accountName updater) w with
      ⟨⟨s, r⟩, w1⟩
    rw [hd] at hk
    cases r <;> exact hk
  | error e => exact identityKept_refl J _
  | panic => exact identityKept_refl J _
  | timeout => exact identityKept_refl J _

theorem updateLocationTx_kept (F : FaultPlan) (J : Runtime) (now : Timestamp)
    (location : Location) (fieldMask : Option (List GoString)) (w w0 : World)
    (h0 : w0.tables = w.tables) :
    IdentityKept J w.tables (updateLocationTx F J now location fieldMask w0).2.tables := by
  unfold updateLocationTx
  have hget := doGetLocation_tables F location.Name w0
  rcases hg : doGetLocation F location.Name w0 with ⟨r, w1⟩
  rw [hg] at hget
  have h1 : w1.tables = w.tables := hget.trans h0
  have hsame : IdentityKept J w.tables w1.tables := identityKept_of_eq J _ _ h1
  cases r with
  | error e => exact hsame
  | panic => exact hsame
  | timeout => exact hsame
  | ok x =>
    cases x with
    | none => exact hsame
    | some found =>
      simp only
      cases hm : applyUpdateMaskLocation J found location fieldMask with
      | error e => exact hsame
      | ok merged =>
        simp only
        cases hts : ptypesTimestamp (some now) with
        | error e => exact hsame
        | ok updated =>
          simp only
          have hk := execUpdateLocation_kept F J merged.DisplayName merged.Description updated
            found.Name w1 (ptypesTimestamp_ok _ _ hts)
          rw [h1] at hk
          rcases hex : execUpdateLocation F merged.DisplayName merged.Description updated
            found.Name w1 with ⟨err, w2⟩
          rw [hex] at hk
          cases err <;> exact hk

theorem storeUpdateLocation_kept (F : FaultPlan) (J : Runtime) (now : Timestamp)
    (location : Location) (fieldMask : Option (List GoString)) (w : World) :
    IdentityKept J w.tables (storeUpdateLocation F J now location fieldMask w).2.tables := by
  unfold storeUpdateLocation
  have hk := doTransaction_kept J F none (updateLocationTx F J now location fieldMask) w
    (fun w0 h0 => updateLocationTx_kept F J now location fieldMask w w0 h0)
  rcases hd : doTransaction F none (updateLocationTx F J now location fieldMask) w with
    ⟨⟨s, r⟩, w1⟩
  rw [hd] at hk
  cases r <;> exact hk

theorem updateRoomTx_kept (F : FaultPlan) (J : Runtime) (now : Timestamp)
    (room : Room) (fieldMask : Option (List GoString)) (w w0 : World)
    (h0 : w0.tables = w.tables) :
    IdentityKept J w.tables (updateRoomTx F J now room fieldMask w0).2.tables := by
  unfold updateRoomTx
  have hget := doGetRoom_tables F room.Name w0
  rcases hg : doGetRoom F room.Name w0 with ⟨r, w1⟩
  rw [hg] at hget
  have h1 : w1.tables = w.tables := hget.trans h0
  have hsame : IdentityKept J w.tables w1.tables := identityKept_of_eq J _ _ h1
  cases r with
  | error e => exact hsame
  | panic => exact hsame
  | timeout => exact hsame
  | ok x =>
    cases x with
    | none => exact hsame
    | some found =>
      simp only
      cases hm : applyUpdateMaskRoom J found room fieldMask with
      | error e => exact hsame
      | ok merged =>
        simp only
        cases hts : ptypesTimestamp (some now) with
        | error e => exact hsame
        | ok updated =>
          simp only
          have hk := execUpdateRoom_kept F J merged.DisplayName merged.Description updated
            found.Uid w1 (ptypesTimestamp_ok _ _ hts)
          rw [h1] at hk
          rcases hex : execUpdateRoom F merged.DisplayName merged.Description updated
            found.Uid w1 with ⟨err, w2⟩
          rw [hex] at hk
          cases err <;> exact hk

theorem storeUpdateRoom_kept (F : FaultPlan) (J : Runtime) (now : Timestamp)
    (room : Room) (fieldMask : Option (List GoString)) (w : World) :
    IdentityKept J w.tables (storeUpdateRoom F J now room fieldMask w).2.tables := by
  unfold storeUpdateRoom
  have hk := doTransaction_kept J F none (updateRoomTx F J now room fieldMask) w
    (fun w0 h0 => updateRoomTx_kept F J now room fieldMask w w0 h0)
  rcases hd : doTransaction F none (updateRoomTx F J now room fieldMask) w with
    ⟨⟨s, r⟩, w1⟩
  rw [hd] at hk
  cases r <;> exact hk

theorem storeUpdateAccountStatus_world (F : FaultPlan) (J : Runtime) (now : Timestamp)
    (name : GoString) (status : AccountStatus) (w : World) :
    ∃ updater, (storeUpdateAccountStatus F J now name status w).2
      = (doUpdateAccount F J now name updater w).2 := by
  refine ⟨fun existing =>
    match existing.Status with
    | none => Outcome.panic
    | some s =>
      Outcome.ok
        { existing with
          Status := some { s with Phase := status.Phase, Reason := status.Reason,
                                  Message := status.Message } }, ?_⟩
  unfold storeUpdateAccountStatus
  split <;> (rename_i h; rw [h])

theorem storeUpdateAccountQuotas_world (F : FaultPlan) (J : Runtime) (now : Timestamp)
    (name : GoString) (quotas : AccountQuotas) (w : World) :
    ∃ updater, (storeUpdateAccountQuotas F J now name quotas w).2
      = (doUpdateAccount F J now name updater w).2 := by
  refine ⟨fun existing =>
    match existing.Quotas with
    | none => Outcome.panic
    | some q =>
      Outcome.ok
        { existing with
          Quotas := some { q with Devices := quotas.Devices,
                                  Locations := quotas.Locations } }, ?_⟩
  unfold storeUpdateAccountQuotas
  split <;> (rename_i h; rw [h])

theorem accountKept_of_identity (J : Runtime) (w w1 : World)
    (h : IdentityKept J w.tables w1.tables) (name : GoString) (e : Account)
    (hs : storedAccount J w.tables name = Outcome.ok (some e)) : AccountKept J name e w1 := by
  obtain ⟨e', he', hn, hc⟩ := storedAccount_kept J _ _ h name e hs
  obtain ⟨parsed, hp⟩ := parseAccount_of_stored J _ name _ hs
  refine ⟨e', fun F hF => ?_, hn, hc⟩
  unfold storeGetAccount
  rw [doGetAccount_noFaults F hF J name parsed hp w1, he']

theorem locationKept_of_identity (J : Runtime) (w w1 : World)
    (h : IdentityKept J w.tables w1.tables) (name : GoString) (e : Location)
    (hs : storedLocation w.tables name = Outcome.ok (some e)) : LocationKept name e w1 := by
  obtain ⟨e', he', hn, hc⟩ := storedLocation_kept J _ _ h name e hs
  refine ⟨e', fun F hF => ?_, hn, hc⟩
  unfold storeGetLocation
  rw [doGetLocation_noFaults F hF name w1, he']

theorem roomKept_of_identity (J : Runtime) (w w1 : World)
    (h : IdentityKept J w.tables w1.tables) (name : GoString) (e : Room)
    (hs : storedRoom w.tables name = Outcome.ok (some e)) : RoomKept name e w1 := by
  obtain ⟨e', he', hn, hc⟩ := storedRoom_kept J _ _ h name e hs
  obtain ⟨a, l, r, hp⟩ := parseRoom_of_stored _ name _ hs
  refine ⟨e', fun F hF => ?_, hn, hc⟩
  unfold storeGetRoom
  rw [doGetRoom_noFaults F hF name a l r hp w1, he']

/-- C26: no update operation of the store changes the name or the creation
time of a stored entity: whatever the payload, the field mask, the entity
updated and the outcome of the update (database calls may fail), an account,
location or room stored under `name` before `UpdateAccount`,
`UpdateAccountStatus`, `UpdateAccountQuotas`, `UpdateLocation` or `UpdateRoom`
is returned by a get of `name` afterwards with the same name and creation
time (the marshalled status and quotas being readable by the unmarshaller). -/
theorem update_keeps_name_and_creation_time (F : FaultPlan) (J : Runtime)
    (hJ : UnmarshalAfterMarshal J) (now : Timestamp) (w : World) :
    (∀ (name : GoString) (e : Account), storedAccount J w.tables name = Outcome.ok (some e) →
      (∀ account : Account, AccountKept J name e (storeUpdateAccount F J now account w).2) ∧
      (∀ (target : GoString) (status : AccountStatus),
        AccountKept J name e (storeUpdateAccountStatus F J now target status w).2) ∧
      (∀ (target : GoString) (quotas : AccountQuotas),
        AccountKept J name e (storeUpdateAccountQuotas F J now target quotas w).2) ∧
      (∀ (location : Location) (mask : Option (List GoString)),
        AccountKept J name e (storeUpdateLocation F J now location mask w).2) ∧
      ∀ (room : Room) (mask : Option (List GoString)),
        AccountKept J name e (storeUpdateRoom F J now room mask w).2) ∧
    (∀ (name : GoString) (e : Location), storedLocation w.tables name = Outcome.ok (some e) →
      (∀ (location : Location) (mask : Option (List GoString)),
        LocationKept name e (storeUpdateLocation F J now location mask w).2) ∧
      (∀ account : Account, LocationKept name e (storeUpdateAccount F J now account w).2) ∧
      ∀ (room : Room) (mask : Option (List GoString)),
        LocationKept name e (storeUpdateRoom F J now room mask w).2) ∧
    (∀ (name : GoString) (e : Room), storedRoom w.tables name = Outcome.ok (some e) →
      (∀ (room : Room) (mask : Option (List GoString)),
        RoomKept name e (storeUpdateRoom F J now room mask w).2) ∧
      (∀ account : Account, RoomKept name e (storeUpdateAccount F J now account w).2) ∧
      ∀ (location : Location) (mask : Option (List GoString)),
        RoomKept name e (storeUpdateLocation F J now location mask w).2) := by
  have hacc : ∀ account : Account,
      IdentityKept J w.tables (storeUpdateAccount F J now account w).2.tables :=
    fun account => doUpdateAccount_kept F J hJ now _ _ w
  have hloc := fun location mask => storeUpdateLocation_kept F J now location mask w
  have hroom := fun room mask => storeUpdateRoom_kept F J now room mask w
  refine ⟨?_, ?_, ?_⟩
  · intro name e hs
    refine ⟨fun account => accountKept_of_identity J w _ (hacc account) name e hs, ?_, ?_,
      fun location mask => accountKept_of_identity J w _ (hloc location mask) name e hs,
      fun room mask => accountKept_of_identity J w _ (hroom room mask) name e hs⟩
    · intro target status
      obtain ⟨updater, hw⟩ := storeUpdateAccountStatus_world F J now target status w
      rw [hw]
      exact accountKept_of_identity J w _ (doUpdateAccount_kept F J hJ now _ _ w) name e hs
    · intro target quotas
      obtain ⟨updater, hw⟩ := storeUpdateAccountQuotas_world F J now target quotas w
      rw [hw]
      exact accountKept_of_identity J w _ (doUpdateAccount_kept F J hJ now _ _ w) name e hs
  · intro name e hs
    exact ⟨fun location mask => locationKept_of_identity J w _ (hloc location mask) name e hs,
      fun account => locationKept_of_identity J w _ (hacc account) name e hs,
      fun room mask => locationKept_of_identity J w _ (hroom room mask) name e hs⟩
  · intro name e hs
    exact ⟨fun room mask => roomKept_of_identity J w _ (hroom room mask) name e hs,
      fun account => roomKept_of_identity J w _ (hacc account) name e hs,
      fun location mask => roomKept_of_identity J w _ (hloc location mask) name e hs⟩

theorem demoRuntime_unmarshalAfterMarshal : UnmarshalAfterMarshal demoRuntime := by
  constructor
  · intro s text h
    simp only [demoRuntime, Except.ok.injEq] at h
    subst h
    have hlen : s.Name.length + s.Reason.length
        ≤ (s.Name ++ (s.Reason ++ s.Message)).length := by
      simp only [List.length_append]
      omega
    simp only [demoRuntime, List.cons_append, List.nil_append, hlen, if_true]
    exact ⟨_, rfl⟩
  · intro q text h
    simp only [demoRuntime, Except.ok.injEq] at h
    subst h
    exact ⟨_, rfl⟩

theorem update_keeps_name_and_creation_time_witness :
    (∃ e, storedAccount demoRuntime worldWithRoom.tables (bytesOf "accounts/acme-corp")
        = Outcome.ok (some e) ∧
      AccountKept demoRuntime (bytesOf "accounts/acme-corp") e
        (storeUpdateAccount noFaults demoRuntime demoLater
          { demoAccountPayload with Name := bytesOf "accounts/acme-corp",
                                    DisplayName := bytesOf "New" } worldWithRoom).2) ∧
    (∃ e, storedLocation worldWithRoom.tables (bytesOf "accounts/acme-corp/locations/head-office")
        = Outcome.ok (some e) ∧
      LocationKept (bytesOf "accounts/acme-corp/locations/head-office") e
        (storeUpdateLocation noFaults demoRuntime demoLater demoLocationUpdate none
          worldWithRoom).2) ∧
    ∃ e, storedRoom worldWithRoom.tables
        (bytesOf "accounts/acme-corp/locations/head-office/rooms/room-101")
        = Outcome.ok (some e) ∧
      RoomKept (bytesOf "accounts/acme-corp/locations/head-office/rooms/room-101") e
        (storeUpdateRoom noFaults demoRuntime demoLater demoRoomUpdate none worldWithRoom).2 := by
  have h := update_keeps_name_and_creation_time noFaults demoRuntime
    demoRuntime_unmarshalAfterMarshal demoLater worldWithRoom
  refine ⟨⟨_, rfl, ?_⟩, ⟨_, rfl, ?_⟩, ⟨_, rfl, ?_⟩⟩
  · exact (h.1 (bytesOf "accounts/acme-corp") _ rfl).1 _
  · exact (h.2.1 (bytesOf "accounts/acme-corp/locations/head-office") _ rfl).1 _ _
  · exact (h.2.2 (bytesOf "accounts/acme-corp/locations/head-office/rooms/room-101") _ rfl).1
      _ _

end Chacer
